import Mathlib

/-!
# Store client subsystem (src/src/store_client.cc)

A shallow embedding of the store client of the caching proxy: the per-client
copy engine (`copy`, `storeClientCopy2`, `doCopy`, the disk completions), the
handler fan-out `InvokeHandlers`, `storeUnregister` and the quick-abort policy
(`CheckQuickAbort`, `CheckQuickAbort2`).

Conventions of the embedding.

* `off_t`, `ssize_t` and `int` values are `Int`; a `size_t` value is a `Nat`
  below `2 ^ 64`, and every conversion to `size_t` is written `toSizeT`.
* A failed `assert` makes a function return `none`.
* Code outside `store_client.cc` that the functions call (the handler, the disk
  layer, the event queue, `storeAbort`, ...) is not executed: every such call is
  appended to the `trace` of the state as an `Effect`, in program order.  What
  such a call answers (is the callback data still valid, did the swap-in open,
  how many bytes did the memory copy return, ...) is read from an `Env`.
-/

namespace StoreClient

/-! ## Machine integers -/

/-- The number of values of a `size_t` (64 bit). -/
def SIZE_MOD : Nat := 2 ^ 64

/-- Conversion of a signed value to `size_t`: reduction modulo `2 ^ 64`. -/
def toSizeT (x : Int) : Nat := (x % (SIZE_MOD : Int)).toNat

/-- Conversion of a `size_t` to `ssize_t`: values from `2 ^ 63` on are negative. -/
def toSSizeT (n : Nat) : Int :=
  if n % SIZE_MOD < 2 ^ 63 then ((n % SIZE_MOD : Nat) : Int)
  else ((n % SIZE_MOD : Nat) : Int) - (SIZE_MOD : Int)

/-- Subtraction of two `size_t` values, which wraps around. -/
def subSizeT (a b : Nat) : Nat := (a + SIZE_MOD - b % SIZE_MOD) % SIZE_MOD

/-- Left shift by ten bits of a `size_t` value, which drops the high bits. -/
def shl10SizeT (a : Nat) : Nat := (a * 1024) % SIZE_MOD

/-! ## Data model -/

/-- The `store_status` of an entry. -/
inductive StoreStatus where
  | STORE_OK
  | STORE_PENDING
  deriving DecidableEq, Repr

/-- The `swap_status` of an entry. -/
inductive SwapStatus where
  | SWAPOUT_NONE
  | SWAPOUT_WRITING
  | SWAPOUT_DONE
  deriving DecidableEq, Repr

/-- The client type an entry assigns at registration (`storeClientType()`). -/
inductive ClientType where
  | STORE_NON_CLIENT
  | STORE_MEM_CLIENT
  | STORE_DISK_CLIENT
  deriving DecidableEq, Repr

/-- A `StoreIOBuffer`: `flags.error`, `length` (a `size_t`), `offset` (an `off_t`)
and `data`, the pointer to the caller's buffer (`none` is `NULL`). -/
structure StoreIOBuffer where
  error : Bool
  length : Nat
  offset : Int
  data : Option Nat
  deriving DecidableEq, Repr

/-- The `store_client::Callback` pair: handler and callback data, `none` is `NULL`. -/
structure Callback where
  callback_handler : Option Nat
  callback_data : Option Nat
  deriving DecidableEq, Repr

/-- The fields of a `store_client` (the back pointer `entry` is passed explicitly). -/
structure store_client where
  type : ClientType
  cmp_offset : Int
  _callback : Callback
  copyInto : StoreIOBuffer
  swapin_sio : Option Nat
  object_ok : Bool
  disk_io_pending : Bool
  store_copying : Bool
  copy_event_pending : Bool
  deriving DecidableEq, Repr

/-- The request an entry was fetched for: only `flags.cachable` is read here. -/
structure HttpRequest where
  cachable : Bool
  deriving DecidableEq, Repr

/-- The part of a `MemObject` the store client reads and writes.  `endOffset` is
the value of `mem->endOffset()`, `swapout_sio_offset` the value of
`mem->swapout.sio->offset()`; the list `clients` is kept in `World`. -/
structure MemObject where
  request : Option HttpRequest
  inmem_lo : Int
  endOffset : Int
  swap_hdr_sz : Nat
  object_sz : Int
  nclients : Int
  fd : Int
  swapout_sio_offset : Int
  deriving DecidableEq, Repr

/-- The part of an `HttpReply` the store client reads. -/
structure HttpReply where
  sline_status : Int
  content_length : Int
  hdr_sz : Int
  deriving DecidableEq, Repr

/-- The part of a `StoreEntry` the store client reads and writes; the four
booleans are the bits of `flags` tested with `EBIT_TEST`. -/
structure StoreEntry where
  mem_obj : Option MemObject
  store_status : StoreStatus
  swap_status : SwapStatus
  swap_filen : Int
  swap_file_sz : Int
  ENTRY_ABORTED : Bool
  ENTRY_FWD_HDR_WAIT : Bool
  KEY_PRIVATE : Bool
  ENTRY_SPECIAL : Bool
  reply : HttpReply
  refcount : Int
  lock_count : Int
  deriving DecidableEq, Repr

/-- `Config.quickAbort`: the three configured integers (kilobytes, kilobytes, percent). -/
structure QuickAbort where
  min : Int
  max : Int
  pct : Int
  deriving DecidableEq, Repr

/-! ## Quick abort -/

/-- `CheckQuickAbort2`: `some true` is "return 1" (abort), `some false` is
"return 0", `none` is a failed `assert`. -/
def CheckQuickAbort2 (quickAbort : QuickAbort) (entry : StoreEntry) : Option Bool :=
  match entry.mem_obj with
  | none => none
  | some mem =>
    if (match mem.request with
        | some r => !r.cachable
        | none => false) then some true
    else if entry.KEY_PRIVATE then some true
    else if entry.reply.content_length + entry.reply.hdr_sz < 0 then none
    else
      let expectlen : Nat := toSizeT (entry.reply.content_length + entry.reply.hdr_sz)
      let curlen : Nat := toSizeT mem.endOffset
      let minlen : Nat := shl10SizeT (toSizeT quickAbort.min)
      if minlen < 0 then some false
      else if curlen > expectlen then some true
      else if subSizeT expectlen curlen < minlen then some false
      else if subSizeT expectlen curlen > toSizeT (quickAbort.max * 1024) then some true
      else if expectlen < 100 then some false
      else if curlen / (expectlen / 100) > toSizeT quickAbort.pct then some false
      else some true

/-! ## Calls that leave the file -/

/-- The completion handed to `storeRead`. -/
inductive ReadCallback where
  | storeClientReadHeader
  | storeClientReadBody
  deriving DecidableEq, Repr

/-- A call into code outside `store_client.cc`, with the arguments that matter. -/
inductive Effect where
  /-- The call `temphandler(cbdata, result)` of the user handler. -/
  | handler (callback_handler cbdata : Nat) (result : StoreIOBuffer)
  /-- The call `eventAdd("storeClientCopyEvent", storeClientCopyEvent, sc, 0.0, 0)`. -/
  | eventAdd
  /-- The call `storeSwapInStart(this)`. -/
  | storeSwapInStart
  /-- The call `storeRead(swapin_sio, buf, size, offset, callback, this)`. -/
  | storeRead (sio : Option Nat) (buf : Option Nat) (size : Nat) (offset : Int)
      (callback : ReadCallback)
  /-- The call `httpReplyParse(reply, buf, headersEnd(buf, size))`. -/
  | httpReplyParse (buf : Option Nat) (size : Int)
  /-- The call `xmemmove(buf, buf + shift, size)`. -/
  | xmemmove (buf : Option Nat) (shift : Nat) (size : Nat)
  /-- The call `storeSwapOut(e)`. -/
  | storeSwapOut
  /-- The call `storeClose(sio)`, followed by `statCounter.swap.ins++`. -/
  | storeClose (sio : Nat)
  /-- The call `storeAbort(entry)`. -/
  | storeAbort
  deriving DecidableEq, Repr

/-- What the code outside `store_client.cc` answers when it is called. -/
structure Env where
  /-- The configuration `Config.quickAbort`. -/
  quickAbort : QuickAbort
  /-- The answer of `storeTooManyDiskFilesOpen()`. -/
  storeTooManyDiskFilesOpen : Bool
  /-- The value of `swapin_sio` after `storeSwapInStart(this)`. -/
  storeSwapInStart : StoreEntry → store_client → Option Nat
  /-- The answer of `cbdataReferenceValid(cbdata)`. -/
  cbdataReferenceValid : Nat → Bool
  /-- The answer of `objectLen(e)`. -/
  objectLen : StoreEntry → Int
  /-- The number `mem->data_hdr.copy(offset, buf, size)` returns. -/
  data_hdr_copy : MemObject → Int → Nat → Int
  /-- The reply after `httpReplyParse` ran on it. -/
  httpReplyParse : HttpReply → HttpReply
  /-- The answer of `aBuilder.isBufferSane()` for the buffer just read. -/
  isBufferSane : Bool
  /-- The list `aBuilder.createStoreMeta()` returns, `none` for `NULL`. -/
  createStoreMeta : Option (List Nat)
  /-- The header size the unpacker stores through its third argument. -/
  swap_hdr_sz : Int
  /-- The answer of `t->checkConsistency(entry)`. -/
  checkConsistency : Nat → StoreEntry → Bool

/-- One client together with its entry and the calls made so far. -/
structure Sys where
  e : StoreEntry
  sc : store_client
  trace : List Effect
  deriving DecidableEq, Repr

/-- An entry with the clients on `mem->clients`, in list order, and the calls
made so far. -/
structure World where
  e : StoreEntry
  clients : List store_client
  trace : List Effect
  deriving DecidableEq, Repr

/-! ## The client -/

/-- `store_client::callbackPending`. -/
def store_client.callbackPending (sc : store_client) : Bool :=
  sc._callback.callback_handler.isSome && sc._callback.callback_data.isSome

/-- The `result` record `store_client::callback` builds (lines 131 to 138). -/
def callbackResult (sc : store_client) (sz : Int) (error : Bool) : StoreIOBuffer :=
  { error := if sz < 0 then true else error
    length := if sz < 0 then 0 else sz.toNat
    offset := sc.cmp_offset
    data := sc.copyInto.data }

/-- The client when `store_client::callback` reaches the handler (lines 140 to 144). -/
def callbackReset (sc : store_client) (sz : Int) : store_client :=
  { sc with
    cmp_offset := sc.copyInto.offset + sz
    _callback := { callback_handler := none, callback_data := none }
    copyInto := { sc.copyInto with data := none } }

/-- The last lines of `store_client::callback` (145 to 147): the handler is
called when its callback data is still valid. -/
def invokeHandler (env : Env) (s : Sys) (temphandler cbdata : Nat) (result : StoreIOBuffer) :
    Sys :=
  if env.cbdataReferenceValid cbdata then
    { s with trace := s.trace ++ [Effect.handler temphandler cbdata result] }
  else s

/-- `store_client::callback(sz, error)`. -/
def callback (env : Env) (s : Sys) (sz : Int) (error : Bool) : Option Sys :=
  match s.sc._callback.callback_handler, s.sc._callback.callback_data with
  | some temphandler, some cbdata =>
    some (invokeHandler env { s with sc := callbackReset s.sc sz } temphandler cbdata
      (callbackResult s.sc sz error))
  | _, _ => none

/-- `store_client::fail`. -/
def fail (env : Env) (s : Sys) : Option Sys :=
  callback env { s with sc := { s.sc with object_ok := false } } 0 true

/-- `storeClientNoMoreToSend`. -/
def storeClientNoMoreToSend (env : Env) (e : StoreEntry) (sc : store_client) : Bool :=
  if e.store_status = StoreStatus.STORE_PENDING then false
  else if env.objectLen e < 0 then false
  else if sc.copyInto.offset < env.objectLen e then false
  else true

/-- `store_client::fileRead`. -/
def fileRead (s : Sys) : Option Sys :=
  match s.e.mem_obj with
  | none => none
  | some mem =>
    if !s.sc.callbackPending then none
    else if s.sc.disk_io_pending then none
    else if mem.swap_hdr_sz ≠ 0 ∧ s.e.swap_status = SwapStatus.SWAPOUT_WRITING ∧
        ¬ (mem.swapout_sio_offset > s.sc.copyInto.offset + (mem.swap_hdr_sz : Int)) then none
    else
      some { s with
        sc := { s.sc with disk_io_pending := true }
        trace := s.trace ++ [Effect.storeRead s.sc.swapin_sio s.sc.copyInto.data
          s.sc.copyInto.length (s.sc.copyInto.offset + (mem.swap_hdr_sz : Int))
          (if mem.swap_hdr_sz = 0 then ReadCallback.storeClientReadHeader
           else ReadCallback.storeClientReadBody)] }

/-- Clearing `flags.store_copying` on a return path of `doCopy`. -/
def doneCopying (s : Sys) : Sys :=
  { s with sc := { s.sc with store_copying := false } }

/-- The part of `store_client::doCopy` from the memory test on (lines 344 to 360). -/
def doCopyMemOrDisk (env : Env) (s : Sys) : Option Sys :=
  match s.e.mem_obj with
  | none => none
  | some mem =>
    if s.sc.copyInto.offset ≥ mem.inmem_lo ∧ s.sc.copyInto.offset < mem.endOffset then
      (callback env s (env.data_hdr_copy mem s.sc.copyInto.offset s.sc.copyInto.length)
        false).map doneCopying
    else if s.sc.type ≠ ClientType.STORE_DISK_CLIENT then none
    else if s.sc.disk_io_pending then none
    else (fileRead s).map doneCopying

/-- The part of `store_client::doCopy` that makes sure a disk client has a
swap-in handle (lines 318 to 343), followed by the memory test. -/
def doCopyOpen (env : Env) (s : Sys) : Option Sys :=
  if s.sc.type = ClientType.STORE_DISK_CLIENT ∧ s.sc.swapin_sio = none then
    if env.storeTooManyDiskFilesOpen then (fail env s).map doneCopying
    else if !s.sc.disk_io_pending then
      let s1 : Sys :=
        { s with
          sc := { s.sc with swapin_sio := env.storeSwapInStart s.e s.sc }
          trace := s.trace ++ [Effect.storeSwapInStart] }
      if s1.sc.swapin_sio = none then (fail env s1).map doneCopying
      else doCopyMemOrDisk env s1
    else some (doneCopying s)
  else doCopyMemOrDisk env s

/-- The test of line 301, `store_status == STORE_PENDING && copyInto.offset >=
mem->endOffset()`; `none` when it reads through a `NULL` `mem`. -/
def waitingForMore (s : Sys) : Option Bool :=
  if s.e.store_status = StoreStatus.STORE_PENDING then
    match s.e.mem_obj with
    | none => none
    | some mem => some (decide (s.sc.copyInto.offset ≥ mem.endOffset))
  else some false

/-- The part of `store_client::doCopy` after the end-of-object test (lines 300 to 360). -/
def doCopySelect (env : Env) (s : Sys) : Option Sys :=
  match waitingForMore s with
  | none => none
  | some true => some (doneCopying s)
  | some false => doCopyOpen env s

/-- `store_client::doCopy`. -/
def doCopy (env : Env) (s : Sys) : Option Sys :=
  let s1 : Sys := { s with sc := { s.sc with store_copying := true } }
  if storeClientNoMoreToSend env s1.e s1.sc then (callback env s1 0 false).map doneCopying
  else doCopySelect env s1

/-- `storeClientCopy2`. -/
def storeClientCopy2 (env : Env) (s : Sys) : Option Sys :=
  if s.sc.copy_event_pending then some s
  else if s.e.ENTRY_FWD_HDR_WAIT then some s
  else if s.sc.store_copying then
    some { s with
      sc := { s.sc with copy_event_pending := true }
      trace := s.trace ++ [Effect.eventAdd] }
  else if !s.sc.callbackPending then none
  else
    match doCopy env s with
    | none => none
    | some s1 => if s1.sc.store_copying then none else some s1

/-- `storeClientCopyEvent`. -/
def storeClientCopyEvent (env : Env) (s : Sys) : Option Sys :=
  if !s.sc.copy_event_pending then none
  else
    let s1 : Sys := { s with sc := { s.sc with copy_event_pending := false } }
    if !s1.sc.callbackPending then some s1
    else storeClientCopy2 env s1

/-- `store_client::copy` (and `storeClientCopy`, which only forwards to it). -/
def copy (env : Env) (s : Sys) (copyRequest : StoreIOBuffer) (callback_fn data : Option Nat) :
    Option Sys :=
  if callback_fn.isNone then none
  else if data.isNone then none
  else if s.e.ENTRY_ABORTED then none
  else if s.sc.callbackPending then none
  else
    storeClientCopy2 env
      { s with
        sc := { s.sc with
          cmp_offset := copyRequest.offset
          _callback := { callback_handler := callback_fn, callback_data := data }
          copyInto := { s.sc.copyInto with
            data := copyRequest.data
            length := copyRequest.length
            offset := copyRequest.offset } } }

/-- `storeClientReadBody`, the completion of a body read of `len` bytes. -/
def storeClientReadBody (env : Env) (s : Sys) (len : Int) : Option Sys :=
  if !s.sc.disk_io_pending then none
  else
    let s1 : Sys := { s with sc := { s.sc with disk_io_pending := false } }
    if !s1.sc.callbackPending then none
    else if s1.sc.copyInto.offset = 0 ∧ len > 0 ∧ s1.e.reply.sline_status = 0 then
      callback env
        { s1 with
          e := { s1.e with reply := env.httpReplyParse s1.e.reply }
          trace := s1.trace ++ [Effect.httpReplyParse s1.sc.copyInto.data len] }
        len false
    else callback env s1 len false

/-- `store_client::unpackHeader`. -/
def unpackHeader (env : Env) (s : Sys) (len : Int) : Option Sys :=
  if len < 0 then fail env s
  else if !env.isBufferSane then fail env s
  else
    match env.createStoreMeta with
    | none => fail env s
    | some tlv_list =>
      if tlv_list.all (fun t => env.checkConsistency t s.e) then
        match s.e.mem_obj with
        | none => none
        | some mem =>
          some { s with
            e := { s.e with
              mem_obj := some { mem with
                swap_hdr_sz := toSizeT env.swap_hdr_sz
                object_sz := s.e.swap_file_sz - env.swap_hdr_sz } } }
      else fail env s

/-- `store_client::readHeader` (and `storeClientReadHeader`, which only forwards
to it), the completion of a header read of `len` bytes. -/
def readHeader (env : Env) (s : Sys) (len : Int) : Option Sys :=
  if !s.sc.disk_io_pending then none
  else
    let s1 : Sys := { s with sc := { s.sc with disk_io_pending := false } }
    if !s1.sc.callbackPending then none
    else
      match unpackHeader env s1 len with
      | none => none
      | some s2 =>
        if !s2.sc.object_ok then some s2
        else
          match s2.e.mem_obj with
          | none => none
          | some mem =>
            let body_sz : Nat := toSizeT (len - (mem.swap_hdr_sz : Int))
            if toSizeT s2.sc.copyInto.offset < body_sz then
              let copy_sz : Nat := Nat.min s2.sc.copyInto.length body_sz
              let s3 : Sys :=
                { s2 with
                  trace := s2.trace ++
                    [Effect.xmemmove s2.sc.copyInto.data mem.swap_hdr_sz copy_sz] }
              if s3.sc.copyInto.offset = 0 ∧ len > 0 ∧ s3.e.reply.sline_status = 0 then
                callback env
                  { s3 with
                    e := { s3.e with reply := env.httpReplyParse s3.e.reply }
                    trace := s3.trace ++
                      [Effect.httpReplyParse s3.sc.copyInto.data (copy_sz : Int)] }
                  (toSSizeT copy_sz) false
              else callback env s3 (toSSizeT copy_sz) false
            else fileRead s2

/-! ## Fan-out, unregistration and quick abort -/

/-- The body of the loop of `InvokeHandlers` for one client of the list. -/
def InvokeHandlersVisit (env : Env) (s : Sys) : Option Sys :=
  if !s.sc.callbackPending then some s
  else if s.sc.disk_io_pending then some s
  else storeClientCopy2 env s

/-- The loop of `InvokeHandlers` over the clients from a node on: the clients
after the walk, the entry and the calls made. -/
def InvokeHandlersWalk (env : Env) :
    List store_client → StoreEntry → List Effect →
      Option (List store_client × StoreEntry × List Effect)
  | [], e, trace => some ([], e, trace)
  | sc :: nx, e, trace =>
    match InvokeHandlersVisit env { e := e, sc := sc, trace := trace } with
    | none => none
    | some s =>
      match InvokeHandlersWalk env nx s.e s.trace with
      | none => none
      | some (clients, e1, trace1) => some (s.sc :: clients, e1, trace1)

/-- `InvokeHandlers`. -/
def InvokeHandlers (env : Env) (w : World) : Option World :=
  match w.e.mem_obj with
  | none => none
  | some _ =>
    match InvokeHandlersWalk env w.clients w.e (w.trace ++ [Effect.storeSwapOut]) with
    | none => none
    | some (clients, e1, trace1) => some { e := e1, clients := clients, trace := trace1 }

/-- `storePendingNClients`. -/
def storePendingNClients (e : StoreEntry) : Int :=
  match e.mem_obj with
  | none => 0
  | some mem => mem.nclients

/-- `CheckQuickAbort`. -/
def CheckQuickAbort (env : Env) (w : World) : Option World :=
  if storePendingNClients w.e > 0 then some w
  else if w.e.store_status ≠ StoreStatus.STORE_PENDING then some w
  else if w.e.ENTRY_SPECIAL then some w
  else
    match CheckQuickAbort2 env.quickAbort w.e with
    | none => none
    | some false => some w
    | some true => some { w with trace := w.trace ++ [Effect.storeAbort] }

/-- Lines 543 to 547 of `storeUnregister`: an open swap-in handle is closed. -/
def closeSwapIn (s : Sys) : Sys :=
  match s.sc.swapin_sio with
  | some sio =>
    { s with
      sc := { s.sc with swapin_sio := none }
      trace := s.trace ++ [Effect.storeClose sio] }
  | none => s

/-- Lines 548 to 553 of `storeUnregister`: a pending callback is failed. -/
def failPending (env : Env) (s : Sys) : Option Sys :=
  if s.sc.callbackPending then fail env s else some s

/-- `storeUnregister(sc, e, data)`: `sc` is the position of the client on
`mem->clients` (`none` for `NULL`); the result is the state and the returned
`int`.  A client that is not on the list of `e` is outside the model. -/
def storeUnregister (env : Env) (w : World) (sc : Option Nat) : Option (World × Int) :=
  match w.e.mem_obj with
  | none => some (w, 0)
  | some mem =>
    match sc with
    | none => some (w, 0)
    | some i =>
      if w.clients = [] then some (w, 0)
      else
        match w.clients.get? i with
        | none => none
        | some c =>
          let mem1 : MemObject := if i = 0 then { mem with fd := -1 } else mem
          let mem2 : MemObject := { mem1 with nclients := mem1.nclients - 1 }
          let e2 : StoreEntry := { w.e with mem_obj := some mem2 }
          let trace1 : List Effect :=
            if e2.store_status = StoreStatus.STORE_OK ∧
                e2.swap_status ≠ SwapStatus.SWAPOUT_DONE then
              w.trace ++ [Effect.storeSwapOut]
            else w.trace
          match failPending env (closeSwapIn { e := e2, sc := c, trace := trace1 }) with
          | none => none
          | some s2 =>
            if ¬ (s2.e.lock_count > 0) then none
            else
              let w2 : World :=
                { e := s2.e, clients := w.clients.eraseIdx i, trace := s2.trace }
              if mem2.nclients = 0 then
                (CheckQuickAbort env w2).map (fun w3 => (w3, 1))
              else some (w2, 1)

/-! ## Registration -/

/-- What can happen to one client and its entry between two returns to the
event loop. -/
inductive Op where
  /-- The client's owner calls `store_client::copy`. -/
  | copy (copyRequest : StoreIOBuffer) (callback_fn data : Option Nat)
  /-- The copy engine `storeClientCopy2` is run on the client. -/
  | storeClientCopy2
  /-- The deferred event `storeClientCopyEvent` fires. -/
  | storeClientCopyEvent
  /-- The walk of `InvokeHandlers` comes to the client. -/
  | InvokeHandlers
  /-- A body read completes with `len`. -/
  | storeClientReadBody (len : Int)
  /-- A header read completes with `len`. -/
  | storeClientReadHeader (len : Int)
  /-- The producer or another client changes the entry. -/
  | entryChanged (e : StoreEntry)

/-- Is the operation a call of `copy`. -/
def Op.isCopy : Op → Bool
  | Op.copy _ _ _ => true
  | _ => false

/-- One operation on a client, with the answers of the environment at that time. -/
def step (env : Env) (s : Sys) : Op → Option Sys
  | Op.copy copyRequest callback_fn data => copy env s copyRequest callback_fn data
  | Op.storeClientCopy2 => storeClientCopy2 env s
  | Op.storeClientCopyEvent => storeClientCopyEvent env s
  | Op.InvokeHandlers => InvokeHandlersVisit env s
  | Op.storeClientReadBody len => storeClientReadBody env s len
  | Op.storeClientReadHeader len => readHeader env s len
  | Op.entryChanged e => some { s with e := e }

/-- A sequence of operations; it stops at the first failed assertion. -/
def run (s : Sys) : List (Env × Op) → Option Sys
  | [] => some s
  | (env, op) :: ops =>
    match step env s op with
    | none => none
    | some s1 => run s1 ops

/-- The results handed to the handler, in order, among the calls of a trace. -/
def deliveries : List Effect → List StoreIOBuffer
  | [] => []
  | Effect.handler _ _ result :: trace => result :: deliveries trace
  | _ :: trace => deliveries trace

/-- The step from `s` to `s1` delivered nothing: the callback slot is as pending
as before, no handler was called and `cmp_offset` is unchanged. -/
def Quiet (s s1 : Sys) : Prop :=
  s1.sc.callbackPending = s.sc.callbackPending ∧ deliveries s1.trace = deliveries s.trace ∧
    s1.sc.cmp_offset = s.sc.cmp_offset

/-- The step from `s` to `s1` consumed the pending callback: the slot was
pending and is empty now, and at most one handler call was added, labelled with
the `cmp_offset` of `s`. -/
def Delivered (s s1 : Sys) : Prop :=
  s.sc.callbackPending = true ∧ s1.sc.callbackPending = false ∧
    ∃ ds, deliveries s1.trace = deliveries s.trace ++ ds ∧ ds.length ≤ 1 ∧
      ∀ d ∈ ds, d.offset = s.sc.cmp_offset

/-- No operation of the sequence is a call of `copy`. -/
def noCopy (ops : List (Env × Op)) : Prop :=
  ∀ p ∈ ops, p.2.isCopy = false

/-- The copy engine has nothing to do for the client on this entry: a copy event
is queued, or the entry waits for its headers to be forwarded, or the client
waits for the producer outside the engine. -/
def Parked (e : StoreEntry) (sc : store_client) : Prop :=
  sc.copy_event_pending = true ∨ e.ENTRY_FWD_HDR_WAIT = true ∨
    (sc.store_copying = false ∧ e.store_status = StoreStatus.STORE_PENDING ∧
      ∃ mem, e.mem_obj = some mem ∧ sc.copyInto.offset ≥ mem.endOffset)

/-- A visit of `InvokeHandlers` leaves the client as it is: no callback is
pending, or a disk read is in flight, or the client is parked. -/
def Settled (e : StoreEntry) (sc : store_client) : Prop :=
  sc.callbackPending = false ∨ sc.disk_io_pending = true ∨ Parked e sc

/-- Is the client due for a visit of `InvokeHandlers`: its callback is pending
and no disk read is in flight. -/
def store_client.awaitsVisit (sc : store_client) : Bool :=
  sc.callbackPending && !sc.disk_io_pending

/-! ## The arithmetic of quick abort -/

/-- Is the originating request of the entry marked non-cacheable (the test
`mem->request && !mem->request->flags.cachable`). -/
def MemObject.nonCachable (mem : MemObject) : Bool :=
  match mem.request with
  | some r => !r.cachable
  | none => false

/-- The quick-abort rule in the words of the specification, "abort iff any of"
its five conditions, with `curLen = mem.endOffset()` and `expectLen` the reply's
content length plus header size. -/
def quickAbortAnyOf (q : QuickAbort) (entry : StoreEntry) (mem : MemObject) : Bool :=
  mem.nonCachable || entry.KEY_PRIVATE ||
    decide (mem.endOffset > entry.reply.content_length + entry.reply.hdr_sz) ||
    decide (entry.reply.content_length + entry.reply.hdr_sz - mem.endOffset > q.max * 1024) ||
    (decide (entry.reply.content_length + entry.reply.hdr_sz ≥ 100) &&
      !decide (mem.endOffset / ((entry.reply.content_length + entry.reply.hdr_sz) / 100)
        > q.pct))

/-- A memory object holding the bytes `[0, curLen)` of a reply, with `nclients`
clients, fetched for a request that is cacheable or not. -/
def sampleMem (cachable : Bool) (curLen nclients : Int) : MemObject :=
  { request := some { cachable := cachable }
    inmem_lo := 0
    endOffset := curLen
    swap_hdr_sz := 0
    object_sz := -1
    nclients := nclients
    fd := -1
    swapout_sio_offset := 0 }

/-- An entry in the given state whose reply announces `expectLen` bytes
(headers included), with the memory object `sampleMem`. -/
def sampleEntry (status : StoreStatus) (cachable : Bool) (curLen expectLen nclients : Int) :
    StoreEntry :=
  { mem_obj := some (sampleMem cachable curLen nclients)
    store_status := status
    swap_status := SwapStatus.SWAPOUT_NONE
    swap_filen := -1
    swap_file_sz := 0
    ENTRY_ABORTED := false
    ENTRY_FWD_HDR_WAIT := false
    KEY_PRIVATE := false
    ENTRY_SPECIAL := false
    reply := { sline_status := 200, content_length := expectLen - 100, hdr_sz := 100 }
    refcount := 1
    lock_count := 1 }

/-- A client of the given type right after its construction: no copy is
outstanding. -/
def sampleClient (type : ClientType) : store_client :=
  { type := type
    cmp_offset := 0
    _callback := { callback_handler := none, callback_data := none }
    copyInto := { error := false, length := 0, offset := 0, data := none }
    swapin_sio := none
    object_ok := true
    disk_io_pending := false
    store_copying := false
    copy_event_pending := false }

/-- An environment with the given quick-abort configuration in which the disk
layer opens handle `7`, every callback data is valid, the object length is
`object_sz`, and the memory copy returns the bytes between the offset and
`endOffset`, at most the size asked for. -/
def sampleEnv (q : QuickAbort) (tooManyOpen : Bool) : Env :=
  { quickAbort := q
    storeTooManyDiskFilesOpen := tooManyOpen
    storeSwapInStart := fun _ _ => some 7
    cbdataReferenceValid := fun _ => true
    objectLen := fun e =>
      match e.mem_obj with
      | some mem => mem.object_sz
      | none => -1
    data_hdr_copy := fun mem offset size => min (size : Int) (mem.endOffset - offset)
    httpReplyParse := fun r => r
    isBufferSane := true
    createStoreMeta := some []
    swap_hdr_sz := 0
    checkConsistency := fun _ _ => true }

/-- The configuration of the specification's quick-abort scenario. -/
def sampleQuickAbort : QuickAbort := { min := 4, max := 256, pct := 95 }

/-- The user handler and the callback data of the sample copies. -/
def sampleHandler : Option Nat := some 1

/-- The callback data of the sample copies. -/
def sampleData : Option Nat := some 2

/-- A copy request for `length` bytes at `offset` into the caller's buffer `9`. -/
def sampleRequest (offset : Int) (length : Nat) : StoreIOBuffer :=
  { error := false, length := length, offset := offset, data := some 9 }

/-- A client of the given type on which the copy `sampleRequest offset length`
is outstanding. -/
def samplePendingClient (type : ClientType) (offset : Int) (length : Nat) : store_client :=
  { sampleClient type with
    cmp_offset := offset
    _callback := { callback_handler := sampleHandler, callback_data := sampleData }
    copyInto := sampleRequest offset length }

/-- The producer-lag scenario: a fresh memory client of a pending entry that
holds the bytes `[0, 200)`. -/
def sampleLagStart : Sys :=
  { e := sampleEntry StoreStatus.STORE_PENDING true 200 10000 1
    sc := sampleClient ClientType.STORE_MEM_CLIENT
    trace := [] }

/-- What follows the copy in the producer-lag scenario: a visit of
`InvokeHandlers` that finds the client waiting, 150 more bytes from the producer,
the visit of `InvokeHandlers` that delivers, and a redundant visit. -/
def sampleLagOps : List (Env × Op) :=
  [(sampleEnv sampleQuickAbort false, Op.InvokeHandlers),
    (sampleEnv sampleQuickAbort false,
      Op.entryChanged (sampleEntry StoreStatus.STORE_PENDING true 350 10000 1)),
    (sampleEnv sampleQuickAbort false, Op.InvokeHandlers),
    (sampleEnv sampleQuickAbort false, Op.InvokeHandlers)]

/-- The producer-lag scenario after the copy of 100 bytes at offset 200 and the
operations `sampleLagOps`: the entry holds 350 bytes and the copy is delivered. -/
def sampleLagEnd : Sys :=
  { e := sampleEntry StoreStatus.STORE_PENDING true 350 10000 1
    sc := { sampleClient ClientType.STORE_MEM_CLIENT with
      cmp_offset := 300
      copyInto := { sampleRequest 200 100 with data := none } }
    trace := [Effect.handler 1 2 (sampleRequest 200 100)] }

/-- The state `sampleLagEnd` after a further copy of 50 bytes at offset 300. -/
def sampleLagEnd2 : Sys :=
  { e := sampleEntry StoreStatus.STORE_PENDING true 350 10000 1
    sc := { sampleClient ClientType.STORE_MEM_CLIENT with
      cmp_offset := 350
      copyInto := { sampleRequest 300 50 with data := none } }
    trace := [Effect.handler 1 2 (sampleRequest 200 100),
      Effect.handler 1 2 (sampleRequest 300 50)] }

/-- A completely received entry of 1000 bytes, all in memory, whose object
length is known. -/
def sampleDoneEntry : StoreEntry :=
  { sampleEntry StoreStatus.STORE_OK true 1000 1000 1 with
    mem_obj := some { sampleMem true 1000 1 with object_sz := 1000 } }

/-- A disk client with the open swap-in handle `7` whose copy
`sampleRequest offset length` has a disk read in flight. -/
def sampleReadingClient (offset : Int) (length : Nat) : store_client :=
  { samplePendingClient ClientType.STORE_DISK_CLIENT offset length with
    swapin_sio := some 7
    disk_io_pending := true }

/-- An environment like `sampleEnv` in which the swap file starts with a valid
metadata header of 120 bytes holding one item. -/
def sampleDiskEnv : Env :=
  { sampleEnv sampleQuickAbort false with
    createStoreMeta := some [3]
    swap_hdr_sz := 120 }

/-- An environment like `sampleDiskEnv` in which the metadata item is
inconsistent with the entry. -/
def sampleCorruptEnv : Env :=
  { sampleDiskEnv with checkConsistency := fun _ _ => false }

/-- A complete entry of 1000 bytes whose memory holds the bytes `[100, 1000)`
only: the first 100 bytes are on disk. -/
def sampleWindowEntry : StoreEntry :=
  { sampleEntry StoreStatus.STORE_OK true 1000 1000 1 with
    mem_obj := some { sampleMem true 1000 1 with object_sz := 1000, inmem_lo := 100 } }

/-! ## Theorems -/

/-! ### Machine integers -/

theorem toSizeT_of_range (x : Int) (h0 : 0 ≤ x) (h1 : x < 2 ^ 64) :
    ((toSizeT x : Nat) : Int) = x := by
  unfold toSizeT SIZE_MOD
  have h : x % ((2 ^ 64 : Nat) : Int) = x := Int.emod_eq_of_lt h0 (by simpa using h1)
  rw [h]
  exact Int.toNat_of_nonneg h0

theorem toSizeT_natCast (n : Nat) (h : n < 2 ^ 64) : toSizeT (n : Int) = n := by
  have := toSizeT_of_range (n : Int) (by omega) (by exact_mod_cast h)
  exact_mod_cast this

theorem toSizeT_lt (x : Int) : toSizeT x < 2 ^ 64 := by
  unfold toSizeT SIZE_MOD
  have h1 : x % ((2 ^ 64 : Nat) : Int) < ((2 ^ 64 : Nat) : Int) :=
    Int.emod_lt_of_pos _ (by norm_num)
  have h0 : 0 ≤ x % ((2 ^ 64 : Nat) : Int) := Int.emod_nonneg _ (by norm_num)
  omega

theorem toSizeT_neg (k : Nat) (h0 : 0 < k) (h1 : k ≤ 2 ^ 64) :
    toSizeT (-(k : Int)) = 2 ^ 64 - k := by
  unfold toSizeT SIZE_MOD
  have h : (-(k : Int)) % ((2 ^ 64 : Nat) : Int) = ((2 ^ 64 - k : Nat) : Int) := by
    rw [← Int.add_mul_emod_self_left (-(k : Int)) ((2 ^ 64 : Nat) : Int) 1]
    rw [Int.emod_eq_of_lt] <;> omega
  rw [h]
  exact Int.toNat_ofNat _

theorem subSizeT_of_le (a b : Nat) (hb : b ≤ a) (ha : a < 2 ^ 64) : subSizeT a b = a - b := by
  unfold subSizeT SIZE_MOD
  have : b % 2 ^ 64 = b := Nat.mod_eq_of_lt (by omega)
  rw [this]
  omega

/-! ### Quick abort -/

/-- The cascade of `CheckQuickAbort2` when the lengths and the two upper
thresholds fit their types; the minimum is kept as the code computes it. -/
theorem CheckQuickAbort2_cascade (entry : StoreEntry) (mem : MemObject) (mn : Int)
    (x c mx pc : Nat) (hmem : entry.mem_obj = some mem)
    (hc : mem.endOffset = (c : Int))
    (hx : entry.reply.content_length + entry.reply.hdr_sz = (x : Int))
    (hcr : c < 2 ^ 63) (hxr : x < 2 ^ 63) (hmx : mx < 2 ^ 53) (hpc : pc < 2 ^ 63) :
    CheckQuickAbort2 { min := mn, max := (mx : Int), pct := (pc : Int) } entry =
      some (mem.nonCachable || entry.KEY_PRIVATE || decide (c > x) ||
        (decide (shl10SizeT (toSizeT mn) ≤ x - c) &&
          (decide (x - c > mx * 1024) ||
            (decide (100 ≤ x) && !decide (c / (x / 100) > pc))))) := by
  have e4 : toSizeT ((mx : Int) * 1024) = mx * 1024 := by
    have := toSizeT_natCast (mx * 1024) (by omega)
    rw [← this]
    push_cast
    rfl
  unfold CheckQuickAbort2
  rw [hmem]
  simp only [hx, hc]
  rw [toSizeT_natCast x (by omega), toSizeT_natCast c (by omega),
    toSizeT_natCast pc (by omega), e4]
  have hnc : (match mem.request with
        | some r => !r.cachable
        | none => false) = mem.nonCachable := rfl
  rw [hnc]
  generalize shl10SizeT (toSizeT mn) = minlen
  cases mem.nonCachable
  · cases entry.KEY_PRIVATE
    · have hx0 : ¬ ((x : Int) < 0) := by omega
      have hm0 : ¬ (minlen < 0) := by omega
      simp only [Bool.false_eq_true, if_false, hx0, hm0, Bool.false_or]
      by_cases h1 : c > x
      · simp [h1]
      · rw [subSizeT_of_le _ _ (by omega) (by omega)]
        by_cases h2 : x - c < minlen
        · have : ¬ (minlen ≤ x - c) := by omega
          simp [h1, h2, this]
        · have h2b : minlen ≤ x - c := by omega
          by_cases h3 : x - c > mx * 1024
          · simp [h1, h2, h2b, h3]
          · by_cases h4 : x < 100
            · have : ¬ (100 ≤ x) := by omega
              simp [h1, h2, h2b, h3, h4, this]
            · have h4b : 100 ≤ x := by omega
              by_cases h5 : c / (x / 100) > pc
              · simp [h1, h2, h2b, h3, h4, h4b, h5]
              · simp [h1, h2, h2b, h3, h4, h4b, h5]
    · simp
  · simp

/-- Claim C1 as stated fails: with `minKb = 4`, `maxKb = 256`, `pct = 95`, a
cacheable request, a public key, `curLen = 0` and `expectLen = 1000`, the fifth
condition of the specification holds (`0 / 10 > 95` is false) but the code
answers "do not abort", because fewer than `minKb` kilobytes remain. -/
theorem C1_counterexample :
    quickAbortAnyOf sampleQuickAbort (sampleEntry StoreStatus.STORE_PENDING true 0 1000 0)
        (sampleMem true 0 0) = true ∧
      CheckQuickAbort2 sampleQuickAbort (sampleEntry StoreStatus.STORE_PENDING true 0 1000 0)
        = some false := by
  decide

/-- Claim C1, amended: for a non-negative configuration and lengths that fit
their types, `CheckQuickAbort2` answers "abort" if and only if the request is
marked non-cacheable, or the key is private, or `curLen > expectLen`, or at
least `minKb` kilobytes remain and either more than `maxKb` kilobytes remain or
`expectLen >= 100` and `curLen / (expectLen / 100) > pct` is false.  Here
`curLen = mem.endOffset()` and `expectLen` is the reply's content length plus
header size. -/
theorem C1_abort_iff (q : QuickAbort) (entry : StoreEntry) (mem : MemObject)
    (hmem : entry.mem_obj = some mem)
    (hcur : 0 ≤ mem.endOffset ∧ mem.endOffset < 2 ^ 63)
    (hexp : 0 ≤ entry.reply.content_length + entry.reply.hdr_sz ∧
      entry.reply.content_length + entry.reply.hdr_sz < 2 ^ 63)
    (hmin : 0 ≤ q.min ∧ q.min < 2 ^ 53) (hmax : 0 ≤ q.max ∧ q.max < 2 ^ 53)
    (hpct : 0 ≤ q.pct ∧ q.pct < 2 ^ 63) :
    CheckQuickAbort2 q entry = some true ↔
      (mem.nonCachable = true ∨ entry.KEY_PRIVATE = true ∨
        mem.endOffset > entry.reply.content_length + entry.reply.hdr_sz ∨
        (q.min * 1024 ≤ entry.reply.content_length + entry.reply.hdr_sz - mem.endOffset ∧
          (entry.reply.content_length + entry.reply.hdr_sz - mem.endOffset > q.max * 1024 ∨
            (entry.reply.content_length + entry.reply.hdr_sz ≥ 100 ∧
              ¬ (mem.endOffset / ((entry.reply.content_length + entry.reply.hdr_sz) / 100)
                  > q.pct))))) := by
  obtain ⟨mn, mx, pc⟩ := q
  simp only at hmin hmax hpct ⊢
  obtain ⟨x, hx⟩ := Int.eq_ofNat_of_zero_le hexp.1
  obtain ⟨c, hc⟩ := Int.eq_ofNat_of_zero_le hcur.1
  obtain ⟨mn, rfl⟩ := Int.eq_ofNat_of_zero_le hmin.1
  obtain ⟨mx, rfl⟩ := Int.eq_ofNat_of_zero_le hmax.1
  obtain ⟨pc, rfl⟩ := Int.eq_ofNat_of_zero_le hpct.1
  rw [hx] at hexp
  rw [hc] at hcur
  have e6 : shl10SizeT (toSizeT (mn : Int)) = mn * 1024 := by
    rw [toSizeT_natCast mn (by omega)]
    unfold shl10SizeT SIZE_MOD
    apply Nat.mod_eq_of_lt
    omega
  rw [CheckQuickAbort2_cascade entry mem (mn : Int) x c mx pc hmem hc hx (by omega) (by omega)
    (by omega) (by omega), hx, hc, e6]
  have hdiv : ((c / (x / 100) : Nat) : Int) = (c : Int) / ((x : Int) / 100) := by
    push_cast
    rfl
  generalize c / (x / 100) = dn at hdiv
  generalize (c : Int) / ((x : Int) / 100) = dz at hdiv
  simp only [Option.some.injEq, Bool.or_eq_true, Bool.and_eq_true, decide_eq_true_eq,
    Bool.not_eq_true', decide_eq_false_iff_not]
  cases mem.nonCachable <;> cases entry.KEY_PRIVATE <;> simp
  omega

/-- Witness of `C1_abort_iff`: the entry of the specification's scenario 6 with
`curLen = 200` of `expectLen = 10000` bytes. -/
theorem C1_abort_iff_witness :
    CheckQuickAbort2 sampleQuickAbort (sampleEntry StoreStatus.STORE_PENDING true 200 10000 0)
        = some true ↔
      ((sampleMem true 200 0).nonCachable = true ∨
        (sampleEntry StoreStatus.STORE_PENDING true 200 10000 0).KEY_PRIVATE = true ∨
        (sampleMem true 200 0).endOffset >
          (sampleEntry StoreStatus.STORE_PENDING true 200 10000 0).reply.content_length +
            (sampleEntry StoreStatus.STORE_PENDING true 200 10000 0).reply.hdr_sz ∨
        (sampleQuickAbort.min * 1024 ≤
            (sampleEntry StoreStatus.STORE_PENDING true 200 10000 0).reply.content_length +
              (sampleEntry StoreStatus.STORE_PENDING true 200 10000 0).reply.hdr_sz -
              (sampleMem true 200 0).endOffset ∧
          ((sampleEntry StoreStatus.STORE_PENDING true 200 10000 0).reply.content_length +
              (sampleEntry StoreStatus.STORE_PENDING true 200 10000 0).reply.hdr_sz -
              (sampleMem true 200 0).endOffset > sampleQuickAbort.max * 1024 ∨
            ((sampleEntry StoreStatus.STORE_PENDING true 200 10000 0).reply.content_length +
                (sampleEntry StoreStatus.STORE_PENDING true 200 10000 0).reply.hdr_sz ≥ 100 ∧
              ¬ ((sampleMem true 200 0).endOffset /
                  (((sampleEntry StoreStatus.STORE_PENDING true 200 10000 0).reply.content_length
                    + (sampleEntry StoreStatus.STORE_PENDING true 200 10000 0).reply.hdr_sz)
                    / 100) > sampleQuickAbort.pct))))) :=
  C1_abort_iff sampleQuickAbort (sampleEntry StoreStatus.STORE_PENDING true 200 10000 0)
    (sampleMem true 200 0) rfl (by decide) (by decide) (by decide) (by decide) (by decide)

/-- Claim C2 as stated fails: with `minKb = -1` configured and a request marked
non-cacheable, `CheckQuickAbort2` answers "abort", since the cacheability test
comes before the configuration is read. -/
theorem C2_counterexample :
    ({ min := -1, max := 256, pct := 95 } : QuickAbort).min < 0 ∧
      CheckQuickAbort2 { min := -1, max := 256, pct := 95 }
        (sampleEntry StoreStatus.STORE_PENDING false 200 10000 0) = some true := by
  decide

/-- Claim C2, amended: when `quickAbort.minKb` is configured negative (not below
`-2 ^ 53`) and `0 <= curLen <= expectLen < 2 ^ 63`, `CheckQuickAbort2` answers
"abort" exactly when the request is marked non-cacheable or the key is private;
so for a cacheable request and a public key it answers "do not abort", whatever
`maxKb` and `pct` are. -/
theorem C2_negative_min (q : QuickAbort) (entry : StoreEntry) (mem : MemObject)
    (hmem : entry.mem_obj = some mem) (hmin : -(2 ^ 53) ≤ q.min ∧ q.min < 0)
    (hcur : 0 ≤ mem.endOffset)
    (hle : mem.endOffset ≤ entry.reply.content_length + entry.reply.hdr_sz)
    (hexp : entry.reply.content_length + entry.reply.hdr_sz < 2 ^ 63) :
    CheckQuickAbort2 q entry = some (mem.nonCachable || entry.KEY_PRIVATE) := by
  obtain ⟨c, hc⟩ := Int.eq_ofNat_of_zero_le hcur
  obtain ⟨x, hx⟩ := Int.eq_ofNat_of_zero_le (le_trans hcur hle)
  obtain ⟨k, hk⟩ := Int.eq_ofNat_of_zero_le (show 0 ≤ -q.min by omega)
  have hq : q.min = -(k : Int) := by omega
  rw [hx] at hexp hle
  rw [hc] at hle
  have hmn : shl10SizeT (toSizeT q.min) = 2 ^ 64 - k * 1024 := by
    rw [hq, toSizeT_neg k (by omega) (by omega)]
    unfold shl10SizeT SIZE_MOD
    omega
  unfold CheckQuickAbort2
  rw [hmem]
  simp only [hx, hc, hmn]
  rw [toSizeT_natCast x (by omega), toSizeT_natCast c (by omega)]
  have hnc : (match mem.request with
        | some r => !r.cachable
        | none => false) = mem.nonCachable := rfl
  rw [hnc]
  cases mem.nonCachable
  · cases entry.KEY_PRIVATE
    · have hx0 : ¬ ((x : Int) < 0) := by omega
      have hm0 : ¬ (2 ^ 64 - k * 1024 < 0) := by omega
      have h1 : ¬ (c > x) := by omega
      have h2 : subSizeT x c < 2 ^ 64 - k * 1024 := by
        rw [subSizeT_of_le _ _ (by omega) (by omega)]
        omega
      simp only [Bool.false_eq_true, if_false, hx0, hm0, h1, h2, if_true, Bool.or_self]
    · simp
  · simp

/-- Witness of `C2_negative_min`: `minKb = -1`, a cacheable request, a public
key, `curLen = 200` and `expectLen = 10000`. -/
theorem C2_negative_min_witness :
    CheckQuickAbort2 { min := -1, max := 256, pct := 95 }
        (sampleEntry StoreStatus.STORE_PENDING true 200 10000 0) =
      some ((sampleMem true 200 0).nonCachable ||
        (sampleEntry StoreStatus.STORE_PENDING true 200 10000 0).KEY_PRIVATE) :=
  C2_negative_min { min := -1, max := 256, pct := 95 }
    (sampleEntry StoreStatus.STORE_PENDING true 200 10000 0) (sampleMem true 200 0) rfl
    (by decide) (by decide) (by decide) (by decide)

/-! ### Delivery -/

theorem deliveries_append (t1 t2 : List Effect) :
    deliveries (t1 ++ t2) = deliveries t1 ++ deliveries t2 := by
  induction t1 with
  | nil => rfl
  | cons a t ih => cases a <;> simp [deliveries, ih]

/-- What `invokeHandler` changes: at most one call of the handler is added. -/
theorem invokeHandler_spec (env : Env) (s : Sys) (h d : Nat) (r : StoreIOBuffer) :
    (invokeHandler env s h d r).e = s.e ∧ (invokeHandler env s h d r).sc = s.sc ∧
      (invokeHandler env s h d r).trace =
        s.trace ++ (if env.cbdataReferenceValid d then [Effect.handler h d r] else []) := by
  unfold invokeHandler
  split <;> simp

/-- A pending callback names its handler and its data. -/
theorem callbackPending_iff (sc : store_client) :
    sc.callbackPending = true ↔
      ∃ h d, sc._callback.callback_handler = some h ∧ sc._callback.callback_data = some d := by
  unfold store_client.callbackPending
  cases sc._callback.callback_handler <;> cases sc._callback.callback_data <;> simp

/-- The function `callback` returns exactly when a callback is pending. -/
theorem callback_eq_some (env : Env) (s s1 : Sys) (sz : Int) (error : Bool)
    (h : callback env s sz error = some s1) :
    ∃ hd d, s.sc._callback.callback_handler = some hd ∧ s.sc._callback.callback_data = some d ∧
      s1 = invokeHandler env { s with sc := callbackReset s.sc sz } hd d
        (callbackResult s.sc sz error) := by
  unfold callback at h
  split at h
  · next hd d h1 h2 => exact ⟨hd, d, h1, h2, (Option.some.inj h).symm⟩
  · exact absurd h (by simp)

theorem callback_of_pending (env : Env) (s : Sys) (sz : Int) (error : Bool) (hd d : Nat)
    (h1 : s.sc._callback.callback_handler = some hd)
    (h2 : s.sc._callback.callback_data = some d) :
    callback env s sz error =
      some (invokeHandler env { s with sc := callbackReset s.sc sz } hd d
        (callbackResult s.sc sz error)) := by
  unfold callback
  rw [h1, h2]

/-- The decision of the specification's scenario 6. -/
theorem CheckQuickAbort2_scenario (e : StoreEntry) (mem : MemObject)
    (hmem : e.mem_obj = some mem) (hcach : mem.nonCachable = false)
    (hkey : e.KEY_PRIVATE = false) (hexp : e.reply.content_length + e.reply.hdr_sz = 10000) :
    (mem.endOffset = 200 → CheckQuickAbort2 sampleQuickAbort e = some true) ∧
      (mem.endOffset = 9800 → CheckQuickAbort2 sampleQuickAbort e = some false) := by
  constructor
  · intro hc
    have := CheckQuickAbort2_cascade e mem 4 10000 200 256 95 hmem (by simpa using hc)
      (by simpa using hexp) (by norm_num) (by norm_num) (by norm_num) (by norm_num)
    simp only [hcach, hkey] at this
    exact this
  · intro hc
    have := CheckQuickAbort2_cascade e mem 4 10000 9800 256 95 hmem (by simpa using hc)
      (by simpa using hexp) (by norm_num) (by norm_num) (by norm_num) (by norm_num)
    simp only [hcach, hkey] at this
    exact this

theorem fail_spec (env : Env) (s : Sys) (hp : s.sc.callbackPending = true) :
    ∃ s1, fail env s = some s1 ∧ s1.e = s.e ∧
      ∃ t, s1.trace = s.trace ++ t ∧ Effect.storeAbort ∉ t := by
  obtain ⟨hd, d, h1, h2⟩ := (callbackPending_iff s.sc).1 hp
  unfold fail
  rw [callback_of_pending env { s with sc := { s.sc with object_ok := false } } 0 true hd d h1 h2]
  refine ⟨_, rfl, ?_, ?_⟩
  · rw [(invokeHandler_spec _ _ _ _ _).1]
  · refine ⟨_, (invokeHandler_spec _ _ _ _ _).2.2, ?_⟩
    split <;> simp

theorem closeSwapIn_spec (s : Sys) :
    (closeSwapIn s).e = s.e ∧
      (closeSwapIn s).sc.callbackPending = s.sc.callbackPending ∧
      ∃ t, (closeSwapIn s).trace = s.trace ++ t ∧ Effect.storeAbort ∉ t := by
  unfold closeSwapIn
  split
  · exact ⟨rfl, rfl, _, rfl, by simp⟩
  · exact ⟨rfl, rfl, [], by simp, by simp⟩

theorem failPending_spec (env : Env) (s : Sys) :
    ∃ s1, failPending env s = some s1 ∧ s1.e = s.e ∧
      ∃ t, s1.trace = s.trace ++ t ∧ Effect.storeAbort ∉ t := by
  unfold failPending
  by_cases hp : s.sc.callbackPending = true
  · rw [if_pos hp]
    exact fail_spec env s hp
  · rw [if_neg hp]
    exact ⟨s, rfl, rfl, [], by simp, by simp⟩

/-- Claim C4: with `minKb = 4`, `maxKb = 256`, `pct = 95`, a cacheable request, a
public key, no `ENTRY_SPECIAL` flag and `expectLen = 10000`, unregistering the
single client of a pending entry returns 1 and leaves no client; the quick-abort
decision is "abort" and `storeAbort` is called when `curLen = 200`, the decision
is "do not abort" and `storeAbort` is not called when `curLen = 9800`. -/
theorem C4_unregister_last_client (env : Env) (e : StoreEntry) (mem : MemObject)
    (c : store_client) (trace : List Effect) (hq : env.quickAbort = sampleQuickAbort)
    (hmem : e.mem_obj = some mem) (hcach : mem.nonCachable = false)
    (hkey : e.KEY_PRIVATE = false) (hspec : e.ENTRY_SPECIAL = false)
    (hpend : e.store_status = StoreStatus.STORE_PENDING) (hn : mem.nclients = 1)
    (hexp : e.reply.content_length + e.reply.hdr_sz = 10000) (hlock : e.lock_count > 0)
    (htr : Effect.storeAbort ∉ trace)
    (hcur : mem.endOffset = 200 ∨ mem.endOffset = 9800) :
    CheckQuickAbort2 env.quickAbort e = some (decide (mem.endOffset = 200)) ∧
      ∃ w1, storeUnregister env { e := e, clients := [c], trace := trace } (some 0)
          = some (w1, 1) ∧ w1.clients = [] ∧
        (Effect.storeAbort ∈ w1.trace ↔ mem.endOffset = 200) := by
  have hq1 : ∀ b, CheckQuickAbort2 sampleQuickAbort e = some b →
      CheckQuickAbort2 sampleQuickAbort
        { e with mem_obj := some { mem with fd := -1, nclients := 0 } } = some b := by
    intro b hb
    rw [← hb]
    unfold CheckQuickAbort2
    simp only [hmem]
  have main : ∀ b, CheckQuickAbort2 sampleQuickAbort e = some b →
      ∃ w1, storeUnregister env { e := e, clients := [c], trace := trace } (some 0)
          = some (w1, 1) ∧ w1.clients = [] ∧
          ∃ t, w1.trace = trace ++ t ++ (if b then [Effect.storeAbort] else []) ∧
            Effect.storeAbort ∉ t := by
    intro b hb
    obtain ⟨hc1, -, t0, hc3, hc4⟩ := closeSwapIn_spec
      { e := { e with mem_obj := some { mem with fd := -1, nclients := 0 } }, sc := c,
        trace := trace }
    obtain ⟨s2, hf1, hf2, t1, hf3, hf4⟩ := failPending_spec env (closeSwapIn
      { e := { e with mem_obj := some { mem with fd := -1, nclients := 0 } }, sc := c,
        trace := trace })
    have hs2e : s2.e = { e with mem_obj := some { mem with fd := -1, nclients := 0 } } := by
      rw [hf2, hc1]
    have hso : ¬ (e.store_status = StoreStatus.STORE_OK ∧
        e.swap_status ≠ SwapStatus.SWAPOUT_DONE) := by
      rw [hpend]
      simp
    have hlk : ¬ ¬ (s2.e.lock_count > 0) := by
      rw [hs2e]
      simpa using hlock
    have hnp : ¬ (storePendingNClients s2.e > 0) := by
      rw [hs2e]
      simp [storePendingNClients]
    have hst : ¬ (s2.e.store_status ≠ StoreStatus.STORE_PENDING) := by
      rw [hs2e]
      simpa using hpend
    have hsp : ¬ (s2.e.ENTRY_SPECIAL = true) := by
      rw [hs2e]
      simpa using hspec
    have hcq : CheckQuickAbort2 env.quickAbort s2.e = some b := by
      rw [hs2e, hq]
      exact hq1 b hb
    unfold storeUnregister
    simp only [hmem, hn, hso, List.get?_cons_zero, reduceCtorEq, if_true, if_false,
      List.eraseIdx_cons_zero, hf1, hlk, sub_self]
    unfold CheckQuickAbort
    simp only [hnp, hst, hsp, if_false, hcq]
    cases b
    · refine ⟨_, rfl, rfl, t0 ++ t1, ?_, ?_⟩
      · simp [hf3, hc3]
      · simp [hc4, hf4]
    · refine ⟨_, rfl, rfl, t0 ++ t1, ?_, ?_⟩
      · simp [hf3, hc3]
      · simp [hc4, hf4]
  obtain ⟨d200, d9800⟩ := CheckQuickAbort2_scenario e mem hmem hcach hkey hexp
  rcases hcur with hc | hc
  · obtain ⟨w1, h1, h2, t, h3, -⟩ := main true (d200 hc)
    refine ⟨by rw [hq, hc]; exact d200 hc, w1, h1, h2, ?_⟩
    rw [h3]
    simp [hc]
  · obtain ⟨w1, h1, h2, t, h3, h4⟩ := main false (d9800 hc)
    refine ⟨by rw [hq, hc]; exact d9800 hc, w1, h1, h2, ?_⟩
    rw [h3, hc]
    simp [htr, h4]

/-- Witness of `C4_unregister_last_client`: a memory client without outstanding
copy leaves a pending entry of 10000 announced bytes, once with 200 and once
with 9800 bytes received. -/
theorem C4_unregister_last_client_witness :
    (∃ w1, storeUnregister (sampleEnv sampleQuickAbort false)
        { e := sampleEntry StoreStatus.STORE_PENDING true 200 10000 1,
          clients := [sampleClient ClientType.STORE_MEM_CLIENT], trace := [] } (some 0)
          = some (w1, 1) ∧ w1.clients = [] ∧
        (Effect.storeAbort ∈ w1.trace ↔ (200 : Int) = 200)) ∧
      (∃ w1, storeUnregister (sampleEnv sampleQuickAbort false)
        { e := sampleEntry StoreStatus.STORE_PENDING true 9800 10000 1,
          clients := [sampleClient ClientType.STORE_MEM_CLIENT], trace := [] } (some 0)
          = some (w1, 1) ∧ w1.clients = [] ∧
        (Effect.storeAbort ∈ w1.trace ↔ (9800 : Int) = 200)) :=
  ⟨(C4_unregister_last_client (sampleEnv sampleQuickAbort false)
      (sampleEntry StoreStatus.STORE_PENDING true 200 10000 1) (sampleMem true 200 1)
      (sampleClient ClientType.STORE_MEM_CLIENT) [] rfl rfl rfl rfl rfl rfl rfl (by decide)
      (by decide) (by decide) (by decide)).2,
    (C4_unregister_last_client (sampleEnv sampleQuickAbort false)
      (sampleEntry StoreStatus.STORE_PENDING true 9800 10000 1) (sampleMem true 9800 1)
      (sampleClient ClientType.STORE_MEM_CLIENT) [] rfl rfl rfl rfl rfl rfl rfl (by decide)
      (by decide) (by decide) (by decide)).2⟩

/-! ### Steps of the copy engine either deliver nothing or consume the callback -/

theorem Quiet.refl (s : Sys) : Quiet s s := ⟨rfl, rfl, rfl⟩

theorem Quiet.trans {a b c : Sys} (h1 : Quiet a b) (h2 : Quiet b c) : Quiet a c :=
  ⟨h2.1.trans h1.1, h2.2.1.trans h1.2.1, h2.2.2.trans h1.2.2⟩

theorem Quiet.delivered {a b c : Sys} (h1 : Quiet a b) (h2 : Delivered b c) : Delivered a c := by
  obtain ⟨hp, hq, ds, hd, hl, ho⟩ := h2
  refine ⟨h1.1 ▸ hp, hq, ds, ?_, hl, ?_⟩
  · rw [hd, h1.2.1]
  · intro d hd1
    rw [ho d hd1, h1.2.2]

theorem Delivered.quiet {a b c : Sys} (h1 : Delivered a b) (h2 : Quiet b c) : Delivered a c := by
  obtain ⟨hp, hq, ds, hd, hl, ho⟩ := h1
  exact ⟨hp, h2.1.trans hq, ds, h2.2.1.trans hd, hl, ho⟩

/-- Outcomes compose: after a delivery the slot is empty, so what follows is quiet. -/
theorem outcome_trans {a b c : Sys} (h1 : Quiet a b ∨ Delivered a b)
    (h2 : Quiet b c ∨ Delivered b c) : Quiet a c ∨ Delivered a c := by
  rcases h1 with h1 | h1
  · rcases h2 with h2 | h2
    · exact Or.inl (h1.trans h2)
    · exact Or.inr (h1.delivered h2)
  · rcases h2 with h2 | h2
    · exact Or.inr (h1.quiet h2)
    · have := h1.2.1
      rw [h2.1] at this
      exact absurd this (by simp)

theorem callback_delivered (env : Env) (s s1 : Sys) (sz : Int) (error : Bool)
    (h : callback env s sz error = some s1) : Delivered s s1 := by
  obtain ⟨hd, d, h1, h2, rfl⟩ := callback_eq_some env s s1 sz error h
  obtain ⟨-, e2, e3⟩ := invokeHandler_spec env { s with sc := callbackReset s.sc sz } hd d
    (callbackResult s.sc sz error)
  refine ⟨(callbackPending_iff s.sc).2 ⟨hd, d, h1, h2⟩, ?_, ?_⟩
  · rw [e2]
    rfl
  · rw [e3, deliveries_append]
    refine ⟨_, rfl, ?_, ?_⟩
    · split <;> simp [deliveries]
    · intro x hx
      split at hx
      · simp only [deliveries, List.mem_singleton] at hx
        rw [hx]
        rfl
      · simp [deliveries] at hx

theorem fail_delivered (env : Env) (s s1 : Sys) (h : fail env s = some s1) : Delivered s s1 := by
  unfold fail at h
  have hq : Quiet s { s with sc := { s.sc with object_ok := false } } := ⟨rfl, rfl, rfl⟩
  exact hq.delivered (callback_delivered env _ s1 0 true h)

theorem doneCopying_quiet (s : Sys) : Quiet s (doneCopying s) := ⟨rfl, rfl, rfl⟩

theorem map_doneCopying {s s1 : Sys} {r : Option Sys} (h : r.map doneCopying = some s1)
    (hr : ∀ s2, r = some s2 → Quiet s s2 ∨ Delivered s s2) : Quiet s s1 ∨ Delivered s s1 := by
  cases r with
  | none => simp at h
  | some s2 =>
    simp only [Option.map_some', Option.some.injEq] at h
    subst h
    exact outcome_trans (hr s2 rfl) (Or.inl (doneCopying_quiet s2))

theorem fileRead_quiet (s s1 : Sys) (h : fileRead s = some s1) : Quiet s s1 := by
  unfold fileRead at h
  split at h
  · simp at h
  · split_ifs at h <;>
    · simp only [Option.some.injEq] at h
      subst h
      exact ⟨rfl, by simp [deliveries_append, deliveries], rfl⟩

theorem doCopyMemOrDisk_outcome (env : Env) (s s1 : Sys) (h : doCopyMemOrDisk env s = some s1) :
    Quiet s s1 ∨ Delivered s s1 := by
  unfold doCopyMemOrDisk at h
  split at h
  · simp at h
  · split_ifs at h
    · exact map_doneCopying h (fun s2 h2 => Or.inr (callback_delivered _ _ _ _ _ h2))
    · exact map_doneCopying h (fun s2 h2 => Or.inl (fileRead_quiet _ _ h2))

theorem doCopyOpen_outcome (env : Env) (s s1 : Sys) (h : doCopyOpen env s = some s1) :
    Quiet s s1 ∨ Delivered s s1 := by
  unfold doCopyOpen at h
  have hq : Quiet s { s with
      sc := { s.sc with swapin_sio := env.storeSwapInStart s.e s.sc }
      trace := s.trace ++ [Effect.storeSwapInStart] } :=
    ⟨rfl, by simp [deliveries_append, deliveries], rfl⟩
  dsimp only at h
  split_ifs at h
  · exact map_doneCopying h (fun s2 h2 => Or.inr (fail_delivered _ _ _ h2))
  · exact outcome_trans (Or.inl hq)
      (map_doneCopying h (fun s2 h2 => Or.inr (fail_delivered _ _ _ h2)))
  · exact outcome_trans (Or.inl hq) (doCopyMemOrDisk_outcome _ _ _ h)
  · simp only [Option.some.injEq] at h
    subst h
    exact Or.inl (doneCopying_quiet s)
  · exact doCopyMemOrDisk_outcome _ _ _ h

theorem doCopySelect_outcome (env : Env) (s s1 : Sys) (h : doCopySelect env s = some s1) :
    Quiet s s1 ∨ Delivered s s1 := by
  unfold doCopySelect at h
  split at h
  · simp at h
  · simp only [Option.some.injEq] at h
    subst h
    exact Or.inl (doneCopying_quiet s)
  · exact doCopyOpen_outcome _ _ _ h

theorem doCopy_outcome (env : Env) (s s1 : Sys) (h : doCopy env s = some s1) :
    Quiet s s1 ∨ Delivered s s1 := by
  unfold doCopy at h
  have hq : Quiet s { s with sc := { s.sc with store_copying := true } } := ⟨rfl, rfl, rfl⟩
  simp only at h
  split_ifs at h
  · exact outcome_trans (Or.inl hq)
      (map_doneCopying h (fun s2 h2 => Or.inr (callback_delivered _ _ _ _ _ h2)))
  · exact outcome_trans (Or.inl hq) (doCopySelect_outcome _ _ _ h)

theorem storeClientCopy2_outcome (env : Env) (s s1 : Sys) (h : storeClientCopy2 env s = some s1) :
    Quiet s s1 ∨ Delivered s s1 := by
  unfold storeClientCopy2 at h
  split_ifs at h
  · simp only [Option.some.injEq] at h
    subst h
    exact Or.inl (Quiet.refl s)
  · simp only [Option.some.injEq] at h
    subst h
    exact Or.inl (Quiet.refl s)
  · simp only [Option.some.injEq] at h
    subst h
    exact Or.inl ⟨rfl, by simp [deliveries_append, deliveries], rfl⟩
  · split at h
    · simp at h
    · next s2 h2 =>
      split_ifs at h
      simp only [Option.some.injEq] at h
      subst h
      exact doCopy_outcome _ _ _ h2

theorem storeClientCopyEvent_outcome (env : Env) (s s1 : Sys)
    (h : storeClientCopyEvent env s = some s1) : Quiet s s1 ∨ Delivered s s1 := by
  unfold storeClientCopyEvent at h
  have hq : Quiet s { s with sc := { s.sc with copy_event_pending := false } } :=
    ⟨rfl, rfl, rfl⟩
  simp only at h
  split_ifs at h
  · simp only [Option.some.injEq] at h
    subst h
    exact Or.inl hq
  · exact outcome_trans (Or.inl hq) (storeClientCopy2_outcome _ _ _ h)

theorem InvokeHandlersVisit_outcome (env : Env) (s s1 : Sys)
    (h : InvokeHandlersVisit env s = some s1) : Quiet s s1 ∨ Delivered s s1 := by
  unfold InvokeHandlersVisit at h
  split_ifs at h
  · simp only [Option.some.injEq] at h
    subst h
    exact Or.inl (Quiet.refl s)
  · simp only [Option.some.injEq] at h
    subst h
    exact Or.inl (Quiet.refl s)
  · exact storeClientCopy2_outcome _ _ _ h

theorem storeClientReadBody_outcome (env : Env) (s s1 : Sys) (len : Int)
    (h : storeClientReadBody env s len = some s1) : Quiet s s1 ∨ Delivered s s1 := by
  unfold storeClientReadBody at h
  simp only at h
  split_ifs at h
  · refine Or.inr (Quiet.delivered ?_ (callback_delivered _ _ _ _ _ h))
    exact ⟨rfl, by simp [deliveries_append, deliveries], rfl⟩
  · refine Or.inr (Quiet.delivered ?_ (callback_delivered _ _ _ _ _ h))
    exact ⟨rfl, rfl, rfl⟩

theorem unpackHeader_outcome (env : Env) (s s1 : Sys) (len : Int)
    (h : unpackHeader env s len = some s1) : Quiet s s1 ∨ Delivered s s1 := by
  unfold unpackHeader at h
  split_ifs at h
  · exact Or.inr (fail_delivered _ _ _ h)
  · exact Or.inr (fail_delivered _ _ _ h)
  · split at h
    · exact Or.inr (fail_delivered _ _ _ h)
    · split_ifs at h
      · split at h
        · simp at h
        · simp only [Option.some.injEq] at h
          subst h
          exact Or.inl ⟨rfl, rfl, rfl⟩
      · exact Or.inr (fail_delivered _ _ _ h)

theorem readHeader_outcome (env : Env) (s s1 : Sys) (len : Int)
    (h : readHeader env s len = some s1) : Quiet s s1 ∨ Delivered s s1 := by
  unfold readHeader at h
  have hq : Quiet s { s with sc := { s.sc with disk_io_pending := false } } := ⟨rfl, rfl, rfl⟩
  simp only at h
  split_ifs at h
  split at h
  · simp at h
  · next s2 h2 =>
    have o2 := outcome_trans (Or.inl hq) (unpackHeader_outcome _ _ _ _ h2)
    repeat' split at h
    all_goals first
      | (simp at h; done)
      | (simp only [Option.some.injEq] at h; subst h; exact o2)
      | exact outcome_trans o2 (Or.inl (fileRead_quiet _ _ h))
      | (refine outcome_trans o2 (Or.inr ?_)
         refine Quiet.delivered ?_ (callback_delivered _ _ _ _ _ h)
         exact ⟨rfl, by simp [deliveries_append, deliveries], rfl⟩)

/-! ### Runs -/

theorem step_outcome (env : Env) (s s1 : Sys) (op : Op) (hop : op.isCopy = false)
    (h : step env s op = some s1) : Quiet s s1 ∨ Delivered s s1 := by
  cases op with
  | copy r f d => simp [Op.isCopy] at hop
  | storeClientCopy2 => exact storeClientCopy2_outcome _ _ _ h
  | storeClientCopyEvent => exact storeClientCopyEvent_outcome _ _ _ h
  | InvokeHandlers => exact InvokeHandlersVisit_outcome _ _ _ h
  | storeClientReadBody len => exact storeClientReadBody_outcome _ _ _ _ h
  | storeClientReadHeader len => exact readHeader_outcome _ _ _ _ h
  | entryChanged e =>
    simp only [step, Option.some.injEq] at h
    subst h
    exact Or.inl ⟨rfl, rfl, rfl⟩

theorem run_outcome (ops : List (Env × Op)) (hops : noCopy ops) (s s1 : Sys)
    (h : run s ops = some s1) : Quiet s s1 ∨ Delivered s s1 := by
  induction ops generalizing s with
  | nil =>
    simp only [run, Option.some.injEq] at h
    subst h
    exact Or.inl (Quiet.refl s)
  | cons p ops ih =>
    obtain ⟨env, op⟩ := p
    simp only [run] at h
    split at h
    · simp at h
    · next s2 h2 =>
      have hop : op.isCopy = false := hops (env, op) (by simp)
      have hrest : noCopy ops := fun q hq => hops q (by simp [hq])
      exact outcome_trans (step_outcome env s s2 op hop h2) (ih hrest s2 h)

/-- The state `copy` hands to the copy engine: the request is recorded, the
callback is pending and `cmp_offset` is the offset of the request. -/
theorem copy_outcome (env : Env) (s s1 : Sys) (req : StoreIOBuffer) (fn data : Option Nat)
    (h : copy env s req fn data = some s1) :
    ∃ s0, s0.sc.callbackPending = true ∧ s0.sc.cmp_offset = req.offset ∧
      deliveries s0.trace = deliveries s.trace ∧ (Quiet s0 s1 ∨ Delivered s0 s1) := by
  unfold copy at h
  split_ifs at h with h1 h2 h3 h4
  refine ⟨_, ?_, ?_, ?_, storeClientCopy2_outcome _ _ _ h⟩
  · cases fn <;> cases data <;> simp_all [store_client.callbackPending]
  · rfl
  · rfl

/-- One window: a call of `copy` followed by operations other than `copy` hands
the handler at most one result, labelled with the offset of the request. -/
theorem window_deliveries (env : Env) (s s1 : Sys) (req : StoreIOBuffer) (fn data : Option Nat)
    (ops : List (Env × Op)) (hops : noCopy ops)
    (h : run s ((env, Op.copy req fn data) :: ops) = some s1) :
    ∃ ds, deliveries s1.trace = deliveries s.trace ++ ds ∧ ds.length ≤ 1 ∧
      ∀ d ∈ ds, d.offset = req.offset := by
  simp only [run, step] at h
  split at h
  · simp at h
  · next s2 h2 =>
    obtain ⟨s0, hp, hc, hd, ho⟩ := copy_outcome env s s2 req fn data h2
    rcases outcome_trans ho (run_outcome ops hops s2 s1 h) with hq | hdel
    · exact ⟨[], by simp [hq.2.1, hd], by simp, by simp⟩
    · obtain ⟨-, -, ds, h3, h4, h5⟩ := hdel
      exact ⟨ds, by rw [h3, hd], h4, fun d hd1 => by rw [h5 d hd1, hc]⟩

theorem run_append (s : Sys) (ops1 ops2 : List (Env × Op)) :
    run s (ops1 ++ ops2) = (run s ops1).bind (fun s1 => run s1 ops2) := by
  induction ops1 generalizing s with
  | nil => rfl
  | cons p ops ih =>
    obtain ⟨env, op⟩ := p
    simp only [List.cons_append, run]
    cases step env s op with
    | none => rfl
    | some s2 => exact ih s2

/-! ### Deliveries -/

/-- Claim C5: for every client with a pending callback, `callback(len, error)`
succeeds and hands the handler (when its callback data is still valid, and
nothing otherwise) a result whose offset is the client's `cmp_offset` before the
call and whose buffer is the request's buffer; for `len >= 0` the result length
is `len`, its error flag equals `error`, and afterwards `cmp_offset =
copyInto.offset + len`; for `len < 0` the result length is 0 and the error flag
is set. -/
theorem C5_callback (env : Env) (s : Sys) (len : Int) (error : Bool)
    (hp : s.sc.callbackPending = true) :
    ∃ hd d r s1, s.sc._callback.callback_handler = some hd ∧
      s.sc._callback.callback_data = some d ∧
      callback env s len error = some s1 ∧
      s1.trace = s.trace ++
        (if env.cbdataReferenceValid d then [Effect.handler hd d r] else []) ∧
      r.offset = s.sc.cmp_offset ∧ r.data = s.sc.copyInto.data ∧
      (0 ≤ len → (r.length : Int) = len ∧ r.error = error ∧
        s1.sc.cmp_offset = s.sc.copyInto.offset + len) ∧
      (len < 0 → r.length = 0 ∧ r.error = true) := by
  obtain ⟨hd, d, h1, h2⟩ := (callbackPending_iff s.sc).1 hp
  obtain ⟨-, e2, e3⟩ := invokeHandler_spec env { s with sc := callbackReset s.sc len } hd d
    (callbackResult s.sc len error)
  refine ⟨hd, d, callbackResult s.sc len error, _, h1, h2,
    callback_of_pending env s len error hd d h1 h2, e3, rfl, rfl, ?_, ?_⟩
  · intro h0
    have hn : ¬ len < 0 := by omega
    refine ⟨?_, ?_, ?_⟩
    · simp only [callbackResult, hn, if_false]
      exact Int.toNat_of_nonneg h0
    · simp only [callbackResult, hn, if_false]
    · rw [e2]
      rfl
  · intro h0
    simp only [callbackResult, h0, if_true, and_self]

/-- Witness of `C5_callback`: 500 bytes are delivered to a memory client whose
copy of 500 bytes at offset 0 is outstanding. -/
theorem C5_callback_witness :
    ∃ hd d r s1,
      (samplePendingClient ClientType.STORE_MEM_CLIENT 0 500)._callback.callback_handler
        = some hd ∧
      (samplePendingClient ClientType.STORE_MEM_CLIENT 0 500)._callback.callback_data
        = some d ∧
      callback (sampleEnv sampleQuickAbort false)
        { e := sampleEntry StoreStatus.STORE_OK true 1000 1000 1,
          sc := samplePendingClient ClientType.STORE_MEM_CLIENT 0 500, trace := [] }
        500 false = some s1 ∧
      s1.trace = [] ++
        (if (sampleEnv sampleQuickAbort false).cbdataReferenceValid d then
          [Effect.handler hd d r] else []) ∧
      r.offset = (samplePendingClient ClientType.STORE_MEM_CLIENT 0 500).cmp_offset ∧
      r.data = (samplePendingClient ClientType.STORE_MEM_CLIENT 0 500).copyInto.data ∧
      ((0 : Int) ≤ 500 → (r.length : Int) = 500 ∧ r.error = false ∧
        s1.sc.cmp_offset =
          (samplePendingClient ClientType.STORE_MEM_CLIENT 0 500).copyInto.offset + 500) ∧
      ((500 : Int) < 0 → r.length = 0 ∧ r.error = true) :=
  C5_callback (sampleEnv sampleQuickAbort false)
    { e := sampleEntry StoreStatus.STORE_OK true 1000 1000 1,
      sc := samplePendingClient ClientType.STORE_MEM_CLIENT 0 500, trace := [] }
    500 false rfl

/-- Claim C6 as stated fails: on an entry holding the bytes `[0, 1000)` a client
copies 100 bytes at offset 500 and then 100 bytes at offset 0; both copies are
delivered from memory, and the second delivery starts at 0, below the end 600
of the first. -/
theorem C6_counterexample :
    (run
        { e := sampleEntry StoreStatus.STORE_PENDING true 1000 10000 1,
          sc := sampleClient ClientType.STORE_MEM_CLIENT, trace := [] }
        [(sampleEnv sampleQuickAbort false,
            Op.copy (sampleRequest 500 100) sampleHandler sampleData),
          (sampleEnv sampleQuickAbort false,
            Op.copy (sampleRequest 0 100) sampleHandler sampleData)]).map
        (fun s => deliveries s.trace) =
      some [sampleRequest 500 100, sampleRequest 0 100] ∧
      ¬ ((sampleRequest 0 100).offset ≥
        (sampleRequest 500 100).offset + ((sampleRequest 500 100).length : Int)) := by
  decide

/-- Claim C6, amended: for every client, over any operations that satisfy the
assertions of the code, the result that answers a copy request carries the
offset of that request, and at most one result answers it.  So for successive
deliveries `d1` (answering `req1`) and `d2` (answering `req2`),
`d2.offset >= d1.offset + d1.length` holds exactly when the second request
starts at or after `req1.offset + d1.length`, which `copy` leaves to its
caller: it sets `cmp_offset` to the offset of the request. -/
theorem C6_delivery_offsets (s s1 s2 : Sys) (env1 env2 : Env) (req1 req2 : StoreIOBuffer)
    (fn1 data1 fn2 data2 : Option Nat) (ops1 ops2 : List (Env × Op))
    (h1 : noCopy ops1) (h2 : noCopy ops2)
    (hr1 : run s ((env1, Op.copy req1 fn1 data1) :: ops1) = some s1)
    (hr2 : run s1 ((env2, Op.copy req2 fn2 data2) :: ops2) = some s2) :
    ∃ ds1 ds2, deliveries s1.trace = deliveries s.trace ++ ds1 ∧
      deliveries s2.trace = deliveries s1.trace ++ ds2 ∧
      ds1.length ≤ 1 ∧ ds2.length ≤ 1 ∧
      (∀ d1 ∈ ds1, d1.offset = req1.offset) ∧ (∀ d2 ∈ ds2, d2.offset = req2.offset) ∧
      (∀ d1 ∈ ds1, ∀ d2 ∈ ds2,
        (d2.offset ≥ d1.offset + (d1.length : Int) ↔
          req2.offset ≥ req1.offset + (d1.length : Int))) := by
  obtain ⟨ds1, a1, a2, a3⟩ := window_deliveries env1 s s1 req1 fn1 data1 ops1 h1 hr1
  obtain ⟨ds2, b1, b2, b3⟩ := window_deliveries env2 s1 s2 req2 fn2 data2 ops2 h2 hr2
  refine ⟨ds1, ds2, a1, b1, a2, b2, a3, b3, ?_⟩
  intro d1 hd1 d2 hd2
  rw [a3 d1 hd1, b3 d2 hd2]

/-- Claim C7: for every client, a call of `copy` followed by any sequence of
copy-engine runs, disk completions, `InvokeHandlers` visits, deferred copy
events and changes of the entry (no further `copy`) invokes the handler at most
once.  The reason: `callback` calls the handler on a client whose callback slot
and buffer pointer are already empty, and an operation other than `copy` on a
client with an empty slot calls no handler and leaves the slot empty. -/
theorem C7_at_most_one_delivery (env : Env) (s s1 : Sys) (req : StoreIOBuffer)
    (fn data : Option Nat) (ops : List (Env × Op)) (hops : noCopy ops)
    (hr : run s ((env, Op.copy req fn data) :: ops) = some s1) :
    (∃ ds, deliveries s1.trace = deliveries s.trace ++ ds ∧ ds.length ≤ 1) ∧
    (∀ (env0 : Env) (a a1 : Sys) (len : Int) (error : Bool),
      callback env0 a len error = some a1 →
        ∃ hd d b, a1 = invokeHandler env0 b hd d (callbackResult a.sc len error) ∧
          b.sc.callbackPending = false ∧ b.sc.copyInto.data = none) ∧
    (∀ (env0 : Env) (a a1 : Sys) (op : Op), op.isCopy = false →
      a.sc.callbackPending = false → step env0 a op = some a1 →
        deliveries a1.trace = deliveries a.trace ∧ a1.sc.callbackPending = false) := by
  refine ⟨?_, ?_, ?_⟩
  · obtain ⟨ds, a1, a2, -⟩ := window_deliveries env s s1 req fn data ops hops hr
    exact ⟨ds, a1, a2⟩
  · intro env0 a a1 len error h
    obtain ⟨hd, d, -, -, h3⟩ := callback_eq_some env0 a a1 len error h
    exact ⟨hd, d, _, h3, rfl, rfl⟩
  · intro env0 a a1 op hop hp h
    rcases step_outcome env0 a a1 op hop h with hq | hd
    · exact ⟨hq.2.1, hq.1.trans hp⟩
    · rw [hd.1] at hp
      exact absurd hp (by simp)

theorem noCopy_sampleLagOps : noCopy sampleLagOps := by
  intro p hp
  simp only [sampleLagOps, List.mem_cons, List.mem_singleton, List.not_mem_nil, or_false] at hp
  rcases hp with rfl | rfl | rfl | rfl <;> rfl

/-- Witness of `C6_delivery_offsets`: the producer-lag scenario (copy of 100
bytes at offset 200, delivered once the entry holds 350 bytes), followed by a
copy of 50 bytes at offset 300. -/
theorem C6_delivery_offsets_witness :
    ∃ ds1 ds2, deliveries sampleLagEnd.trace = deliveries sampleLagStart.trace ++ ds1 ∧
      deliveries sampleLagEnd2.trace = deliveries sampleLagEnd.trace ++ ds2 ∧
      ds1.length ≤ 1 ∧ ds2.length ≤ 1 ∧
      (∀ d1 ∈ ds1, d1.offset = (sampleRequest 200 100).offset) ∧
      (∀ d2 ∈ ds2, d2.offset = (sampleRequest 300 50).offset) ∧
      (∀ d1 ∈ ds1, ∀ d2 ∈ ds2,
        (d2.offset ≥ d1.offset + (d1.length : Int) ↔
          (sampleRequest 300 50).offset ≥ (sampleRequest 200 100).offset + (d1.length : Int))) :=
  C6_delivery_offsets sampleLagStart sampleLagEnd sampleLagEnd2
    (sampleEnv sampleQuickAbort false) (sampleEnv sampleQuickAbort false)
    (sampleRequest 200 100) (sampleRequest 300 50) sampleHandler sampleData sampleHandler
    sampleData sampleLagOps [] noCopy_sampleLagOps (fun _ h => absurd h (List.not_mem_nil _))
    (by decide) (by decide)

/-- Witness of `C7_at_most_one_delivery`: in the producer-lag scenario the
handler is called once, with 100 bytes at offset 200, although `InvokeHandlers`
visits the client three times. -/
theorem C7_at_most_one_delivery_witness :
    deliveries sampleLagEnd.trace = [sampleRequest 200 100] ∧
      ∃ ds, deliveries sampleLagEnd.trace = deliveries sampleLagStart.trace ++ ds ∧
        ds.length ≤ 1 :=
  ⟨by decide,
    (C7_at_most_one_delivery (sampleEnv sampleQuickAbort false) sampleLagStart sampleLagEnd
      (sampleRequest 200 100) sampleHandler sampleData sampleLagOps noCopy_sampleLagOps
      (by decide)).1⟩

/-! ### The copy engine -/

theorem storeClientNoMoreToSend_iff (env : Env) (e : StoreEntry) (sc : store_client) :
    storeClientNoMoreToSend env e sc = true ↔
      (e.store_status ≠ StoreStatus.STORE_PENDING ∧ 0 ≤ env.objectLen e ∧
        env.objectLen e ≤ sc.copyInto.offset) := by
  unfold storeClientNoMoreToSend
  split_ifs with h1 h2 h3
  · simp [h1]
  · simp only [Bool.false_eq_true, false_iff, not_and, not_le]
    intro _ h
    omega
  · simp only [Bool.false_eq_true, false_iff, not_and, not_le]
    intro _ _
    omega
  · simp only [true_iff]
    exact ⟨h1, by omega, by omega⟩

/-- Claim C9: `doCopy` takes its end-of-object branch exactly when the store
status is not `STORE_PENDING`, the object length is known (`>= 0`) and
`copyInto.offset` is at or beyond it.  In that case, on a client with a pending
callback, it returns after `callback(0)`: the handler (when its data is still
valid) receives length 0 with the error flag clear, labelled `cmp_offset`, and
`store_copying` is clear.  Otherwise, in particular when the status is
`STORE_PENDING` or the object length is negative, `doCopy` is what its later
steps (lines 300 to 360) do. -/
theorem C9_doCopy_end_of_object (env : Env) (s : Sys) :
    (storeClientNoMoreToSend env s.e s.sc = true ↔
      (s.e.store_status ≠ StoreStatus.STORE_PENDING ∧ 0 ≤ env.objectLen s.e ∧
        env.objectLen s.e ≤ s.sc.copyInto.offset)) ∧
    ((s.e.store_status ≠ StoreStatus.STORE_PENDING ∧ 0 ≤ env.objectLen s.e ∧
        env.objectLen s.e ≤ s.sc.copyInto.offset) →
      ∀ hd d, s.sc._callback.callback_handler = some hd →
        s.sc._callback.callback_data = some d →
        ∃ s1, doCopy env s = some s1 ∧ s1.e = s.e ∧
          s1.trace = s.trace ++
            (if env.cbdataReferenceValid d then
              [Effect.handler hd d
                { error := false, length := 0, offset := s.sc.cmp_offset,
                  data := s.sc.copyInto.data }]
            else []) ∧
          s1.sc.callbackPending = false ∧ s1.sc.store_copying = false ∧
          s1.sc.object_ok = s.sc.object_ok) ∧
    (¬ (s.e.store_status ≠ StoreStatus.STORE_PENDING ∧ 0 ≤ env.objectLen s.e ∧
        env.objectLen s.e ≤ s.sc.copyInto.offset) →
      doCopy env s = doCopySelect env { s with sc := { s.sc with store_copying := true } }) := by
  have hiff := storeClientNoMoreToSend_iff env s.e s.sc
  have hsame : storeClientNoMoreToSend env s.e { s.sc with store_copying := true } =
      storeClientNoMoreToSend env s.e s.sc := rfl
  refine ⟨hiff, ?_, ?_⟩
  · intro hc hd d h1 h2
    have hn := hiff.2 hc
    unfold doCopy
    simp only [hsame, hn, if_true]
    rw [callback_of_pending env { s with sc := { s.sc with store_copying := true } } 0 false
      hd d h1 h2]
    obtain ⟨e1, e2, e3⟩ := invokeHandler_spec env
      { e := s.e, sc := callbackReset { s.sc with store_copying := true } 0, trace := s.trace }
      hd d (callbackResult { s.sc with store_copying := true } 0 false)
    refine ⟨_, rfl, ?_, ?_, ?_, rfl, ?_⟩
    · simp only [Option.map_some', doneCopying]
      exact e1
    · simp only [Option.map_some', doneCopying]
      rw [e3]
      rfl
    · simp only [Option.map_some', doneCopying]
      rw [e2]
      rfl
    · simp only [Option.map_some', doneCopying]
      rw [e2]
      rfl
  · intro hc
    have hn : storeClientNoMoreToSend env s.e s.sc = false := by
      cases h : storeClientNoMoreToSend env s.e s.sc
      · rfl
      · exact absurd (hiff.1 h) hc
    unfold doCopy
    simp only [hsame, hn, Bool.false_eq_true, if_false]

/-- Claim C10: for every client and entry with store status `STORE_PENDING` and
`copyInto.offset >= mem->endOffset()`, whatever the environment answers (a disk
client and an exceeded open-files limit included), `doCopy` returns having only
cleared `store_copying`: no call leaves the file (no handler, no
`storeSwapInStart`, no `storeRead`), and the callback slot, `swapin_sio`,
`object_ok`, `cmp_offset` and `disk_io_pending` are unchanged. -/
theorem C10_wait_for_producer (env : Env) (s : Sys) (mem : MemObject)
    (hmem : s.e.mem_obj = some mem)
    (hpend : s.e.store_status = StoreStatus.STORE_PENDING)
    (hoff : s.sc.copyInto.offset ≥ mem.endOffset) :
    doCopy env s = some { s with sc := { s.sc with store_copying := false } } ∧
      ∀ s1, doCopy env s = some s1 →
        s1.trace = s.trace ∧ s1.e = s.e ∧ s1.sc._callback = s.sc._callback ∧
        s1.sc.swapin_sio = s.sc.swapin_sio ∧ s1.sc.object_ok = s.sc.object_ok ∧
        s1.sc.cmp_offset = s.sc.cmp_offset ∧
        s1.sc.disk_io_pending = s.sc.disk_io_pending ∧ s1.sc.store_copying = false := by
  have hn : storeClientNoMoreToSend env s.e { s.sc with store_copying := true } = false := by
    unfold storeClientNoMoreToSend
    rw [if_pos hpend]
  have hw : waitingForMore { s with sc := { s.sc with store_copying := true } } = some true := by
    unfold waitingForMore
    simp only [hpend, if_true, hmem]
    simpa using hoff
  have main : doCopy env s = some { s with sc := { s.sc with store_copying := false } } := by
    unfold doCopy
    simp only [hn, Bool.false_eq_true, if_false]
    unfold doCopySelect
    rw [hw]
    rfl
  refine ⟨main, ?_⟩
  intro s1 h1
  rw [main] at h1
  simp only [Option.some.injEq] at h1
  subst h1
  exact ⟨rfl, rfl, rfl, rfl, rfl, rfl, rfl, rfl⟩

/-- Witness of `C10_wait_for_producer`: a disk client without swap-in handle
waits at offset 200 of a pending entry holding 200 bytes, while the open-files
limit is exceeded. -/
theorem C10_wait_for_producer_witness :
    doCopy (sampleEnv sampleQuickAbort true)
        { e := sampleEntry StoreStatus.STORE_PENDING true 200 10000 1,
          sc := samplePendingClient ClientType.STORE_DISK_CLIENT 200 100, trace := [] } =
      some
        { e := sampleEntry StoreStatus.STORE_PENDING true 200 10000 1,
          sc := samplePendingClient ClientType.STORE_DISK_CLIENT 200 100, trace := [] } :=
  (C10_wait_for_producer (sampleEnv sampleQuickAbort true)
    { e := sampleEntry StoreStatus.STORE_PENDING true 200 10000 1,
      sc := samplePendingClient ClientType.STORE_DISK_CLIENT 200 100, trace := [] }
    (sampleMem true 200 1) rfl rfl (by decide)).1

/-- Witness of `C9_doCopy_end_of_object`: a copy at offset 1000 of a completely
received entry of 1000 bytes gets the clean end-of-object result. -/
theorem C9_doCopy_end_of_object_witness :
    ∃ s1, doCopy (sampleEnv sampleQuickAbort false)
        { e := sampleDoneEntry, sc := samplePendingClient ClientType.STORE_MEM_CLIENT 1000 100,
          trace := [] } = some s1 ∧
      s1.e = sampleDoneEntry ∧
      s1.trace = [] ++
        (if (sampleEnv sampleQuickAbort false).cbdataReferenceValid 2 then
          [Effect.handler 1 2
            { error := false, length := 0,
              offset := (samplePendingClient ClientType.STORE_MEM_CLIENT 1000 100).cmp_offset,
              data := (samplePendingClient ClientType.STORE_MEM_CLIENT 1000 100).copyInto.data }]
        else []) ∧
      s1.sc.callbackPending = false ∧ s1.sc.store_copying = false ∧
      s1.sc.object_ok = (samplePendingClient ClientType.STORE_MEM_CLIENT 1000 100).object_ok :=
  (C9_doCopy_end_of_object (sampleEnv sampleQuickAbort false)
    { e := sampleDoneEntry, sc := samplePendingClient ClientType.STORE_MEM_CLIENT 1000 100,
      trace := [] }).2.1 ⟨by decide, by decide, by decide⟩ 1 2 rfl rfl

/-- Claim C8 as stated fails: a memory client whose copy engine is running
(`store_copying` set, as it is while its handler runs inside `doCopy`) copies
500 bytes at offset 0 of an entry holding the bytes `[0, 1000)`; `copy` returns
without calling the handler, having queued a copy event. -/
theorem C8_counterexample :
    copy (sampleEnv sampleQuickAbort false)
        { e := sampleDoneEntry,
          sc := { sampleClient ClientType.STORE_MEM_CLIENT with store_copying := true },
          trace := [] }
        (sampleRequest 0 500) sampleHandler sampleData =
      some
        { e := sampleDoneEntry,
          sc := { samplePendingClient ClientType.STORE_MEM_CLIENT 0 500 with
            store_copying := true, copy_event_pending := true },
          trace := [Effect.eventAdd] } := by
  decide

theorem storeClientCopy2_run (env : Env) (s : Sys) (hcep : s.sc.copy_event_pending = false)
    (hfw : s.e.ENTRY_FWD_HDR_WAIT = false) (hsc : s.sc.store_copying = false)
    (hp : s.sc.callbackPending = true) :
    storeClientCopy2 env s =
      match doCopy env s with
      | none => none
      | some s1 => if s1.sc.store_copying then none else some s1 := by
  unfold storeClientCopy2
  rw [if_neg (by simp [hcep]), if_neg (by simp [hfw]), if_neg (by simp [hsc]),
    if_neg (by simp [hp])]

theorem doCopy_select (env : Env) (s : Sys)
    (hne : storeClientNoMoreToSend env s.e s.sc = false) :
    doCopy env s = doCopySelect env { s with sc := { s.sc with store_copying := true } } := by
  have hsame : storeClientNoMoreToSend env s.e { s.sc with store_copying := true } =
      storeClientNoMoreToSend env s.e s.sc := rfl
  unfold doCopy
  simp only [hsame, hne, Bool.false_eq_true, if_false]

theorem doCopySelect_open (env : Env) (s : Sys) (hw : waitingForMore s = some false) :
    doCopySelect env s = doCopyOpen env s := by
  unfold doCopySelect
  rw [hw]

theorem doCopyOpen_ready (env : Env) (s : Sys)
    (h : ¬ (s.sc.type = ClientType.STORE_DISK_CLIENT ∧ s.sc.swapin_sio = none)) :
    doCopyOpen env s = doCopyMemOrDisk env s := by
  unfold doCopyOpen
  rw [if_neg h]

theorem doCopyOpen_opened (env : Env) (s : Sys)
    (h : s.sc.type = ClientType.STORE_DISK_CLIENT ∧ s.sc.swapin_sio = none)
    (htoo : env.storeTooManyDiskFilesOpen = false) (hdio : s.sc.disk_io_pending = false)
    (hopen : env.storeSwapInStart s.e s.sc ≠ none) :
    doCopyOpen env s =
      doCopyMemOrDisk env
        { s with
          sc := { s.sc with swapin_sio := env.storeSwapInStart s.e s.sc }
          trace := s.trace ++ [Effect.storeSwapInStart] } := by
  unfold doCopyOpen
  rw [if_pos h, if_neg (by simp [htoo]), if_pos (by simp [hdio])]
  dsimp only
  rw [if_neg hopen]

/-- A request inside the memory window is answered by `doCopyMemOrDisk` with the
bytes the memory copy returns. -/
theorem doCopyMemOrDisk_hit (env : Env) (s : Sys) (mem : MemObject) (hd d : Nat)
    (hmem : s.e.mem_obj = some mem) (hlo : mem.inmem_lo ≤ s.sc.copyInto.offset)
    (hhi : s.sc.copyInto.offset < mem.endOffset)
    (h1 : s.sc._callback.callback_handler = some hd)
    (h2 : s.sc._callback.callback_data = some d) :
    doCopyMemOrDisk env s =
      some (doneCopying (invokeHandler env
        { s with
          sc := (callbackReset s.sc
            (env.data_hdr_copy mem s.sc.copyInto.offset s.sc.copyInto.length)) } hd d
        (callbackResult s.sc
          (env.data_hdr_copy mem s.sc.copyInto.offset s.sc.copyInto.length) false))) := by
  unfold doCopyMemOrDisk
  simp only [hmem]
  rw [if_pos ⟨hlo, hhi⟩, callback_of_pending env s _ false hd d h1 h2]
  rfl

/-- Claim C8, amended: for every client that is not inside the copy engine
(`store_copying` and `copy_event_pending` clear) and whose callback data is
valid, whose request offset lies in `[mem.inmem_lo, mem.endOffset)` on an entry
without `ENTRY_FWD_HDR_WAIT` and not at end of object for that offset, and whose
type is memory client (or disk client with a swap-in handle that is open, or
that opens successfully with the open-files limit respected and no disk read
pending), `copy` invokes the handler before it returns, as its last call out of
the file, with `length = min(request.length, mem.endOffset - request.offset)`,
`offset = request.offset`, the request's buffer and no error flag, and leaves
`cmp_offset = request.offset + length`, assuming the memory copy returns that
many bytes. -/
theorem C8_copy_memory_hit (env : Env) (s : Sys) (mem : MemObject) (req : StoreIOBuffer)
    (fn data : Nat) (hmem : s.e.mem_obj = some mem)
    (hab : s.e.ENTRY_ABORTED = false) (hnp : s.sc.callbackPending = false)
    (hfw : s.e.ENTRY_FWD_HDR_WAIT = false)
    (hcep : s.sc.copy_event_pending = false) (hsc : s.sc.store_copying = false)
    (hvalid : env.cbdataReferenceValid data = true)
    (heof : ¬ (s.e.store_status ≠ StoreStatus.STORE_PENDING ∧ 0 ≤ env.objectLen s.e ∧
      env.objectLen s.e ≤ req.offset))
    (hlo : mem.inmem_lo ≤ req.offset) (hhi : req.offset < mem.endOffset)
    (htype : s.sc.type = ClientType.STORE_MEM_CLIENT ∨
      (s.sc.type = ClientType.STORE_DISK_CLIENT ∧
        (s.sc.swapin_sio ≠ none ∨
          (env.storeTooManyDiskFilesOpen = false ∧ s.sc.disk_io_pending = false ∧
            ∀ c, env.storeSwapInStart s.e c ≠ none))))
    (hcopy : env.data_hdr_copy mem req.offset req.length =
      ((Nat.min req.length (mem.endOffset - req.offset).toNat : Nat) : Int)) :
    ∃ s1 pre, copy env s req (some fn) (some data) = some s1 ∧ s1.e = s.e ∧
      s1.trace = s.trace ++ pre ++
        [Effect.handler fn data
          { error := false
            length := Nat.min req.length (mem.endOffset - req.offset).toNat
            offset := req.offset
            data := req.data }] ∧
      (pre = [] ∨ pre = [Effect.storeSwapInStart]) ∧
      s1.sc.cmp_offset =
        req.offset + ((Nat.min req.length (mem.endOffset - req.offset).toNat : Nat) : Int) ∧
      s1.sc.callbackPending = false ∧ s1.sc.store_copying = false ∧
      s1.sc.object_ok = s.sc.object_ok := by
  obtain ⟨S0, hS0⟩ : ∃ S0 : Sys, S0 =
      { s with
        sc := { s.sc with
          cmp_offset := req.offset
          _callback := { callback_handler := some fn, callback_data := some data }
          copyInto := { s.sc.copyInto with
            data := req.data
            length := req.length
            offset := req.offset } } } := ⟨_, rfl⟩
  have hcopy0 : copy env s req (some fn) (some data) = storeClientCopy2 env S0 := by
    rw [hS0]
    unfold copy
    simp [hab, hnp]
  have f_e : S0.e = s.e := by rw [hS0]
  have f_tr : S0.trace = s.trace := by rw [hS0]
  have f_h : S0.sc._callback.callback_handler = some fn := by rw [hS0]
  have f_d : S0.sc._callback.callback_data = some data := by rw [hS0]
  have f_ty : S0.sc.type = s.sc.type := by rw [hS0]
  have f_sio : S0.sc.swapin_sio = s.sc.swapin_sio := by rw [hS0]
  have f_dio : S0.sc.disk_io_pending = s.sc.disk_io_pending := by rw [hS0]
  have f_sc : S0.sc.store_copying = s.sc.store_copying := by rw [hS0]
  have f_cep : S0.sc.copy_event_pending = s.sc.copy_event_pending := by rw [hS0]
  have f_cmp : S0.sc.cmp_offset = req.offset := by rw [hS0]
  have f_off : S0.sc.copyInto.offset = req.offset := by rw [hS0]
  have f_len : S0.sc.copyInto.length = req.length := by rw [hS0]
  have f_dat : S0.sc.copyInto.data = req.data := by rw [hS0]
  have f_ok : S0.sc.object_ok = s.sc.object_ok := by rw [hS0]
  clear hS0
  have hp0 : S0.sc.callbackPending = true := (callbackPending_iff _).2 ⟨fn, data, f_h, f_d⟩
  have hne : storeClientNoMoreToSend env S0.e S0.sc = false := by
    cases h : storeClientNoMoreToSend env S0.e S0.sc
    · rfl
    · have := (storeClientNoMoreToSend_iff env S0.e S0.sc).1 h
      rw [f_e, f_off] at this
      exact absurd this heof
  have hwait : waitingForMore { S0 with sc := { S0.sc with store_copying := true } }
      = some false := by
    unfold waitingForMore
    simp only [f_e, hmem, f_off]
    split_ifs
    · simp only [Option.some.injEq, decide_eq_false_iff_not, not_le]
      exact hhi
    · rfl
  have hlen : ¬ (((Nat.min req.length (mem.endOffset - req.offset).toNat : Nat) : Int) < 0) := by
    omega
  rw [hcopy0, storeClientCopy2_run env S0 (f_cep.trans hcep) (f_e ▸ hfw) (f_sc.trans hsc) hp0,
    doCopy_select env S0 hne, doCopySelect_open env _ hwait]
  have fin : ∀ S1 : Sys, S1.e = s.e → S1.sc._callback.callback_handler = some fn →
      S1.sc._callback.callback_data = some data → S1.sc.cmp_offset = req.offset →
      S1.sc.copyInto.offset = req.offset → S1.sc.copyInto.length = req.length →
      S1.sc.copyInto.data = req.data → S1.sc.object_ok = s.sc.object_ok →
      ∀ pre, S1.trace = s.trace ++ pre → (pre = [] ∨ pre = [Effect.storeSwapInStart]) →
      ∃ s1 pre,
        (match doCopyMemOrDisk env S1 with
          | none => none
          | some s1 => if s1.sc.store_copying then none else some s1) = some s1 ∧
        s1.e = s.e ∧
        s1.trace = s.trace ++ pre ++
          [Effect.handler fn data
            { error := false
              length := Nat.min req.length (mem.endOffset - req.offset).toNat
              offset := req.offset
              data := req.data }] ∧
        (pre = [] ∨ pre = [Effect.storeSwapInStart]) ∧
        s1.sc.cmp_offset =
          req.offset + ((Nat.min req.length (mem.endOffset - req.offset).toNat : Nat) : Int) ∧
        s1.sc.callbackPending = false ∧ s1.sc.store_copying = false ∧
        s1.sc.object_ok = s.sc.object_ok := by
    intro S1 g_e g_h g_d g_cmp g_off g_len g_dat g_ok pre g_tr g_pre
    rw [doCopyMemOrDisk_hit env S1 mem fn data (g_e ▸ hmem) (g_off ▸ hlo) (g_off ▸ hhi) g_h g_d]
    obtain ⟨e1, e2, e3⟩ := invokeHandler_spec env
      { S1 with
        sc := (callbackReset S1.sc
          (env.data_hdr_copy mem S1.sc.copyInto.offset S1.sc.copyInto.length)) } fn data
      (callbackResult S1.sc
        (env.data_hdr_copy mem S1.sc.copyInto.offset S1.sc.copyInto.length) false)
    refine ⟨_, pre, rfl, ?_, ?_, g_pre, ?_, ?_, rfl, ?_⟩
    · simp only [doneCopying]
      rw [e1]
      exact g_e
    · simp only [doneCopying]
      rw [e3, hvalid]
      simp only [if_true, g_off, g_len, hcopy, callbackResult, hlen, if_false, Int.toNat_ofNat,
        g_cmp, g_dat, g_tr]
    · simp only [doneCopying]
      rw [e2]
      simp only [callbackReset, g_off, g_len, hcopy]
    · simp only [doneCopying]
      rw [e2]
      rfl
    · simp only [doneCopying]
      rw [e2]
      exact g_ok
  rcases htype with hm | ⟨hdk, hsio | ⟨htoo, hdio, hopen⟩⟩
  · rw [doCopyOpen_ready env _ (by simp [f_ty, hm])]
    exact fin _ f_e f_h f_d f_cmp f_off f_len f_dat f_ok [] (by simp [f_tr]) (Or.inl rfl)
  · rw [doCopyOpen_ready env _ (by simp [f_sio, hsio])]
    exact fin _ f_e f_h f_d f_cmp f_off f_len f_dat f_ok [] (by simp [f_tr]) (Or.inl rfl)
  · by_cases hs : s.sc.swapin_sio = none
    · rw [doCopyOpen_opened env { S0 with sc := { S0.sc with store_copying := true } }
        ⟨f_ty.trans hdk, f_sio.trans hs⟩ htoo (f_dio.trans hdio)
        (by rw [f_e]; exact hopen _)]
      exact fin _ f_e f_h f_d f_cmp f_off f_len f_dat f_ok [Effect.storeSwapInStart]
        (by simp [f_tr]) (Or.inr rfl)
    · rw [doCopyOpen_ready env _ (by simp [f_sio, hs])]
      exact fin _ f_e f_h f_d f_cmp f_off f_len f_dat f_ok [] (by simp [f_tr]) (Or.inl rfl)

/-- Witness of `C8_copy_memory_hit`: the pure memory hit of the specification,
a copy of 500 bytes at offset 0 of a complete entry of 1000 bytes in memory. -/
theorem C8_copy_memory_hit_witness :
    ∃ s1 pre, copy (sampleEnv sampleQuickAbort false)
        { e := sampleDoneEntry, sc := sampleClient ClientType.STORE_MEM_CLIENT, trace := [] }
        (sampleRequest 0 500) (some 1) (some 2) = some s1 ∧
      s1.e = sampleDoneEntry ∧
      s1.trace = [] ++ pre ++
        [Effect.handler 1 2
          { error := false
            length := Nat.min (sampleRequest 0 500).length
              ((sampleMem true 1000 1).endOffset - (sampleRequest 0 500).offset).toNat
            offset := (sampleRequest 0 500).offset
            data := (sampleRequest 0 500).data }] ∧
      (pre = [] ∨ pre = [Effect.storeSwapInStart]) ∧
      s1.sc.cmp_offset = (sampleRequest 0 500).offset +
        ((Nat.min (sampleRequest 0 500).length
          ((sampleMem true 1000 1).endOffset - (sampleRequest 0 500).offset).toNat : Nat) : Int) ∧
      s1.sc.callbackPending = false ∧ s1.sc.store_copying = false ∧
      s1.sc.object_ok = (sampleClient ClientType.STORE_MEM_CLIENT).object_ok :=
  C8_copy_memory_hit (sampleEnv sampleQuickAbort false)
    { e := sampleDoneEntry, sc := sampleClient ClientType.STORE_MEM_CLIENT, trace := [] }
    { sampleMem true 1000 1 with object_sz := 1000 } (sampleRequest 0 500) 1 2 rfl rfl rfl rfl
    rfl rfl rfl (by decide) (by decide) (by decide) (Or.inl rfl) (by decide)

/-! ### The paths of the copy engine -/

/-- What `callback` followed by the return of `doCopy` leaves behind. -/
theorem callback_done_spec (env : Env) (s : Sys) (sz : Int) (error : Bool) (hd d : Nat)
    (h1 : s.sc._callback.callback_handler = some hd)
    (h2 : s.sc._callback.callback_data = some d) :
    ∃ s1, (callback env s sz error).map doneCopying = some s1 ∧ s1.e = s.e ∧
      s1.trace = s.trace ++
        (if env.cbdataReferenceValid d then
          [Effect.handler hd d (callbackResult s.sc sz error)] else []) ∧
      s1.sc = { callbackReset s.sc sz with store_copying := false } := by
  rw [callback_of_pending env s sz error hd d h1 h2]
  obtain ⟨e1, e2, e3⟩ := invokeHandler_spec env { s with sc := callbackReset s.sc sz } hd d
    (callbackResult s.sc sz error)
  refine ⟨_, rfl, ?_, ?_, ?_⟩
  · simp only [doneCopying]
    exact e1
  · simp only [doneCopying]
    exact e3
  · simp only [doneCopying]
    rw [e2]

/-- What `fail` followed by the return of `doCopy` leaves behind. -/
theorem fail_done_spec (env : Env) (s : Sys) (hd d : Nat)
    (h1 : s.sc._callback.callback_handler = some hd)
    (h2 : s.sc._callback.callback_data = some d) :
    ∃ s1, (fail env s).map doneCopying = some s1 ∧ s1.e = s.e ∧
      s1.trace = s.trace ++
        (if env.cbdataReferenceValid d then
          [Effect.handler hd d
            { error := true, length := 0, offset := s.sc.cmp_offset,
              data := s.sc.copyInto.data }] else []) ∧
      s1.sc = { callbackReset { s.sc with object_ok := false } 0 with
        store_copying := false } := by
  unfold fail
  exact callback_done_spec env { s with sc := { s.sc with object_ok := false } } 0 true hd d
    h1 h2

theorem doCopy_eof_eq (env : Env) (s : Sys)
    (hne : storeClientNoMoreToSend env s.e s.sc = true) :
    doCopy env s =
      (callback env { s with sc := { s.sc with store_copying := true } } 0 false).map
        doneCopying := by
  have hsame : storeClientNoMoreToSend env s.e { s.sc with store_copying := true } =
      storeClientNoMoreToSend env s.e s.sc := rfl
  unfold doCopy
  simp only [hsame, hne, if_true]

theorem doCopySelect_wait (env : Env) (s : Sys) (hw : waitingForMore s = some true) :
    doCopySelect env s = some (doneCopying s) := by
  unfold doCopySelect
  rw [hw]

theorem waitingForMore_false (s : Sys)
    (h : s.e.store_status = StoreStatus.STORE_PENDING →
      ∃ mem, s.e.mem_obj = some mem ∧ s.sc.copyInto.offset < mem.endOffset) :
    waitingForMore s = some false := by
  unfold waitingForMore
  split_ifs with hp
  · obtain ⟨mem, hm, ho⟩ := h hp
    simp only [hm, Option.some.injEq, decide_eq_false_iff_not, not_le]
    exact ho
  · rfl

theorem doCopyOpen_tooMany (env : Env) (s : Sys)
    (h : s.sc.type = ClientType.STORE_DISK_CLIENT ∧ s.sc.swapin_sio = none)
    (htoo : env.storeTooManyDiskFilesOpen = true) :
    doCopyOpen env s = (fail env s).map doneCopying := by
  unfold doCopyOpen
  rw [if_pos h, if_pos htoo]

theorem doCopyMemOrDisk_hit_eq (env : Env) (s : Sys) (mem : MemObject)
    (hmem : s.e.mem_obj = some mem) (hlo : mem.inmem_lo ≤ s.sc.copyInto.offset)
    (hhi : s.sc.copyInto.offset < mem.endOffset) :
    doCopyMemOrDisk env s =
      (callback env s (env.data_hdr_copy mem s.sc.copyInto.offset s.sc.copyInto.length)
        false).map doneCopying := by
  unfold doCopyMemOrDisk
  simp only [hmem]
  rw [if_pos ⟨hlo, hhi⟩]

theorem doCopyMemOrDisk_disk (env : Env) (s : Sys) (mem : MemObject)
    (hmem : s.e.mem_obj = some mem)
    (hout : ¬ (mem.inmem_lo ≤ s.sc.copyInto.offset ∧ s.sc.copyInto.offset < mem.endOffset))
    (hty : s.sc.type = ClientType.STORE_DISK_CLIENT) (hdio : s.sc.disk_io_pending = false) :
    doCopyMemOrDisk env s = (fileRead s).map doneCopying := by
  unfold doCopyMemOrDisk
  simp only [hmem]
  rw [if_neg (by simpa using hout), if_neg (by simp [hty]), if_neg (by simp [hdio])]

theorem doCopyMemOrDisk_assert (env : Env) (s : Sys) (mem : MemObject)
    (hmem : s.e.mem_obj = some mem)
    (hout : ¬ (mem.inmem_lo ≤ s.sc.copyInto.offset ∧ s.sc.copyInto.offset < mem.endOffset))
    (hty : s.sc.type ≠ ClientType.STORE_DISK_CLIENT) :
    doCopyMemOrDisk env s = none := by
  unfold doCopyMemOrDisk
  simp only [hmem]
  rw [if_neg (by simpa using hout), if_pos hty]

/-- The read `fileRead` issues when its assertions hold. -/
theorem fileRead_spec (s : Sys) (mem : MemObject) (hmem : s.e.mem_obj = some mem)
    (hp : s.sc.callbackPending = true) (hdio : s.sc.disk_io_pending = false)
    (hsw : mem.swap_hdr_sz ≠ 0 → s.e.swap_status = SwapStatus.SWAPOUT_WRITING →
      mem.swapout_sio_offset > s.sc.copyInto.offset + (mem.swap_hdr_sz : Int)) :
    fileRead s =
      some { s with
        sc := { s.sc with disk_io_pending := true }
        trace := s.trace ++ [Effect.storeRead s.sc.swapin_sio s.sc.copyInto.data
          s.sc.copyInto.length (s.sc.copyInto.offset + (mem.swap_hdr_sz : Int))
          (if mem.swap_hdr_sz = 0 then ReadCallback.storeClientReadHeader
           else ReadCallback.storeClientReadBody)] } := by
  unfold fileRead
  simp only [hmem]
  rw [if_neg (by simp [hp]), if_neg (by simp [hdio]), if_neg]
  intro ⟨a, b, c⟩
  exact c (hsw a b)

/-- Under its guards `storeClientCopy2` is `doCopy`, which returns with
`store_copying` clear. -/
theorem storeClientCopy2_doCopy (env : Env) (s s1 : Sys)
    (hcep : s.sc.copy_event_pending = false) (hfw : s.e.ENTRY_FWD_HDR_WAIT = false)
    (hsc : s.sc.store_copying = false) (hp : s.sc.callbackPending = true)
    (h : doCopy env s = some s1) (hdone : s1.sc.store_copying = false) :
    storeClientCopy2 env s = some s1 := by
  rw [storeClientCopy2_run env s hcep hfw hsc hp, h]
  simp [hdone]

/-- A copy request is not at end of object when `storeClientNoMoreToSend` is false. -/
theorem storeClientNoMoreToSend_false (env : Env) (e : StoreEntry) (sc : store_client)
    (h : ¬ (e.store_status ≠ StoreStatus.STORE_PENDING ∧ 0 ≤ env.objectLen e ∧
      env.objectLen e ≤ sc.copyInto.offset)) :
    storeClientNoMoreToSend env e sc = false := by
  cases hn : storeClientNoMoreToSend env e sc
  · rfl
  · exact absurd ((storeClientNoMoreToSend_iff env e sc).1 hn) h

/-- Claim C12: for every disk client with no swap-in handle and a pending
callback, when the open-disk-files limit is exceeded and the request is neither
at end of object nor waiting for the producer, `doCopy` fails the client: the
handler (when its data is still valid) receives one result with length 0 and
the error flag set, `object_ok` becomes false, and no other call leaves the file
(no `storeSwapInStart`, no `storeRead`); nothing is assumed about the memory
window, so this also happens when the requested bytes are in memory. -/
theorem C12_too_many_disk_files (env : Env) (s : Sys) (hd d : Nat)
    (hty : s.sc.type = ClientType.STORE_DISK_CLIENT) (hsio : s.sc.swapin_sio = none)
    (htoo : env.storeTooManyDiskFilesOpen = true)
    (h1 : s.sc._callback.callback_handler = some hd)
    (h2 : s.sc._callback.callback_data = some d)
    (hneof : ¬ (s.e.store_status ≠ StoreStatus.STORE_PENDING ∧ 0 ≤ env.objectLen s.e ∧
      env.objectLen s.e ≤ s.sc.copyInto.offset))
    (hnwait : s.e.store_status = StoreStatus.STORE_PENDING →
      ∃ mem, s.e.mem_obj = some mem ∧ s.sc.copyInto.offset < mem.endOffset) :
    ∃ s1, doCopy env s = some s1 ∧ s1.e = s.e ∧
      s1.trace = s.trace ++
        (if env.cbdataReferenceValid d then
          [Effect.handler hd d
            { error := true, length := 0, offset := s.sc.cmp_offset,
              data := s.sc.copyInto.data }] else []) ∧
      s1.sc.object_ok = false ∧ s1.sc.swapin_sio = none ∧
      s1.sc.disk_io_pending = s.sc.disk_io_pending ∧ s1.sc.callbackPending = false ∧
      s1.sc.store_copying = false := by
  rw [doCopy_select env s (storeClientNoMoreToSend_false env s.e s.sc hneof),
    doCopySelect_open env { s with sc := { s.sc with store_copying := true } }
      (waitingForMore_false _ hnwait),
    doCopyOpen_tooMany env { s with sc := { s.sc with store_copying := true } } ⟨hty, hsio⟩
      htoo]
  obtain ⟨s1, a1, a2, a3, a4⟩ := fail_done_spec env
    { s with sc := { s.sc with store_copying := true } } hd d h1 h2
  refine ⟨s1, a1, a2, a3, ?_, ?_, ?_, ?_, ?_⟩
  · rw [a4]
    rfl
  · rw [a4]
    exact hsio
  · rw [a4]
    rfl
  · rw [a4]
    rfl
  · rw [a4]

/-- Witness of `C12_too_many_disk_files`: a disk client without handle copies
100 bytes at offset 0 of an entry whose 1000 bytes are all in memory, while the
open-files limit is exceeded. -/
theorem C12_too_many_disk_files_witness :
    ∃ s1, doCopy (sampleEnv sampleQuickAbort true)
        { e := sampleDoneEntry, sc := samplePendingClient ClientType.STORE_DISK_CLIENT 0 100,
          trace := [] } = some s1 ∧
      s1.e = sampleDoneEntry ∧
      s1.trace = [] ++
        (if (sampleEnv sampleQuickAbort true).cbdataReferenceValid 2 then
          [Effect.handler 1 2
            { error := true, length := 0,
              offset := (samplePendingClient ClientType.STORE_DISK_CLIENT 0 100).cmp_offset,
              data := (samplePendingClient ClientType.STORE_DISK_CLIENT 0 100).copyInto.data }]
        else []) ∧
      s1.sc.object_ok = false ∧ s1.sc.swapin_sio = none ∧
      s1.sc.disk_io_pending =
        (samplePendingClient ClientType.STORE_DISK_CLIENT 0 100).disk_io_pending ∧
      s1.sc.callbackPending = false ∧ s1.sc.store_copying = false :=
  C12_too_many_disk_files (sampleEnv sampleQuickAbort true)
    { e := sampleDoneEntry, sc := samplePendingClient ClientType.STORE_DISK_CLIENT 0 100,
      trace := [] } 1 2 rfl rfl rfl rfl rfl (by decide) (by decide)

/-! ### Disk completions -/

/-- Claim C13 as stated fails: a body read of a disk client completes with
`len = -1`; the handler receives length 0 with the error flag set, but
`object_ok` is still true afterwards, because `storeClientReadBody` calls
`callback(len)` and not `fail()`. -/
theorem C13_counterexample :
    (storeClientReadBody (sampleEnv sampleQuickAbort false)
        { e := sampleDoneEntry, sc := sampleReadingClient 0 100, trace := [] } (-1)).map
        (fun s => (s.sc.object_ok, s.sc.disk_io_pending, deliveries s.trace)) =
      some (true, false, [{ error := true, length := 0, offset := 0, data := some 9 }]) := by
  decide

/-- Claim C13, amended: for every client with a disk read in flight and a
pending callback, a body-read completion with `len < 0` is delivered as an error
through `callback(len)`: the handler (when its data is still valid) receives
length 0 with the error flag set, `disk_io_pending` is cleared and the callback
slot is empty; the entry is unchanged and no other call leaves the file. -/
theorem C13_body_read_error (env : Env) (s : Sys) (len : Int) (hd d : Nat)
    (hdio : s.sc.disk_io_pending = true)
    (h1 : s.sc._callback.callback_handler = some hd)
    (h2 : s.sc._callback.callback_data = some d) (hlen : len < 0) :
    ∃ s1, storeClientReadBody env s len = some s1 ∧ s1.e = s.e ∧
      s1.trace = s.trace ++
        (if env.cbdataReferenceValid d then
          [Effect.handler hd d
            { error := true, length := 0, offset := s.sc.cmp_offset,
              data := s.sc.copyInto.data }] else []) ∧
      s1.sc.disk_io_pending = false ∧ s1.sc.callbackPending = false := by
  have hp : ({ s.sc with disk_io_pending := false } : store_client).callbackPending = true :=
    (callbackPending_iff _).2 ⟨hd, d, h1, h2⟩
  have hnp : ¬ (s.sc.copyInto.offset = 0 ∧ len > 0 ∧ s.e.reply.sline_status = 0) := by
    intro h
    omega
  unfold storeClientReadBody
  rw [if_neg (by simp [hdio])]
  dsimp only
  rw [if_neg (by simp [hp]), if_neg hnp,
    callback_of_pending env { s with sc := { s.sc with disk_io_pending := false } } len false
      hd d h1 h2]
  obtain ⟨e1, e2, e3⟩ := invokeHandler_spec env
    { e := s.e, sc := callbackReset { s.sc with disk_io_pending := false } len,
      trace := s.trace } hd d
    (callbackResult { s.sc with disk_io_pending := false } len false)
  refine ⟨_, rfl, e1, ?_, ?_, ?_⟩
  · rw [e3]
    simp only [callbackResult, hlen, if_true]
  · rw [e2]
    rfl
  · rw [e2]
    rfl

/-- Witness of `C13_body_read_error`: the body read of a disk client that
copies 100 bytes at offset 0 completes with `len = -1`. -/
theorem C13_body_read_error_witness :
    ∃ s1, storeClientReadBody (sampleEnv sampleQuickAbort false)
        { e := sampleDoneEntry, sc := sampleReadingClient 0 100, trace := [] } (-1) = some s1 ∧
      s1.e = sampleDoneEntry ∧
      s1.trace = [] ++
        (if (sampleEnv sampleQuickAbort false).cbdataReferenceValid 2 then
          [Effect.handler 1 2
            { error := true, length := 0, offset := (sampleReadingClient 0 100).cmp_offset,
              data := (sampleReadingClient 0 100).copyInto.data }] else []) ∧
      s1.sc.disk_io_pending = false ∧ s1.sc.callbackPending = false :=
  C13_body_read_error (sampleEnv sampleQuickAbort false)
    { e := sampleDoneEntry, sc := sampleReadingClient 0 100, trace := [] } (-1) 1 2 rfl rfl rfl
    (by decide)

/-- The header of a swap file is rejected: the read failed, or the buffer is not
sane, or no metadata list is built, or an item of the list is inconsistent with
the entry. -/
theorem unpackHeader_rejects (env : Env) (s : Sys) (len : Int)
    (h : len < 0 ∨ env.isBufferSane = false ∨ env.createStoreMeta = none ∨
      ∃ tlv_list, env.createStoreMeta = some tlv_list ∧
        ∃ t ∈ tlv_list, env.checkConsistency t s.e = false) :
    unpackHeader env s len = fail env s := by
  unfold unpackHeader
  by_cases h1 : len < 0
  · rw [if_pos h1]
  · rw [if_neg h1]
    by_cases h2 : env.isBufferSane = false
    · rw [if_pos (by simp [h2])]
    · rw [if_neg (by simpa using h2)]
      rcases h with h | h | h | ⟨l, hl, t, ht, hc⟩
      · exact absurd h h1
      · exact absurd h h2
      · rw [h]
      · rw [hl]
        dsimp only
        rw [if_neg]
        intro hall
        rw [List.all_eq_true] at hall
        rw [hall t ht] at hc
        exact absurd hc (by simp)

/-- Claim C14: for every header-read completion (a read in flight on a client
with a pending callback) in which `len < 0`, or the unpacker reports the buffer
is not sane, or the metadata list is `NULL`, or an item of the list fails its
consistency check against the entry: the handler (when its data is still valid)
receives one result with length 0 and the error flag set, `object_ok` becomes
false, `disk_io_pending` is cleared, the entry (with `swap_hdr_sz` and
`object_sz`) is unchanged and no further `storeRead` is issued. -/
theorem C14_header_rejected (env : Env) (s : Sys) (len : Int) (hd d : Nat)
    (hdio : s.sc.disk_io_pending = true)
    (h1 : s.sc._callback.callback_handler = some hd)
    (h2 : s.sc._callback.callback_data = some d)
    (hbad : len < 0 ∨ env.isBufferSane = false ∨ env.createStoreMeta = none ∨
      ∃ tlv_list, env.createStoreMeta = some tlv_list ∧
        ∃ t ∈ tlv_list, env.checkConsistency t s.e = false) :
    ∃ s1, readHeader env s len = some s1 ∧ s1.e = s.e ∧
      s1.trace = s.trace ++
        (if env.cbdataReferenceValid d then
          [Effect.handler hd d
            { error := true, length := 0, offset := s.sc.cmp_offset,
              data := s.sc.copyInto.data }] else []) ∧
      s1.sc.object_ok = false ∧ s1.sc.disk_io_pending = false ∧
      s1.sc.callbackPending = false := by
  have hp : ({ s.sc with disk_io_pending := false } : store_client).callbackPending = true :=
    (callbackPending_iff _).2 ⟨hd, d, h1, h2⟩
  unfold readHeader
  rw [if_neg (by simp [hdio])]
  dsimp only
  rw [if_neg (by simp [hp]),
    unpackHeader_rejects env { s with sc := { s.sc with disk_io_pending := false } } len hbad]
  unfold fail
  rw [callback_of_pending env
    { e := s.e, sc := { s.sc with disk_io_pending := false, object_ok := false },
      trace := s.trace } 0 true hd d h1 h2]
  obtain ⟨e1, e2, e3⟩ := invokeHandler_spec env
    { e := s.e,
      sc := callbackReset { s.sc with disk_io_pending := false, object_ok := false } 0,
      trace := s.trace } hd d
    (callbackResult { s.sc with disk_io_pending := false, object_ok := false } 0 true)
  dsimp only
  rw [if_pos (by rw [e2]; rfl)]
  refine ⟨_, rfl, e1, ?_, ?_, ?_, ?_⟩
  · rw [e3]
    rfl
  · rw [e2]
    rfl
  · rw [e2]
    rfl
  · rw [e2]
    rfl

theorem toSSizeT_of_lt (n : Nat) (h : n < 2 ^ 63) : toSSizeT n = (n : Int) := by
  unfold toSSizeT SIZE_MOD
  have hm : n % 2 ^ 64 = n := Nat.mod_eq_of_lt (by omega)
  rw [hm, if_pos h]

/-- The header of a swap file is accepted: the sizes are recorded in the
memory object and nothing else changes. -/
theorem unpackHeader_accepts (env : Env) (s : Sys) (len : Int) (mem : MemObject)
    (tlv_list : List Nat) (hlen : 0 ≤ len) (hsane : env.isBufferSane = true)
    (hmeta : env.createStoreMeta = some tlv_list)
    (hcons : ∀ t ∈ tlv_list, env.checkConsistency t s.e = true)
    (hmem : s.e.mem_obj = some mem) :
    unpackHeader env s len =
      some { s with
        e := { s.e with
          mem_obj := some { mem with
            swap_hdr_sz := toSizeT env.swap_hdr_sz
            object_sz := s.e.swap_file_sz - env.swap_hdr_sz } } } := by
  unfold unpackHeader
  rw [if_neg (by omega), if_neg (by simp [hsane]), hmeta]
  dsimp only
  rw [if_pos (by rw [List.all_eq_true]; exact hcons), hmem]

/-- The header completion after an accepted header, on a client whose
`object_ok` is set: the sizes are recorded, then the body bytes are delivered
or read again. -/
theorem readHeader_accepted (env : Env) (s : Sys) (len h : Nat) (mem : MemObject)
    (tlv_list : List Nat) (hdio : s.sc.disk_io_pending = true)
    (hp : s.sc.callbackPending = true) (hok : s.sc.object_ok = true)
    (hmem : s.e.mem_obj = some mem) (hsane : env.isBufferSane = true)
    (hmeta : env.createStoreMeta = some tlv_list)
    (hcons : ∀ t ∈ tlv_list, env.checkConsistency t s.e = true)
    (hh : env.swap_hdr_sz = (h : Int)) (hle : h ≤ len) (hl63 : len < 2 ^ 63) :
    ∃ S2 : Sys, S2.sc = { s.sc with disk_io_pending := false } ∧ S2.trace = s.trace ∧
      S2.e = { s.e with
        mem_obj := some { mem with
          swap_hdr_sz := h
          object_sz := s.e.swap_file_sz - (h : Int) } } ∧
      readHeader env s (len : Int) =
        if toSizeT S2.sc.copyInto.offset < len - h then
          if S2.sc.copyInto.offset = 0 ∧ (len : Int) > 0 ∧ S2.e.reply.sline_status = 0 then
            callback env
              { e := { S2.e with reply := env.httpReplyParse S2.e.reply }
                sc := S2.sc
                trace := S2.trace ++
                  [Effect.xmemmove S2.sc.copyInto.data h
                    (Nat.min S2.sc.copyInto.length (len - h))] ++
                  [Effect.httpReplyParse S2.sc.copyInto.data
                    ((Nat.min S2.sc.copyInto.length (len - h) : Nat) : Int)] }
              ((Nat.min S2.sc.copyInto.length (len - h) : Nat) : Int) false
          else
            callback env
              { S2 with
                trace := S2.trace ++
                  [Effect.xmemmove S2.sc.copyInto.data h
                    (Nat.min S2.sc.copyInto.length (len - h))] }
              ((Nat.min S2.sc.copyInto.length (len - h) : Nat) : Int) false
        else fileRead S2 := by
  have hp1 : ({ s.sc with disk_io_pending := false } : store_client).callbackPending = true := hp
  have hhz : toSizeT env.swap_hdr_sz = h := by
    rw [hh]
    exact toSizeT_natCast h (by omega)
  have hbody : toSizeT ((len : Int) - (h : Int)) = len - h := by
    rw [← Nat.cast_sub hle]
    exact toSizeT_natCast _ (by omega)
  have hmin : ∀ k : Nat, toSSizeT (Nat.min k (len - h)) = ((Nat.min k (len - h) : Nat) : Int) := by
    intro k
    apply toSSizeT_of_lt
    have : Nat.min k (len - h) ≤ len - h := Nat.min_le_right _ _
    omega
  refine ⟨{ s with
      sc := { s.sc with disk_io_pending := false }
      e := { s.e with
        mem_obj := some { mem with
          swap_hdr_sz := h
          object_sz := s.e.swap_file_sz - (h : Int) } } }, rfl, rfl, rfl, ?_⟩
  unfold readHeader
  rw [if_neg (by simp [hdio])]
  dsimp only
  rw [if_neg (by simp [hp1]),
    unpackHeader_accepts env { s with sc := { s.sc with disk_io_pending := false } } len mem
      tlv_list (by omega) hsane hmeta hcons hmem]
  dsimp only
  rw [if_neg (by simp [hok]), hhz, hh, hbody]
  simp only [hmin]

/-- What `callback` leaves behind. -/
theorem callback_spec (env : Env) (s : Sys) (sz : Int) (error : Bool) (hd d : Nat)
    (h1 : s.sc._callback.callback_handler = some hd)
    (h2 : s.sc._callback.callback_data = some d) :
    ∃ s1, callback env s sz error = some s1 ∧ s1.e = s.e ∧
      s1.trace = s.trace ++
        (if env.cbdataReferenceValid d then
          [Effect.handler hd d (callbackResult s.sc sz error)] else []) ∧
      s1.sc = callbackReset s.sc sz := by
  rw [callback_of_pending env s sz error hd d h1 h2]
  obtain ⟨e1, e2, e3⟩ := invokeHandler_spec env { s with sc := callbackReset s.sc sz } hd d
    (callbackResult s.sc sz error)
  exact ⟨_, rfl, e1, e3, e2⟩

/-- Claim C15 as stated fails: a client whose `object_ok` is already false (it
was failed once, and its owner copied again) gets a header completion of 1024
bytes with a valid header of 120 bytes; the sizes are recorded, but `readHeader`
returns at its `object_ok` test: no delivery is made and no read is issued. -/
theorem C15_counterexample :
    (readHeader sampleDiskEnv
        { e := sampleDoneEntry,
          sc := { sampleReadingClient 0 500 with object_ok := false }, trace := [] } 1024).map
        (fun s => (s.trace, s.sc.callbackPending, s.sc.disk_io_pending,
          s.e.mem_obj.map (fun m => m.swap_hdr_sz))) =
      some ([], true, false, some 120) := by
  decide

/-- Claim C15, amended: for every header-read completion of `len` bytes, on a
client whose `object_ok` is still true, whose metadata unpacks and validates
with header size `h <= len`: `mem.swap_hdr_sz` is set to `h` and `mem.object_sz`
to `swap_file_sz - h`; then, if `copyInto.offset < len - h`, the buffer is
shifted left by `h` bytes and one delivery of `min(copyInto.length, len - h)`
bytes is made with no error flag (after `httpReplyParse` when the reply is still
unparsed and the offset is 0); otherwise (also when `len = h`) no delivery is
made and a new disk read is issued at `copyInto.offset + h` with
`disk_io_pending` set, provided the assertion of `fileRead` on the swap-out
position holds. -/
theorem C15_header_accepted (env : Env) (s : Sys) (len h : Nat) (mem : MemObject)
    (tlv_list : List Nat) (hd d : Nat) (hdio : s.sc.disk_io_pending = true)
    (h1 : s.sc._callback.callback_handler = some hd)
    (h2 : s.sc._callback.callback_data = some d) (hok : s.sc.object_ok = true)
    (hmem : s.e.mem_obj = some mem) (hsane : env.isBufferSane = true)
    (hmeta : env.createStoreMeta = some tlv_list)
    (hcons : ∀ t ∈ tlv_list, env.checkConsistency t s.e = true)
    (hh : env.swap_hdr_sz = (h : Int)) (hle : h ≤ len) (hl63 : len < 2 ^ 63)
    (hoff : 0 ≤ s.sc.copyInto.offset ∧ s.sc.copyInto.offset < 2 ^ 63) :
    (s.sc.copyInto.offset < (len : Int) - (h : Int) →
      ∃ s1 parse, readHeader env s (len : Int) = some s1 ∧
        s1.e.mem_obj = some { mem with
          swap_hdr_sz := h
          object_sz := s.e.swap_file_sz - (h : Int) } ∧
        s1.trace = s.trace ++
          [Effect.xmemmove s.sc.copyInto.data h (Nat.min s.sc.copyInto.length (len - h))] ++
          parse ++
          (if env.cbdataReferenceValid d then
            [Effect.handler hd d
              { error := false
                length := Nat.min s.sc.copyInto.length (len - h)
                offset := s.sc.cmp_offset
                data := s.sc.copyInto.data }] else []) ∧
        (parse = [] ∨
          parse = [Effect.httpReplyParse s.sc.copyInto.data
            ((Nat.min s.sc.copyInto.length (len - h) : Nat) : Int)]) ∧
        s1.sc.disk_io_pending = false ∧ s1.sc.callbackPending = false ∧
        s1.sc.cmp_offset =
          s.sc.copyInto.offset + ((Nat.min s.sc.copyInto.length (len - h) : Nat) : Int)) ∧
    (¬ (s.sc.copyInto.offset < (len : Int) - (h : Int)) →
      (h ≠ 0 → s.e.swap_status = SwapStatus.SWAPOUT_WRITING →
        mem.swapout_sio_offset > s.sc.copyInto.offset + (h : Int)) →
      ∃ s1, readHeader env s (len : Int) = some s1 ∧
        s1.e.mem_obj = some { mem with
          swap_hdr_sz := h
          object_sz := s.e.swap_file_sz - (h : Int) } ∧
        s1.trace = s.trace ++
          [Effect.storeRead s.sc.swapin_sio s.sc.copyInto.data s.sc.copyInto.length
            (s.sc.copyInto.offset + (h : Int))
            (if h = 0 then ReadCallback.storeClientReadHeader
             else ReadCallback.storeClientReadBody)] ∧
        s1.sc.disk_io_pending = true ∧ s1.sc.callbackPending = true) := by
  have hp : s.sc.callbackPending = true := (callbackPending_iff _).2 ⟨hd, d, h1, h2⟩
  obtain ⟨S2, g_sc, g_tr, g_e, hrun⟩ := readHeader_accepted env s len h mem tlv_list hdio hp hok
    hmem hsane hmeta hcons hh hle hl63
  have g_off : S2.sc.copyInto.offset = s.sc.copyInto.offset := by rw [g_sc]
  have g_len : S2.sc.copyInto.length = s.sc.copyInto.length := by rw [g_sc]
  have g_dat : S2.sc.copyInto.data = s.sc.copyInto.data := by rw [g_sc]
  have g_h : S2.sc._callback.callback_handler = some hd := by rw [g_sc]; exact h1
  have g_d : S2.sc._callback.callback_data = some d := by rw [g_sc]; exact h2
  have g_cmp : S2.sc.cmp_offset = s.sc.cmp_offset := by rw [g_sc]
  have g_mem : S2.e.mem_obj = some { mem with
      swap_hdr_sz := h
      object_sz := s.e.swap_file_sz - (h : Int) } := by rw [g_e]
  have hto : ((toSizeT s.sc.copyInto.offset : Nat) : Int) = s.sc.copyInto.offset :=
    toSizeT_of_range _ hoff.1 (by omega)
  have hn0 : ¬ (((Nat.min s.sc.copyInto.length (len - h) : Nat) : Int) < 0) := by omega
  rw [hrun, g_off]
  constructor
  · intro hlt
    rw [if_pos (by omega)]
    by_cases hparse : s.sc.copyInto.offset = 0 ∧ (len : Int) > 0 ∧ S2.e.reply.sline_status = 0
    · rw [if_pos hparse]
      obtain ⟨s1, a1, a2, a3, a4⟩ := callback_spec env
        { e := { S2.e with reply := env.httpReplyParse S2.e.reply }
          sc := S2.sc
          trace := S2.trace ++
            [Effect.xmemmove S2.sc.copyInto.data h
              (Nat.min S2.sc.copyInto.length (len - h))] ++
            [Effect.httpReplyParse S2.sc.copyInto.data
              ((Nat.min S2.sc.copyInto.length (len - h) : Nat) : Int)] }
        ((Nat.min S2.sc.copyInto.length (len - h) : Nat) : Int) false hd d g_h g_d
      refine ⟨s1, [Effect.httpReplyParse s.sc.copyInto.data
        ((Nat.min s.sc.copyInto.length (len - h) : Nat) : Int)], a1, ?_, ?_, Or.inr rfl,
        ?_, ?_, ?_⟩
      · rw [a2]
        exact g_mem
      · rw [a3]
        simp only [g_tr, g_dat, g_len, callbackResult, hn0, if_false, Int.toNat_ofNat, g_cmp]
      · rw [a4, g_sc]
        rfl
      · rw [a4, g_sc]
        rfl
      · rw [a4]
        simp only [callbackReset, g_off, g_len]
    · rw [if_neg hparse]
      obtain ⟨s1, a1, a2, a3, a4⟩ := callback_spec env
        { S2 with
          trace := S2.trace ++
            [Effect.xmemmove S2.sc.copyInto.data h
              (Nat.min S2.sc.copyInto.length (len - h))] }
        ((Nat.min S2.sc.copyInto.length (len - h) : Nat) : Int) false hd d g_h g_d
      refine ⟨s1, [], a1, ?_, ?_, Or.inl rfl, ?_, ?_, ?_⟩
      · rw [a2]
        exact g_mem
      · rw [a3]
        simp only [g_tr, g_dat, g_len, callbackResult, hn0, if_false, Int.toNat_ofNat, g_cmp,
          List.append_nil]
      · rw [a4, g_sc]
        rfl
      · rw [a4, g_sc]
        rfl
      · rw [a4]
        simp only [callbackReset, g_off, g_len]
  · intro hge hsw
    rw [if_neg (by omega)]
    rw [fileRead_spec S2 { mem with
        swap_hdr_sz := h
        object_sz := s.e.swap_file_sz - (h : Int) } g_mem (by rw [g_sc]; exact hp)
      (by rw [g_sc]) (by
        intro a b
        rw [g_off]
        exact hsw a (by rw [g_e] at b; exact b))]
    refine ⟨_, rfl, g_mem, ?_, rfl, ?_⟩
    · simp only [g_tr, g_sc, g_off]
    · simp only [g_sc]
      exact hp

/-- Witness of `C14_header_rejected`: the corrupt-metadata scenario, a header
read of 1024 bytes whose metadata item is inconsistent with the entry. -/
theorem C14_header_rejected_witness :
    ∃ s1, readHeader sampleCorruptEnv
        { e := sampleDoneEntry, sc := sampleReadingClient 0 500, trace := [] } 1024 = some s1 ∧
      s1.e = sampleDoneEntry ∧
      s1.trace = [] ++
        (if sampleCorruptEnv.cbdataReferenceValid 2 then
          [Effect.handler 1 2
            { error := true, length := 0, offset := (sampleReadingClient 0 500).cmp_offset,
              data := (sampleReadingClient 0 500).copyInto.data }] else []) ∧
      s1.sc.object_ok = false ∧ s1.sc.disk_io_pending = false ∧
      s1.sc.callbackPending = false :=
  C14_header_rejected sampleCorruptEnv
    { e := sampleDoneEntry, sc := sampleReadingClient 0 500, trace := [] } 1024 1 2 rfl rfl rfl
    (Or.inr (Or.inr (Or.inr ⟨[3], rfl, 3, List.mem_singleton.2 rfl, rfl⟩)))

/-- Witness of `C15_header_accepted`: the header-strip scenario, a first read of
1024 bytes with a valid header of 120 bytes for a copy of 500 bytes at offset 0;
500 bytes are delivered at offset 0. -/
theorem C15_header_accepted_witness :
    ∃ s1 parse, readHeader sampleDiskEnv
        { e := sampleDoneEntry, sc := sampleReadingClient 0 500, trace := [] } 1024 = some s1 ∧
      s1.e.mem_obj = some { sampleMem true 1000 1 with
        swap_hdr_sz := 120
        object_sz := -120 } ∧
      s1.trace = [] ++ [Effect.xmemmove (some 9) 120 500] ++ parse ++
        (if sampleDiskEnv.cbdataReferenceValid 2 then
          [Effect.handler 1 2 { error := false, length := 500, offset := 0, data := some 9 }]
        else []) ∧
      (parse = [] ∨ parse = [Effect.httpReplyParse (some 9) 500]) ∧
      s1.sc.disk_io_pending = false ∧ s1.sc.callbackPending = false ∧
      s1.sc.cmp_offset = 0 + 500 :=
  (C15_header_accepted sampleDiskEnv
    { e := sampleDoneEntry, sc := sampleReadingClient 0 500, trace := [] } 1024 120
    { sampleMem true 1000 1 with object_sz := 1000 } [3] 1 2 rfl rfl rfl rfl rfl rfl rfl
    (fun _ _ => rfl) rfl (by decide) (by decide) (by decide)).1 (by decide)

/-! ### Immediate deliveries and the disk path -/

/-- A request at end of object is answered by `doCopy` with the clean
end-of-object result. -/
theorem doCopy_eof_spec (env : Env) (s : Sys) (hd d : Nat)
    (hc : s.e.store_status ≠ StoreStatus.STORE_PENDING ∧ 0 ≤ env.objectLen s.e ∧
      env.objectLen s.e ≤ s.sc.copyInto.offset)
    (h1 : s.sc._callback.callback_handler = some hd)
    (h2 : s.sc._callback.callback_data = some d) :
    ∃ s1, doCopy env s = some s1 ∧ s1.e = s.e ∧
      s1.trace = s.trace ++
        (if env.cbdataReferenceValid d then
          [Effect.handler hd d
            { error := false, length := 0, offset := s.sc.cmp_offset,
              data := s.sc.copyInto.data }] else []) ∧
      s1.sc.callbackPending = false ∧ s1.sc.store_copying = false := by
  rw [doCopy_eof_eq env s ((storeClientNoMoreToSend_iff env s.e s.sc).2 hc)]
  obtain ⟨s1, a1, a2, a3, a4⟩ := callback_done_spec env
    { s with sc := { s.sc with store_copying := true } } 0 false hd d h1 h2
  refine ⟨s1, a1, a2, a3, ?_, ?_⟩
  · rw [a4]
    rfl
  · rw [a4]

/-- The state in which `doCopy` runs its later steps, named. -/
theorem doCopy_select_named (env : Env) (s : Sys)
    (hneof : ¬ (s.e.store_status ≠ StoreStatus.STORE_PENDING ∧ 0 ≤ env.objectLen s.e ∧
      env.objectLen s.e ≤ s.sc.copyInto.offset)) :
    ∃ S1 : Sys, S1.e = s.e ∧ S1.sc = { s.sc with store_copying := true } ∧
      S1.trace = s.trace ∧ doCopy env s = doCopySelect env S1 :=
  ⟨{ s with sc := { s.sc with store_copying := true } }, rfl, rfl, rfl,
    doCopy_select env s (storeClientNoMoreToSend_false env s.e s.sc hneof)⟩

/-- A request inside the memory window, from a client that needs no swap-in
handle or gets one, is answered by `doCopy` with the bytes the memory copy
returns. -/
theorem doCopy_memory_hit (env : Env) (s : Sys) (mem : MemObject) (hd d n : Nat)
    (hmem : s.e.mem_obj = some mem)
    (h1 : s.sc._callback.callback_handler = some hd)
    (h2 : s.sc._callback.callback_data = some d)
    (hneof : ¬ (s.e.store_status ≠ StoreStatus.STORE_PENDING ∧ 0 ≤ env.objectLen s.e ∧
      env.objectLen s.e ≤ s.sc.copyInto.offset))
    (hlo : mem.inmem_lo ≤ s.sc.copyInto.offset) (hhi : s.sc.copyInto.offset < mem.endOffset)
    (htype : s.sc.type ≠ ClientType.STORE_DISK_CLIENT ∨ s.sc.swapin_sio ≠ none ∨
      (env.storeTooManyDiskFilesOpen = false ∧ s.sc.disk_io_pending = false ∧
        ∀ c, env.storeSwapInStart s.e c ≠ none))
    (hcopy : env.data_hdr_copy mem s.sc.copyInto.offset s.sc.copyInto.length = (n : Int)) :
    ∃ s1 pre, doCopy env s = some s1 ∧ s1.e = s.e ∧
      s1.trace = s.trace ++ pre ++
        (if env.cbdataReferenceValid d then
          [Effect.handler hd d
            { error := false, length := n, offset := s.sc.cmp_offset,
              data := s.sc.copyInto.data }] else []) ∧
      (pre = [] ∨ pre = [Effect.storeSwapInStart]) ∧
      s1.sc.cmp_offset = s.sc.copyInto.offset + (n : Int) ∧
      s1.sc.callbackPending = false ∧ s1.sc.store_copying = false ∧
      s1.sc.object_ok = s.sc.object_ok := by
  have hn0 : ¬ ((n : Int) < 0) := by omega
  have hres : ∀ c : store_client, callbackResult c (n : Int) false =
      { error := false, length := n, offset := c.cmp_offset, data := c.copyInto.data } := by
    intro c
    simp only [callbackResult, hn0, if_false, Int.toNat_ofNat]
  obtain ⟨S1, k_e, k_sc, k_tr, hrun⟩ := doCopy_select_named env s hneof
  have k_mem : S1.e.mem_obj = some mem := by rw [k_e]; exact hmem
  have k_lo : mem.inmem_lo ≤ S1.sc.copyInto.offset := by rw [k_sc]; exact hlo
  have k_hi : S1.sc.copyInto.offset < mem.endOffset := by rw [k_sc]; exact hhi
  have k_h : S1.sc._callback.callback_handler = some hd := by rw [k_sc]; exact h1
  have k_d : S1.sc._callback.callback_data = some d := by rw [k_sc]; exact h2
  have k_cp : env.data_hdr_copy mem S1.sc.copyInto.offset S1.sc.copyInto.length = (n : Int) := by
    rw [k_sc]
    exact hcopy
  rw [hrun, doCopySelect_open env S1 (waitingForMore_false S1 (fun _ => ⟨mem, k_mem, k_hi⟩))]
  by_cases hopen : S1.sc.type = ClientType.STORE_DISK_CLIENT ∧ S1.sc.swapin_sio = none
  · have hcond : env.storeTooManyDiskFilesOpen = false ∧ S1.sc.disk_io_pending = false ∧
        ∀ c, env.storeSwapInStart S1.e c ≠ none := by
      rw [k_sc] at hopen
      rw [k_e, k_sc]
      rcases htype with ht | ht | ht
      · exact absurd hopen.1 ht
      · exact absurd hopen.2 ht
      · exact ht
    rw [doCopyOpen_opened env S1 hopen hcond.1 hcond.2.1 (hcond.2.2 _),
      doCopyMemOrDisk_hit_eq env
        { S1 with
          sc := { S1.sc with swapin_sio := env.storeSwapInStart S1.e S1.sc }
          trace := S1.trace ++ [Effect.storeSwapInStart] } mem k_mem k_lo k_hi]
    dsimp only
    rw [k_cp]
    obtain ⟨s1, a1, a2, a3, a4⟩ := callback_done_spec env
      { S1 with
        sc := { S1.sc with swapin_sio := env.storeSwapInStart S1.e S1.sc }
        trace := S1.trace ++ [Effect.storeSwapInStart] } (n : Int) false hd d k_h k_d
    refine ⟨s1, [Effect.storeSwapInStart], a1, a2.trans k_e, ?_, Or.inr rfl, ?_, ?_, ?_, ?_⟩
    · rw [a3, hres, k_tr, k_sc]
    · rw [a4, k_sc]
      rfl
    · rw [a4]
      rfl
    · rw [a4]
    · rw [a4, k_sc]
      rfl
  · rw [doCopyOpen_ready env S1 hopen, doCopyMemOrDisk_hit_eq env S1 mem k_mem k_lo k_hi, k_cp]
    obtain ⟨s1, a1, a2, a3, a4⟩ := callback_done_spec env S1 (n : Int) false hd d k_h k_d
    refine ⟨s1, [], a1, a2.trans k_e, ?_, Or.inl rfl, ?_, ?_, ?_, ?_⟩
    · rw [a3, hres, k_tr, k_sc, List.append_nil]
    · rw [a4, k_sc]
      rfl
    · rw [a4]
      rfl
    · rw [a4]
    · rw [a4, k_sc]
      rfl

/-- A request outside the memory window, from a disk client that has a swap-in
handle or gets one, makes `doCopy` issue a disk read. -/
theorem doCopy_disk_read (env : Env) (s : Sys) (mem : MemObject)
    (hmem : s.e.mem_obj = some mem) (hp : s.sc.callbackPending = true)
    (hneof : ¬ (s.e.store_status ≠ StoreStatus.STORE_PENDING ∧ 0 ≤ env.objectLen s.e ∧
      env.objectLen s.e ≤ s.sc.copyInto.offset))
    (hnwait : s.e.store_status = StoreStatus.STORE_PENDING →
      s.sc.copyInto.offset < mem.endOffset)
    (hout : ¬ (mem.inmem_lo ≤ s.sc.copyInto.offset ∧ s.sc.copyInto.offset < mem.endOffset))
    (hty : s.sc.type = ClientType.STORE_DISK_CLIENT) (hdio : s.sc.disk_io_pending = false)
    (hsio : s.sc.swapin_sio ≠ none ∨
      (env.storeTooManyDiskFilesOpen = false ∧ ∀ c, env.storeSwapInStart s.e c ≠ none))
    (hsw : mem.swap_hdr_sz ≠ 0 → s.e.swap_status = SwapStatus.SWAPOUT_WRITING →
      mem.swapout_sio_offset > s.sc.copyInto.offset + (mem.swap_hdr_sz : Int)) :
    ∃ s1 pre sio, doCopy env s = some s1 ∧ s1.e = s.e ∧ sio ≠ none ∧
      s1.trace = s.trace ++ pre ++
        [Effect.storeRead sio s.sc.copyInto.data s.sc.copyInto.length
          (s.sc.copyInto.offset + (mem.swap_hdr_sz : Int))
          (if mem.swap_hdr_sz = 0 then ReadCallback.storeClientReadHeader
           else ReadCallback.storeClientReadBody)] ∧
      (pre = [] ∨ pre = [Effect.storeSwapInStart]) ∧
      s1.sc.disk_io_pending = true ∧ s1.sc.callbackPending = true ∧
      s1.sc.store_copying = false ∧ s1.sc.object_ok = s.sc.object_ok ∧
      s1.sc.cmp_offset = s.sc.cmp_offset := by
  obtain ⟨S1, k_e, k_sc, k_tr, hrun⟩ := doCopy_select_named env s hneof
  have k_mem : S1.e.mem_obj = some mem := by rw [k_e]; exact hmem
  have k_out : ¬ (mem.inmem_lo ≤ S1.sc.copyInto.offset ∧
      S1.sc.copyInto.offset < mem.endOffset) := by rw [k_sc]; exact hout
  have k_ty : S1.sc.type = ClientType.STORE_DISK_CLIENT := by rw [k_sc]; exact hty
  have k_dio : S1.sc.disk_io_pending = false := by rw [k_sc]; exact hdio
  have k_p : S1.sc.callbackPending = true := by rw [k_sc]; exact hp
  have k_sw : mem.swap_hdr_sz ≠ 0 → S1.e.swap_status = SwapStatus.SWAPOUT_WRITING →
      mem.swapout_sio_offset > S1.sc.copyInto.offset + (mem.swap_hdr_sz : Int) := by
    rw [k_e, k_sc]
    exact hsw
  have k_w : waitingForMore S1 = some false :=
    waitingForMore_false S1 (fun hpend =>
      ⟨mem, k_mem, by rw [k_sc]; exact hnwait (by rw [k_e] at hpend; exact hpend)⟩)
  rw [hrun, doCopySelect_open env S1 k_w]
  by_cases hopen : S1.sc.swapin_sio = none
  · have hcond : env.storeTooManyDiskFilesOpen = false ∧
        ∀ c, env.storeSwapInStart S1.e c ≠ none := by
      rw [k_sc] at hopen
      rw [k_e]
      rcases hsio with ht | ht
      · exact absurd hopen ht
      · exact ht
    rw [doCopyOpen_opened env S1 ⟨k_ty, hopen⟩ hcond.1 k_dio (hcond.2 _),
      doCopyMemOrDisk_disk env
        { S1 with
          sc := { S1.sc with swapin_sio := env.storeSwapInStart S1.e S1.sc }
          trace := S1.trace ++ [Effect.storeSwapInStart] } mem k_mem k_out k_ty k_dio,
      fileRead_spec
        { S1 with
          sc := { S1.sc with swapin_sio := env.storeSwapInStart S1.e S1.sc }
          trace := S1.trace ++ [Effect.storeSwapInStart] } mem k_mem k_p k_dio k_sw]
    refine ⟨_, [Effect.storeSwapInStart], env.storeSwapInStart S1.e S1.sc, rfl, k_e,
      hcond.2 _, ?_, Or.inr rfl, rfl, k_p, rfl, ?_, ?_⟩
    · simp only [Option.map_some', doneCopying, k_tr, k_sc]
    · simp only [Option.map_some', doneCopying, k_sc]
    · simp only [Option.map_some', doneCopying, k_sc]
  · rw [doCopyOpen_ready env S1 (fun h => hopen h.2),
      doCopyMemOrDisk_disk env S1 mem k_mem k_out k_ty k_dio,
      fileRead_spec S1 mem k_mem k_p k_dio k_sw]
    refine ⟨_, [], S1.sc.swapin_sio, rfl, k_e, hopen, ?_, Or.inl rfl, rfl, k_p, rfl, ?_, ?_⟩
    · simp only [Option.map_some', doneCopying, k_tr, k_sc, List.append_nil]
    · simp only [Option.map_some', doneCopying, k_sc]
    · simp only [Option.map_some', doneCopying, k_sc]

/-- A request outside the memory window from a client that is not a disk client
fails the assertion of line 355. -/
theorem doCopy_assert_disk_client (env : Env) (s : Sys) (mem : MemObject)
    (hmem : s.e.mem_obj = some mem)
    (hneof : ¬ (s.e.store_status ≠ StoreStatus.STORE_PENDING ∧ 0 ≤ env.objectLen s.e ∧
      env.objectLen s.e ≤ s.sc.copyInto.offset))
    (hnwait : s.e.store_status = StoreStatus.STORE_PENDING →
      s.sc.copyInto.offset < mem.endOffset)
    (hout : ¬ (mem.inmem_lo ≤ s.sc.copyInto.offset ∧ s.sc.copyInto.offset < mem.endOffset))
    (hty : s.sc.type ≠ ClientType.STORE_DISK_CLIENT) :
    doCopy env s = none := by
  obtain ⟨S1, k_e, k_sc, -, hrun⟩ := doCopy_select_named env s hneof
  have k_mem : S1.e.mem_obj = some mem := by rw [k_e]; exact hmem
  have k_out : ¬ (mem.inmem_lo ≤ S1.sc.copyInto.offset ∧
      S1.sc.copyInto.offset < mem.endOffset) := by rw [k_sc]; exact hout
  have k_ty : S1.sc.type ≠ ClientType.STORE_DISK_CLIENT := by rw [k_sc]; exact hty
  have k_w : waitingForMore S1 = some false :=
    waitingForMore_false S1 (fun hpend =>
      ⟨mem, k_mem, by rw [k_sc]; exact hnwait (by rw [k_e] at hpend; exact hpend)⟩)
  rw [hrun, doCopySelect_open env S1 k_w, doCopyOpen_ready env S1 (fun h => k_ty h.1),
    doCopyMemOrDisk_assert env S1 mem k_mem k_out k_ty]

/-- A call of `copy` on a client outside the copy engine records the request
and runs `doCopy` on it. -/
theorem copy_runs_doCopy (env : Env) (s : Sys) (req : StoreIOBuffer) (fn data : Nat)
    (hab : s.e.ENTRY_ABORTED = false) (hnp : s.sc.callbackPending = false)
    (hfw : s.e.ENTRY_FWD_HDR_WAIT = false) (hcep : s.sc.copy_event_pending = false)
    (hsc : s.sc.store_copying = false) :
    ∃ S0 : Sys, S0.e = s.e ∧ S0.trace = s.trace ∧
      S0.sc = { s.sc with
        cmp_offset := req.offset
        _callback := { callback_handler := some fn, callback_data := some data }
        copyInto := { s.sc.copyInto with
          data := req.data
          length := req.length
          offset := req.offset } } ∧
      ∀ s1, doCopy env S0 = some s1 → s1.sc.store_copying = false →
        copy env s req (some fn) (some data) = some s1 := by
  refine ⟨{ s with
      sc := { s.sc with
        cmp_offset := req.offset
        _callback := { callback_handler := some fn, callback_data := some data }
        copyInto := { s.sc.copyInto with
          data := req.data
          length := req.length
          offset := req.offset } } }, rfl, rfl, rfl, ?_⟩
  intro s1 h1 h2
  have hcopy0 : copy env s req (some fn) (some data) =
      storeClientCopy2 env
        { s with
          sc := { s.sc with
            cmp_offset := req.offset
            _callback := { callback_handler := some fn, callback_data := some data }
            copyInto := { s.sc.copyInto with
              data := req.data
              length := req.length
              offset := req.offset } } } := by
    unfold copy
    simp [hab, hnp]
  rw [hcopy0]
  exact storeClientCopy2_doCopy env _ s1 hcep hfw hsc
    ((callbackPending_iff _).2 ⟨fn, data, rfl, rfl⟩) h1 h2

/-- Claim C16 as stated fails: a memory client copies 0 bytes at offset 200 of a
pending entry that holds 200 bytes; `copy` returns with the callback pending and
without any call of the handler: the request waits for the producer like any
other. -/
theorem C16_counterexample :
    copy (sampleEnv sampleQuickAbort false)
        { e := sampleEntry StoreStatus.STORE_PENDING true 200 10000 1,
          sc := sampleClient ClientType.STORE_MEM_CLIENT, trace := [] }
        (sampleRequest 200 0) sampleHandler sampleData =
      some
        { e := sampleEntry StoreStatus.STORE_PENDING true 200 10000 1,
          sc := samplePendingClient ClientType.STORE_MEM_CLIENT 200 0, trace := [] } := by
  decide

/-- Claim C16, amended: a copy with request length 0 is not treated specially.
For a client outside the copy engine (`store_copying` and `copy_event_pending`
clear) with valid callback data, on an entry without `ENTRY_FWD_HDR_WAIT`, the
handler is invoked before `copy` returns, with 0 bytes and no error flag,
when the request is at end of object, or when its offset lies in
`[mem.inmem_lo, mem.endOffset)` and the client is no disk client, or has a
swap-in handle, or gets one (the memory copy returning 0 bytes for size 0). -/
theorem C16_zero_length_copy (env : Env) (s : Sys) (req : StoreIOBuffer) (fn data : Nat)
    (hlen : req.length = 0) (hab : s.e.ENTRY_ABORTED = false)
    (hnp : s.sc.callbackPending = false) (hfw : s.e.ENTRY_FWD_HDR_WAIT = false)
    (hcep : s.sc.copy_event_pending = false) (hsc : s.sc.store_copying = false)
    (hvalid : env.cbdataReferenceValid data = true)
    (hcase : (s.e.store_status ≠ StoreStatus.STORE_PENDING ∧ 0 ≤ env.objectLen s.e ∧
        env.objectLen s.e ≤ req.offset) ∨
      ∃ mem, s.e.mem_obj = some mem ∧ mem.inmem_lo ≤ req.offset ∧
        req.offset < mem.endOffset ∧ env.data_hdr_copy mem req.offset 0 = 0 ∧
        (s.sc.type ≠ ClientType.STORE_DISK_CLIENT ∨ s.sc.swapin_sio ≠ none ∨
          (env.storeTooManyDiskFilesOpen = false ∧ s.sc.disk_io_pending = false ∧
            ∀ c, env.storeSwapInStart s.e c ≠ none))) :
    ∃ s1 pre, copy env s req (some fn) (some data) = some s1 ∧ s1.e = s.e ∧
      s1.trace = s.trace ++ pre ++
        [Effect.handler fn data
          { error := false, length := 0, offset := req.offset, data := req.data }] ∧
      (pre = [] ∨ pre = [Effect.storeSwapInStart]) ∧
      s1.sc.callbackPending = false := by
  obtain ⟨S0, k_e, k_tr, k_sc, hrun⟩ := copy_runs_doCopy env s req fn data hab hnp hfw hcep hsc
  have k_h : S0.sc._callback.callback_handler = some fn := by rw [k_sc]
  have k_d : S0.sc._callback.callback_data = some data := by rw [k_sc]
  have k_off : S0.sc.copyInto.offset = req.offset := by rw [k_sc]
  have k_len : S0.sc.copyInto.length = 0 := by rw [k_sc]; exact hlen
  have k_cmp : S0.sc.cmp_offset = req.offset := by rw [k_sc]
  have k_dat : S0.sc.copyInto.data = req.data := by rw [k_sc]
  by_cases heof : S0.e.store_status ≠ StoreStatus.STORE_PENDING ∧ 0 ≤ env.objectLen S0.e ∧
      env.objectLen S0.e ≤ S0.sc.copyInto.offset
  · obtain ⟨s1, a1, a2, a3, a4, a5⟩ := doCopy_eof_spec env S0 fn data heof k_h k_d
    refine ⟨s1, [], hrun s1 a1 a5, a2.trans k_e, ?_, Or.inl rfl, a4⟩
    rw [a3, hvalid, k_tr, k_cmp, k_dat]
    simp
  · rcases hcase with hc | ⟨mem, hmem, hlo, hhi, hcp, hty⟩
    · rw [k_e, k_off] at heof
      exact absurd hc heof
    · obtain ⟨s1, pre, a1, a2, a3, a4, -, a6, a7, -⟩ := doCopy_memory_hit env S0 mem fn data 0
        (by rw [k_e]; exact hmem) k_h k_d heof (by rw [k_off]; exact hlo)
        (by rw [k_off]; exact hhi)
        (by rw [k_sc, k_e]; exact hty)
        (by rw [k_off, k_len]; exact_mod_cast hcp)
      refine ⟨s1, pre, hrun s1 a1 a7, a2.trans k_e, ?_, a4, a6⟩
      rw [a3, hvalid, k_tr, k_cmp, k_dat]
      simp

/-- Witness of `C16_zero_length_copy`: a copy of 0 bytes at offset 0 of a
complete entry of 1000 bytes in memory. -/
theorem C16_zero_length_copy_witness :
    ∃ s1 pre, copy (sampleEnv sampleQuickAbort false)
        { e := sampleDoneEntry, sc := sampleClient ClientType.STORE_MEM_CLIENT, trace := [] }
        (sampleRequest 0 0) (some 1) (some 2) = some s1 ∧
      s1.e = sampleDoneEntry ∧
      s1.trace = [] ++ pre ++
        [Effect.handler 1 2 { error := false, length := 0, offset := 0, data := some 9 }] ∧
      (pre = [] ∨ pre = [Effect.storeSwapInStart]) ∧
      s1.sc.callbackPending = false :=
  C16_zero_length_copy (sampleEnv sampleQuickAbort false)
    { e := sampleDoneEntry, sc := sampleClient ClientType.STORE_MEM_CLIENT, trace := [] }
    (sampleRequest 0 0) 1 2 rfl rfl rfl rfl rfl rfl rfl
    (Or.inr ⟨{ sampleMem true 1000 1 with object_sz := 1000 }, rfl, by decide, by decide,
      by decide, Or.inl (by decide)⟩)

/-- Claim C17 as stated fails: a memory client copies at offset 99 of an entry
whose memory window starts at 100; `doCopy` reaches the assertion
`STORE_DISK_CLIENT == getType()`, which fails: the handler is not called and
nothing is delivered. -/
theorem C17_counterexample :
    (samplePendingClient ClientType.STORE_MEM_CLIENT 99 50).copyInto.offset = 100 - 1 ∧
      doCopy (sampleEnv sampleQuickAbort false)
        { e := sampleWindowEntry, sc := samplePendingClient ClientType.STORE_MEM_CLIENT 99 50,
          trace := [] } = none := by
  decide

/-- Claim C17, amended: for a pending copy whose offset is `mem.inmem_lo - 1`
(not at end of object and not waiting for the producer): a disk client with no
disk read pending that has a swap-in handle, or gets one, is sent to the disk
path (one `storeRead` of `copyInto.length` bytes at `copyInto.offset +
swap_hdr_sz` is issued, `disk_io_pending` is set, no handler is called); a
client that is no disk client violates the assertion of `doCopy` that only disk
clients are served from disk (no handler is called, `fail()` is not reached). -/
theorem C17_below_memory_window (env : Env) (s : Sys) (mem : MemObject)
    (hmem : s.e.mem_obj = some mem) (hp : s.sc.callbackPending = true)
    (hoff : s.sc.copyInto.offset = mem.inmem_lo - 1)
    (hneof : ¬ (s.e.store_status ≠ StoreStatus.STORE_PENDING ∧ 0 ≤ env.objectLen s.e ∧
      env.objectLen s.e ≤ s.sc.copyInto.offset))
    (hnwait : s.e.store_status = StoreStatus.STORE_PENDING →
      s.sc.copyInto.offset < mem.endOffset) :
    (s.sc.type = ClientType.STORE_DISK_CLIENT → s.sc.disk_io_pending = false →
      (s.sc.swapin_sio ≠ none ∨
        (env.storeTooManyDiskFilesOpen = false ∧ ∀ c, env.storeSwapInStart s.e c ≠ none)) →
      (mem.swap_hdr_sz ≠ 0 → s.e.swap_status = SwapStatus.SWAPOUT_WRITING →
        mem.swapout_sio_offset > s.sc.copyInto.offset + (mem.swap_hdr_sz : Int)) →
      ∃ s1 pre sio, doCopy env s = some s1 ∧ s1.e = s.e ∧ sio ≠ none ∧
        s1.trace = s.trace ++ pre ++
          [Effect.storeRead sio s.sc.copyInto.data s.sc.copyInto.length
            (s.sc.copyInto.offset + (mem.swap_hdr_sz : Int))
            (if mem.swap_hdr_sz = 0 then ReadCallback.storeClientReadHeader
             else ReadCallback.storeClientReadBody)] ∧
        (pre = [] ∨ pre = [Effect.storeSwapInStart]) ∧
        s1.sc.disk_io_pending = true ∧ s1.sc.callbackPending = true ∧
        s1.sc.object_ok = s.sc.object_ok) ∧
    (s.sc.type ≠ ClientType.STORE_DISK_CLIENT → doCopy env s = none) := by
  have hout : ¬ (mem.inmem_lo ≤ s.sc.copyInto.offset ∧ s.sc.copyInto.offset < mem.endOffset) := by
    rw [hoff]
    intro h
    omega
  constructor
  · intro hty hdio hsio hsw
    obtain ⟨s1, pre, sio, a1, a2, a3, a4, a5, a6, a7, -, a9, -⟩ :=
      doCopy_disk_read env s mem hmem hp hneof hnwait hout hty hdio hsio hsw
    exact ⟨s1, pre, sio, a1, a2, a3, a4, a5, a6, a7, a9⟩
  · intro hty
    exact doCopy_assert_disk_client env s mem hmem hneof hnwait hout hty

/-- Witness of `C17_below_memory_window`: a disk client with open handle copies
at offset 99 of an entry whose memory window starts at 100. -/
theorem C17_below_memory_window_witness :
    ∃ s1 pre sio, doCopy (sampleEnv sampleQuickAbort false)
        { e := sampleWindowEntry,
          sc := { samplePendingClient ClientType.STORE_DISK_CLIENT 99 50 with
            swapin_sio := some 7 },
          trace := [] } = some s1 ∧
      s1.e = sampleWindowEntry ∧ sio ≠ none ∧
      s1.trace = [] ++ pre ++
        [Effect.storeRead sio (some 9) 50 (99 + 0) ReadCallback.storeClientReadHeader] ∧
      (pre = [] ∨ pre = [Effect.storeSwapInStart]) ∧
      s1.sc.disk_io_pending = true ∧ s1.sc.callbackPending = true ∧
      s1.sc.object_ok = true :=
  (C17_below_memory_window (sampleEnv sampleQuickAbort false)
    { e := sampleWindowEntry,
      sc := { samplePendingClient ClientType.STORE_DISK_CLIENT 99 50 with
        swapin_sio := some 7 },
      trace := [] }
    { sampleMem true 1000 1 with object_sz := 1000, inmem_lo := 100 } rfl rfl (by decide)
    (by decide) (by decide)).1 rfl rfl (Or.inl (by decide)) (by decide)

/-! ### The fan-out -/

theorem callback_settles (env : Env) (s s1 : Sys) (sz : Int) (error : Bool)
    (h : callback env s sz error = some s1) :
    s1.e = s.e ∧ s1.sc.callbackPending = false := by
  obtain ⟨hd, d, -, -, rfl⟩ := callback_eq_some env s s1 sz error h
  obtain ⟨e1, e2, -⟩ := invokeHandler_spec env { s with sc := callbackReset s.sc sz } hd d
    (callbackResult s.sc sz error)
  exact ⟨e1, by rw [e2]; rfl⟩

theorem fail_settles (env : Env) (s s1 : Sys) (h : fail env s = some s1) :
    s1.e = s.e ∧ s1.sc.callbackPending = false := by
  unfold fail at h
  have := callback_settles env _ s1 0 true h
  exact ⟨this.1, this.2⟩

theorem fileRead_settles (s s1 : Sys) (h : fileRead s = some s1) :
    s1.e = s.e ∧ s1.sc.disk_io_pending = true := by
  unfold fileRead at h
  split at h
  · simp at h
  · split_ifs at h <;>
    · simp only [Option.some.injEq] at h
      subst h
      exact ⟨rfl, rfl⟩

theorem map_doneCopying_settles {s s1 : Sys} {r : Option Sys}
    (h : r.map doneCopying = some s1)
    (hr : ∀ s2, r = some s2 →
      s2.e = s.e ∧ (s2.sc.callbackPending = false ∨ s2.sc.disk_io_pending = true)) :
    s1.e = s.e ∧ (s1.sc.callbackPending = false ∨ s1.sc.disk_io_pending = true) := by
  cases r with
  | none => simp at h
  | some s2 =>
    simp only [Option.map_some', Option.some.injEq] at h
    subst h
    exact hr s2 rfl

theorem doCopyMemOrDisk_settles (env : Env) (s s1 : Sys)
    (h : doCopyMemOrDisk env s = some s1) :
    s1.e = s.e ∧ (s1.sc.callbackPending = false ∨ s1.sc.disk_io_pending = true) := by
  unfold doCopyMemOrDisk at h
  split at h
  · simp at h
  · split_ifs at h
    · exact map_doneCopying_settles h (fun s2 h2 =>
        ⟨(callback_settles _ _ _ _ _ h2).1, Or.inl (callback_settles _ _ _ _ _ h2).2⟩)
    · exact map_doneCopying_settles h (fun s2 h2 =>
        ⟨(fileRead_settles _ _ h2).1, Or.inr (fileRead_settles _ _ h2).2⟩)

theorem doCopyOpen_settles (env : Env) (s s1 : Sys) (h : doCopyOpen env s = some s1) :
    s1.e = s.e ∧ (s1.sc.callbackPending = false ∨ s1.sc.disk_io_pending = true) := by
  unfold doCopyOpen at h
  dsimp only at h
  split_ifs at h with c1 c2 c3 c4
  · exact map_doneCopying_settles h (fun s2 h2 =>
      ⟨(fail_settles _ _ _ h2).1, Or.inl (fail_settles _ _ _ h2).2⟩)
  · exact map_doneCopying_settles (s := s) h (fun s2 h2 =>
      ⟨(fail_settles _ _ _ h2).1, Or.inl (fail_settles _ _ _ h2).2⟩)
  · have := doCopyMemOrDisk_settles _ _ _ h
    exact ⟨this.1, this.2⟩
  · simp only [Option.some.injEq] at h
    subst h
    refine ⟨rfl, Or.inr ?_⟩
    simpa [doneCopying] using c3
  · exact doCopyMemOrDisk_settles _ _ _ h

theorem waitingForMore_true (s : Sys) (h : waitingForMore s = some true) :
    s.e.store_status = StoreStatus.STORE_PENDING ∧
      ∃ mem, s.e.mem_obj = some mem ∧ s.sc.copyInto.offset ≥ mem.endOffset := by
  unfold waitingForMore at h
  split_ifs at h with hp
  · split at h
    · simp at h
    · next mem hm =>
      simp only [Option.some.injEq, decide_eq_true_eq] at h
      exact ⟨hp, mem, hm, h⟩
  · simp at h

theorem doCopy_settles (env : Env) (s s1 : Sys) (h : doCopy env s = some s1) :
    s1.e = s.e ∧
      (s1.sc.callbackPending = false ∨ s1.sc.disk_io_pending = true ∨
        (s.e.store_status = StoreStatus.STORE_PENDING ∧
          (∃ mem, s.e.mem_obj = some mem ∧ s.sc.copyInto.offset ≥ mem.endOffset) ∧
          s1.sc = { s.sc with store_copying := false } ∧ s1.trace = s.trace)) := by
  unfold doCopy at h
  dsimp only at h
  split_ifs at h
  · have := map_doneCopying_settles (s := s) h (fun s2 h2 =>
      ⟨(callback_settles _ _ _ _ _ h2).1, Or.inl (callback_settles _ _ _ _ _ h2).2⟩)
    exact ⟨this.1, this.2.elim Or.inl (fun x => Or.inr (Or.inl x))⟩
  · unfold doCopySelect at h
    split at h
    · simp at h
    · next hw =>
      simp only [Option.some.injEq] at h
      subst h
      obtain ⟨w1, w2⟩ := waitingForMore_true _ hw
      exact ⟨rfl, Or.inr (Or.inr ⟨w1, w2, rfl, rfl⟩)⟩
    · have := doCopyOpen_settles _ _ _ h
      exact ⟨this.1, this.2.elim Or.inl (fun x => Or.inr (Or.inl x))⟩

theorem storeClientCopy2_settles (env : Env) (s s1 : Sys)
    (h : storeClientCopy2 env s = some s1) : s1.e = s.e ∧ Settled s1.e s1.sc := by
  unfold storeClientCopy2 at h
  split_ifs at h with c1 c2 c3 c4
  · simp only [Option.some.injEq] at h
    subst h
    exact ⟨rfl, Or.inr (Or.inr (Or.inl c1))⟩
  · simp only [Option.some.injEq] at h
    subst h
    exact ⟨rfl, Or.inr (Or.inr (Or.inr (Or.inl c2)))⟩
  · simp only [Option.some.injEq] at h
    subst h
    exact ⟨rfl, Or.inr (Or.inr (Or.inl rfl))⟩
  · split at h
    · simp at h
    · next s2 h2 =>
      split_ifs at h with c5
      simp only [Option.some.injEq] at h
      subst h
      obtain ⟨a1, a2⟩ := doCopy_settles env s s2 h2
      refine ⟨a1, ?_⟩
      rcases a2 with a | a | ⟨b1, ⟨mem, b2, b3⟩, b4, -⟩
      · exact Or.inl a
      · exact Or.inr (Or.inl a)
      · refine Or.inr (Or.inr (Or.inr (Or.inr ⟨by simpa using c5, ?_, mem, ?_, ?_⟩)))
        · rw [a1]
          exact b1
        · rw [a1]
          exact b2
        · rw [b4]
          exact b3

/-- On a settled client a visit of `InvokeHandlers` changes nothing and makes no
call, whatever the environment answers. -/
theorem InvokeHandlersVisit_settled (env : Env) (s : Sys) (h : Settled s.e s.sc) :
    InvokeHandlersVisit env s = some s := by
  unfold InvokeHandlersVisit
  by_cases hp : s.sc.callbackPending = true
  swap
  · rw [if_pos (by simpa using hp)]
  rw [if_neg (by simp [hp])]
  by_cases hd : s.sc.disk_io_pending = true
  · rw [if_pos hd]
  rw [if_neg hd]
  rcases h with h | h | h
  · rw [hp] at h
    exact absurd h (by simp)
  · exact absurd h hd
  · unfold storeClientCopy2
    by_cases c1 : s.sc.copy_event_pending = true
    · rw [if_pos c1]
    rw [if_neg c1]
    by_cases c2 : s.e.ENTRY_FWD_HDR_WAIT = true
    · rw [if_pos c2]
    rw [if_neg c2]
    rcases h with h | h | ⟨h1, h2, mem, h3, h4⟩
    · exact absurd h c1
    · exact absurd h c2
    · rw [if_neg (by simp [h1]), if_neg (by simp [hp])]
      have hn : storeClientNoMoreToSend env s.e s.sc = false := by
        unfold storeClientNoMoreToSend
        rw [if_pos h2]
      have hw : waitingForMore { s with sc := { s.sc with store_copying := true } }
          = some true := by
        unfold waitingForMore
        simp only [h2, if_true, h3]
        simpa using h4
      rw [doCopy_select env s hn, doCopySelect_wait env _ hw]
      have hs : doneCopying { s with sc := { s.sc with store_copying := true } } = s := by
        obtain ⟨e, sc, t⟩ := s
        obtain ⟨a1, a2, a3, a4, a5, a6, a7, a8, a9⟩ := sc
        simp only [doneCopying] at *
        simp only [h1]
      rw [hs]
      simp [h1]

theorem InvokeHandlersVisit_skip (env : Env) (s : Sys) (h : s.sc.awaitsVisit = false) :
    InvokeHandlersVisit env s = some s := by
  unfold InvokeHandlersVisit
  unfold store_client.awaitsVisit at h
  by_cases hp : s.sc.callbackPending = true
  · rw [if_neg (by simp [hp]), if_pos (by simpa [hp] using h)]
  · rw [if_pos (by simpa using hp)]

theorem InvokeHandlersVisit_run (env : Env) (s : Sys) (h : s.sc.awaitsVisit = true) :
    InvokeHandlersVisit env s = storeClientCopy2 env s := by
  unfold InvokeHandlersVisit
  unfold store_client.awaitsVisit at h
  simp only [Bool.and_eq_true, Bool.not_eq_true'] at h
  rw [if_neg (by simp [h.1]), if_neg (by simp [h.2])]

/-- One visit of `InvokeHandlers`: the entry is unchanged, an eligible client is
the result of one run of `storeClientCopy2`, any other client is untouched, the
client is settled afterwards and at most one handler call is added. -/
theorem InvokeHandlersVisit_spec (env : Env) (s s1 : Sys)
    (h : InvokeHandlersVisit env s = some s1) :
    s1.e = s.e ∧
      (s.sc.awaitsVisit = true → storeClientCopy2 env s = some s1) ∧
      (s.sc.awaitsVisit = false → s1 = s) ∧ Settled s.e s1.sc ∧
      ∃ ds, deliveries s1.trace = deliveries s.trace ++ ds ∧
        ds.length ≤ (if s.sc.awaitsVisit then 1 else 0) := by
  cases ha : s.sc.awaitsVisit
  · rw [InvokeHandlersVisit_skip env s ha] at h
    simp only [Option.some.injEq] at h
    subst h
    refine ⟨rfl, fun x => absurd x (by simp), fun _ => rfl, ?_, [], by simp, by simp⟩
    unfold store_client.awaitsVisit at ha
    by_cases hp : s.sc.callbackPending = true
    · exact Or.inr (Or.inl (by simpa [hp] using ha))
    · exact Or.inl (by simpa using hp)
  · rw [InvokeHandlersVisit_run env s ha] at h
    obtain ⟨a1, a2⟩ := storeClientCopy2_settles env s s1 h
    refine ⟨a1, fun _ => h, fun x => absurd x (by simp), a1 ▸ a2, ?_⟩
    rcases storeClientCopy2_outcome env s s1 h with hq | hd
    · exact ⟨[], by simp [hq.2.1], by simp⟩
    · obtain ⟨-, -, ds, d1, d2, -⟩ := hd
      exact ⟨ds, d1, by simpa using d2⟩

/-- The walk of `InvokeHandlers`: the entry is unchanged; each eligible client
is the result of one run of `storeClientCopy2` on it, each other client is
untouched; all clients are settled afterwards; at most one handler call is
added per eligible client. -/
theorem InvokeHandlersWalk_spec (env : Env) (cs : List store_client) :
    ∀ (e : StoreEntry) (t : List Effect) (cs1 : List store_client) (e1 : StoreEntry)
      (t1 : List Effect), InvokeHandlersWalk env cs e t = some (cs1, e1, t1) →
      e1 = e ∧
      List.Forall₂ (fun c c1 =>
        (c.awaitsVisit = true → ∃ t0 t2,
          storeClientCopy2 env { e := e, sc := c, trace := t0 }
            = some { e := e, sc := c1, trace := t2 }) ∧
        (c.awaitsVisit = false → c1 = c)) cs cs1 ∧
      (∀ c1 ∈ cs1, Settled e c1) ∧
      ∃ ds, deliveries t1 = deliveries t ++ ds ∧
        ds.length ≤ cs.countP (fun c => c.awaitsVisit) := by
  induction cs with
  | nil =>
    intro e t cs1 e1 t1 h
    simp only [InvokeHandlersWalk, Option.some.injEq, Prod.mk.injEq] at h
    obtain ⟨rfl, rfl, rfl⟩ := h
    exact ⟨rfl, List.Forall₂.nil, by simp, [], by simp, by simp⟩
  | cons c cs ih =>
    intro e t cs1 e1 t1 h
    simp only [InvokeHandlersWalk] at h
    split at h
    · simp at h
    · next s hs =>
      split at h
      · simp at h
      · next cs2 e2 t2 hw =>
        simp only [Option.some.injEq, Prod.mk.injEq] at h
        obtain ⟨rfl, rfl, rfl⟩ := h
        obtain ⟨v1, v2, v3, v4, ds1, v5, v6⟩ := InvokeHandlersVisit_spec env _ s hs
        simp only at v1 v2 v3 v4 v5 v6
        obtain ⟨w1, w2, w3, ds2, w4, w5⟩ := ih s.e s.trace cs2 e2 t2 hw
        rw [v1] at w1 w2 w3
        refine ⟨w1, List.Forall₂.cons ⟨?_, ?_⟩ w2, ?_, ds1 ++ ds2, ?_, ?_⟩
        · intro ha
          refine ⟨t, s.trace, ?_⟩
          rw [v2 ha]
          obtain ⟨se, ssc, st⟩ := s
          simp only at v1
          rw [v1]
        · intro ha
          rw [v3 ha]
        · intro c1 hc1
          rcases List.mem_cons.1 hc1 with rfl | hc1
          · exact v4
          · exact w3 c1 hc1
        · rw [w4, v5, List.append_assoc]
        · rw [List.length_append, List.countP_cons]
          cases ha : c.awaitsVisit
          · simp only [ha, Bool.false_eq_true, if_false] at v6 ⊢
            omega
          · simp only [ha, if_true] at v6 ⊢
            omega

/-- On settled clients the walk of `InvokeHandlers` changes nothing. -/
theorem InvokeHandlersWalk_settled (env : Env) (e : StoreEntry) (cs : List store_client) :
    ∀ (t : List Effect), (∀ c ∈ cs, Settled e c) →
      InvokeHandlersWalk env cs e t = some (cs, e, t) := by
  induction cs with
  | nil =>
    intro t _
    rfl
  | cons c cs ih =>
    intro t hs
    simp only [InvokeHandlersWalk]
    rw [InvokeHandlersVisit_settled env { e := e, sc := c, trace := t }
      (hs c (List.mem_cons_self _ _))]
    dsimp only
    rw [ih t (fun c1 hc1 => hs c1 (List.mem_cons_of_mem _ hc1))]

/-- Claim C18: when `InvokeHandlers(e)` has returned, a second call right after
it (no producer progress, no disk completion, handlers that issue no new copy),
whatever the environment then answers, leaves the entry and all its clients as
they are and invokes no handler: its only call out of the file is the
`storeSwapOut(e)` every call of `InvokeHandlers` begins with. -/
theorem C18_InvokeHandlers_twice (env env2 : Env) (w w1 : World)
    (h : InvokeHandlers env w = some w1) :
    InvokeHandlers env2 w1 = some { w1 with trace := w1.trace ++ [Effect.storeSwapOut] } ∧
      deliveries (w1.trace ++ [Effect.storeSwapOut]) = deliveries w1.trace := by
  unfold InvokeHandlers at h
  split at h
  · simp at h
  · next mem hmem =>
    split at h
    · simp at h
    · next cs1 e1 t1 hw =>
      simp only [Option.some.injEq] at h
      subst h
      obtain ⟨a1, -, a3, -⟩ := InvokeHandlersWalk_spec env w.clients w.e _ cs1 e1 t1 hw
      subst a1
      refine ⟨?_, by simp [deliveries_append, deliveries]⟩
      unfold InvokeHandlers
      simp only [hmem]
      rw [InvokeHandlersWalk_settled env2 w.e cs1 _ a3]

/-- A client that is not due for a visit is settled. -/
theorem Settled_of_not_awaitsVisit (e : StoreEntry) (c : store_client)
    (h : c.awaitsVisit = false) : Settled e c := by
  unfold store_client.awaitsVisit at h
  by_cases hp : c.callbackPending = true
  · exact Or.inr (Or.inl (by simpa [hp] using h))
  · exact Or.inl (by simpa using hp)

/-- The walk of `InvokeHandlers` passes over settled clients at the head of the
list. -/
theorem InvokeHandlersWalk_append (env : Env) (e : StoreEntry)
    (pre rest : List store_client) :
    ∀ (t : List Effect), (∀ x ∈ pre, Settled e x) →
      InvokeHandlersWalk env (pre ++ rest) e t =
        (InvokeHandlersWalk env rest e t).map (fun r => (pre ++ r.1, r.2.1, r.2.2)) := by
  induction pre with
  | nil =>
    intro t _
    show InvokeHandlersWalk env rest e t = _
    cases InvokeHandlersWalk env rest e t <;> rfl
  | cons c pre ih =>
    intro t hs
    simp only [List.cons_append, InvokeHandlersWalk]
    rw [InvokeHandlersVisit_settled env { e := e, sc := c, trace := t }
      (hs c (List.mem_cons_self _ _))]
    dsimp only
    rw [show pre.append rest = pre ++ rest from rfl,
      ih t (fun x hx => hs x (List.mem_cons_of_mem _ hx))]
    cases InvokeHandlersWalk env rest e t <;> rfl

/-- A request inside the memory window from a client that needs no swap-in
handle is answered by `doCopy` with one call of the handler and no other call. -/
theorem doCopy_memory_hit_ready (env : Env) (s : Sys) (mem : MemObject) (hd d n : Nat)
    (hmem : s.e.mem_obj = some mem)
    (h1 : s.sc._callback.callback_handler = some hd)
    (h2 : s.sc._callback.callback_data = some d)
    (hneof : ¬ (s.e.store_status ≠ StoreStatus.STORE_PENDING ∧ 0 ≤ env.objectLen s.e ∧
      env.objectLen s.e ≤ s.sc.copyInto.offset))
    (hlo : mem.inmem_lo ≤ s.sc.copyInto.offset) (hhi : s.sc.copyInto.offset < mem.endOffset)
    (htype : ¬ (s.sc.type = ClientType.STORE_DISK_CLIENT ∧ s.sc.swapin_sio = none))
    (hcopy : env.data_hdr_copy mem s.sc.copyInto.offset s.sc.copyInto.length = (n : Int)) :
    ∃ s1, doCopy env s = some s1 ∧ s1.e = s.e ∧
      s1.trace = s.trace ++
        (if env.cbdataReferenceValid d then
          [Effect.handler hd d
            { error := false, length := n, offset := s.sc.cmp_offset,
              data := s.sc.copyInto.data }] else []) ∧
      s1.sc.cmp_offset = s.sc.copyInto.offset + (n : Int) ∧
      s1.sc.callbackPending = false ∧ s1.sc.store_copying = false := by
  have hn0 : ¬ ((n : Int) < 0) := by omega
  have hres : ∀ c : store_client, callbackResult c (n : Int) false =
      { error := false, length := n, offset := c.cmp_offset, data := c.copyInto.data } := by
    intro c
    simp only [callbackResult, hn0, if_false, Int.toNat_ofNat]
  obtain ⟨S1, k_e, k_sc, k_tr, hrun⟩ := doCopy_select_named env s hneof
  have k_mem : S1.e.mem_obj = some mem := by rw [k_e]; exact hmem
  have k_lo : mem.inmem_lo ≤ S1.sc.copyInto.offset := by rw [k_sc]; exact hlo
  have k_hi : S1.sc.copyInto.offset < mem.endOffset := by rw [k_sc]; exact hhi
  have k_h : S1.sc._callback.callback_handler = some hd := by rw [k_sc]; exact h1
  have k_d : S1.sc._callback.callback_data = some d := by rw [k_sc]; exact h2
  have k_cp : env.data_hdr_copy mem S1.sc.copyInto.offset S1.sc.copyInto.length = (n : Int) := by
    rw [k_sc]
    exact hcopy
  have hopen : ¬ (S1.sc.type = ClientType.STORE_DISK_CLIENT ∧ S1.sc.swapin_sio = none) := by
    rw [k_sc]
    exact htype
  rw [hrun, doCopySelect_open env S1 (waitingForMore_false S1 (fun _ => ⟨mem, k_mem, k_hi⟩)),
    doCopyOpen_ready env S1 hopen, doCopyMemOrDisk_hit_eq env S1 mem k_mem k_lo k_hi, k_cp]
  obtain ⟨s1, a1, a2, a3, a4⟩ := callback_done_spec env S1 (n : Int) false hd d k_h k_d
  refine ⟨s1, a1, a2.trans k_e, ?_, ?_, ?_, ?_⟩
  · rw [a3, hres, k_tr, k_sc]
  · rw [a4, k_sc]
    rfl
  · rw [a4]
    rfl
  · rw [a4]

/-- The copy engine run on a memory client that waits, outside the engine, at an
offset the memory now holds: the handler is called once, with the bytes the
memory copy returns. -/
theorem storeClientCopy2_redrive (env : Env) (e : StoreEntry) (c : store_client)
    (mem : MemObject) (hd d n : Nat) (t : List Effect)
    (hmem : e.mem_obj = some mem) (hst : e.store_status = StoreStatus.STORE_PENDING)
    (hfw : e.ENTRY_FWD_HDR_WAIT = false)
    (hty : c.type = ClientType.STORE_MEM_CLIENT)
    (h1 : c._callback.callback_handler = some hd) (h2 : c._callback.callback_data = some d)
    (hsc : c.store_copying = false) (hcep : c.copy_event_pending = false)
    (hvalid : env.cbdataReferenceValid d = true)
    (hlo : mem.inmem_lo ≤ c.copyInto.offset) (hhi : c.copyInto.offset < mem.endOffset)
    (hcopy : env.data_hdr_copy mem c.copyInto.offset c.copyInto.length = (n : Int)) :
    ∃ c1, storeClientCopy2 env { e := e, sc := c, trace := t } =
        some { e := e, sc := c1,
               trace := t ++ [Effect.handler hd d
                 { error := false, length := n, offset := c.cmp_offset,
                   data := c.copyInto.data }] } ∧
      c1.cmp_offset = c.copyInto.offset + (n : Int) ∧ c1.callbackPending = false := by
  obtain ⟨s1, a1, a2, a3, a4, a5, a6⟩ := doCopy_memory_hit_ready env
    { e := e, sc := c, trace := t } mem hd d n hmem h1 h2
    (fun x => x.1 hst) hlo hhi (fun x => by rw [hty] at x; exact absurd x.1 (by decide)) hcopy
  have hp : c.callbackPending = true := by
    simp [store_client.callbackPending, h1, h2]
  refine ⟨s1.sc, ?_, a4, a5⟩
  rw [storeClientCopy2_doCopy env { e := e, sc := c, trace := t } s1 hcep hfw hsc hp a1 a6]
  obtain ⟨se, ssc, st⟩ := s1
  simp only at a2 a3
  rw [a2, a3, hvalid]
  rfl

/-- Claim C11 as stated fails: a memory client waits at offset 200 for 100 bytes
of a pending entry; the producer has grown the entry to 350 bytes and calls
`InvokeHandlers`, but the entry still has `ENTRY_FWD_HDR_WAIT` set: the copy
engine returns at its guard, no handler is called and the copy stays pending. -/
theorem C11_counterexample :
    InvokeHandlers (sampleEnv sampleQuickAbort false)
        { e := { sampleEntry StoreStatus.STORE_PENDING true 350 10000 1 with
                 ENTRY_FWD_HDR_WAIT := true },
          clients := [samplePendingClient ClientType.STORE_MEM_CLIENT 200 100],
          trace := [] } =
      some
        { e := { sampleEntry StoreStatus.STORE_PENDING true 350 10000 1 with
                 ENTRY_FWD_HDR_WAIT := true },
          clients := [samplePendingClient ClientType.STORE_MEM_CLIENT 200 100],
          trace := [Effect.storeSwapOut] } := by
  decide

/-- Claim C11, amended.  When `InvokeHandlers(e)` returns, the entry is
unchanged, each client of the list with a pending callback and no disk read in
flight is the result of one run of `storeClientCopy2` on it, every other client
is untouched, and at most one handler call was made per client visited.  The run of
`storeClientCopy2` on a memory client that waits outside the copy engine at an
offset `o` with `inmem_lo ≤ o < endOffset`, on a pending entry without
`ENTRY_FWD_HDR_WAIT` and with valid callback data, calls the handler once, with
`min(request.length, endOffset - o)` bytes labelled offset `o` and no error
(assuming the memory copy returns that many bytes), and calls nothing else.
With the other clients of the list not due for a visit, `InvokeHandlers`
returns, having called `storeSwapOut` and then that handler. -/
theorem C11_InvokeHandlers (env : Env) (w : World) :
    (∀ w1, InvokeHandlers env w = some w1 →
      w1.e = w.e ∧
      List.Forall₂ (fun c c1 =>
        (c.awaitsVisit = true → ∃ t0 t2,
          storeClientCopy2 env { e := w.e, sc := c, trace := t0 }
            = some { e := w.e, sc := c1, trace := t2 }) ∧
        (c.awaitsVisit = false → c1 = c)) w.clients w1.clients ∧
      ∃ ds, deliveries w1.trace = deliveries w.trace ++ ds ∧
        ds.length ≤ w.clients.countP (fun c => c.awaitsVisit)) ∧
    (∀ (c : store_client) (mem : MemObject) (hd d : Nat),
      c ∈ w.clients →
      w.e.mem_obj = some mem → w.e.store_status = StoreStatus.STORE_PENDING →
      w.e.ENTRY_FWD_HDR_WAIT = false →
      c.type = ClientType.STORE_MEM_CLIENT →
      c._callback = { callback_handler := some hd, callback_data := some d } →
      c.disk_io_pending = false → c.store_copying = false →
      c.copy_event_pending = false → c.cmp_offset = c.copyInto.offset →
      env.cbdataReferenceValid d = true →
      mem.inmem_lo ≤ c.copyInto.offset → c.copyInto.offset < mem.endOffset →
      env.data_hdr_copy mem c.copyInto.offset c.copyInto.length =
        ((Nat.min c.copyInto.length (mem.endOffset - c.copyInto.offset).toNat : Nat) : Int) →
      c.awaitsVisit = true ∧
      (∀ t, ∃ c1,
        storeClientCopy2 env { e := w.e, sc := c, trace := t } =
          some { e := w.e, sc := c1,
                 trace := t ++ [Effect.handler hd d
                   { error := false
                     length := Nat.min c.copyInto.length
                       (mem.endOffset - c.copyInto.offset).toNat
                     offset := c.copyInto.offset
                     data := c.copyInto.data }] } ∧
        c1.cmp_offset = c.copyInto.offset +
          ((Nat.min c.copyInto.length (mem.endOffset - c.copyInto.offset).toNat : Nat) : Int) ∧
        c1.callbackPending = false) ∧
      (∀ pre post, w.clients = pre ++ c :: post →
        (∀ x ∈ pre ++ post, x.awaitsVisit = false) →
        ∃ c1, InvokeHandlers env w =
          some { e := w.e, clients := pre ++ c1 :: post,
                 trace := w.trace ++ [Effect.storeSwapOut, Effect.handler hd d
                   { error := false
                     length := Nat.min c.copyInto.length
                       (mem.endOffset - c.copyInto.offset).toNat
                     offset := c.copyInto.offset
                     data := c.copyInto.data }] } ∧
          c1.callbackPending = false)) := by
  constructor
  · intro w1 h
    unfold InvokeHandlers at h
    split at h
    · simp at h
    · split at h
      · simp at h
      · next cs1 e1 t1 hw =>
        simp only [Option.some.injEq] at h
        subst h
        obtain ⟨a1, a2, -, ds, a4, a5⟩ :=
          InvokeHandlersWalk_spec env w.clients w.e _ cs1 e1 t1 hw
        refine ⟨a1, a2, ds, ?_, a5⟩
        rw [a4]
        simp [deliveries_append, deliveries]
  · intro c mem hd d _ hmem hst hfw hty hcb hdio hsc hcep hcmp hvalid hlo hhi hcopy
    have h1 : c._callback.callback_handler = some hd := by rw [hcb]
    have h2 : c._callback.callback_data = some d := by rw [hcb]
    have haw : c.awaitsVisit = true := by
      simp [store_client.awaitsVisit, store_client.callbackPending, h1, h2, hdio]
    have hrun := fun t => storeClientCopy2_redrive env w.e c mem hd d
      (Nat.min c.copyInto.length (mem.endOffset - c.copyInto.offset).toNat) t
      hmem hst hfw hty h1 h2 hsc hcep hvalid hlo hhi hcopy
    rw [hcmp] at hrun
    refine ⟨haw, hrun, ?_⟩
    intro pre post hcl hidle
    obtain ⟨c1, r1, -, r3⟩ := hrun (w.trace ++ [Effect.storeSwapOut])
    refine ⟨c1, ?_, r3⟩
    unfold InvokeHandlers
    simp only [hmem]
    rw [hcl, InvokeHandlersWalk_append env w.e pre (c :: post) _
      (fun x hx => Settled_of_not_awaitsVisit w.e x
        (hidle x (List.mem_append_left _ hx)))]
    simp only [InvokeHandlersWalk]
    rw [InvokeHandlersVisit_run env _ haw, r1]
    dsimp only
    rw [InvokeHandlersWalk_settled env w.e post _
      (fun x hx => Settled_of_not_awaitsVisit w.e x
        (hidle x (List.mem_append_right _ hx)))]
    simp

/-- Claim C11 on the scenario of the specification: the entry has grown from 200
to 350 bytes, the memory client waits with `copy(offset=200, length=100)`, and
`InvokeHandlers` delivers 100 bytes labelled offset 200. -/
theorem C11_InvokeHandlers_witness :
    ∃ c1, InvokeHandlers (sampleEnv sampleQuickAbort false)
        { e := sampleEntry StoreStatus.STORE_PENDING true 350 10000 1,
          clients := [samplePendingClient ClientType.STORE_MEM_CLIENT 200 100],
          trace := [] } =
      some { e := sampleEntry StoreStatus.STORE_PENDING true 350 10000 1,
             clients := [c1],
             trace := [Effect.storeSwapOut, Effect.handler 1 2
               { error := false, length := 100, offset := 200, data := some 9 }] } ∧
      c1.callbackPending = false :=
  ((C11_InvokeHandlers (sampleEnv sampleQuickAbort false)
    { e := sampleEntry StoreStatus.STORE_PENDING true 350 10000 1,
      clients := [samplePendingClient ClientType.STORE_MEM_CLIENT 200 100],
      trace := [] }).2
    (samplePendingClient ClientType.STORE_MEM_CLIENT 200 100)
    (sampleMem true 350 1) 1 2 (by decide) rfl rfl rfl rfl rfl rfl rfl rfl rfl rfl
    (by decide) (by decide) (by decide)).2.2 [] [] rfl (by decide)

/-- Claim C18 on the producer-lag scenario: the first `InvokeHandlers` delivers
the waiting copy, the second one only calls `storeSwapOut`. -/
theorem C18_InvokeHandlers_twice_witness :
    InvokeHandlers (sampleEnv sampleQuickAbort false)
        { e := sampleEntry StoreStatus.STORE_PENDING true 350 10000 1,
          clients := [{ sampleClient ClientType.STORE_MEM_CLIENT with
            cmp_offset := 300
            copyInto := { sampleRequest 200 100 with data := none } }],
          trace := [Effect.storeSwapOut, Effect.handler 1 2 (sampleRequest 200 100)] } =
      some
        { e := sampleEntry StoreStatus.STORE_PENDING true 350 10000 1,
          clients := [{ sampleClient ClientType.STORE_MEM_CLIENT with
            cmp_offset := 300
            copyInto := { sampleRequest 200 100 with data := none } }],
          trace := [Effect.storeSwapOut, Effect.handler 1 2 (sampleRequest 200 100),
            Effect.storeSwapOut] } :=
  (C18_InvokeHandlers_twice (sampleEnv sampleQuickAbort false)
    (sampleEnv sampleQuickAbort false)
    { e := sampleEntry StoreStatus.STORE_PENDING true 350 10000 1,
      clients := [samplePendingClient ClientType.STORE_MEM_CLIENT 200 100],
      trace := [] } _ (by decide)).1

/-! ### Registration and unregistration -/

/-- The two-step integer test against its product forms: `c / (x / 100) > p`
says `c ≥ (p + 1) * (x / 100)`; the cross-multiplied inequality gives only
`c / (x / 100) ≥ p`, and follows from the test when `x` is a multiple of 100. -/
theorem percent_test_forms (c x p : Nat) (h100 : 100 ≤ x) :
    (c / (x / 100) > p ↔ c ≥ (p + 1) * (x / 100)) ∧
      (c * 100 > p * x → c / (x / 100) ≥ p) ∧
      (x % 100 = 0 → c / (x / 100) > p → c * 100 > p * x) := by
  have hk : 0 < x / 100 := Nat.div_pos h100 (by decide)
  have hiff : c / (x / 100) > p ↔ c ≥ (p + 1) * (x / 100) :=
    (Nat.le_div_iff_mul_le hk)
  refine ⟨hiff, ?_, ?_⟩
  · intro hcross
    apply (Nat.le_div_iff_mul_le hk).2
    have h1 : x / 100 * 100 ≤ x := Nat.div_mul_le_self x 100
    have h2 : p * (x / 100 * 100) ≤ p * x := Nat.mul_le_mul_left p h1
    have h3 : p * (x / 100 * 100) = p * (x / 100) * 100 := by ring
    generalize p * (x / 100) = a at *
    generalize p * x = b at *
    omega
  · intro hmod htest
    have h0 := hiff.1 htest
    have h1 : x = x / 100 * 100 := by omega
    have h2 : p * x = p * (x / 100) * 100 := by
      conv_lhs => rw [h1]
      ring
    have h3 : (p + 1) * (x / 100) = p * (x / 100) + x / 100 := by ring
    rw [h3] at h0
    rw [h2]
    generalize p * (x / 100) = a at *
    omega

/-- Claim C20 as stated fails: for `curLen = 96`, `expectLen = 199` and
`pct = 95` the test of the code holds (`96 / (199 / 100) = 96 > 95`) and
`CheckQuickAbort2` answers "do not abort, past point of no return", but the
cross-multiplied inequality `96 * 100 > 95 * 199` is false. -/
theorem C20_counterexample :
    CheckQuickAbort2 { min := 0, max := 256, pct := 95 }
        (sampleEntry StoreStatus.STORE_PENDING true 96 199 0) = some false ∧
      (96 : Nat) ≤ 199 ∧ (96 : Nat) / (199 / 100) > 95 ∧ ¬ ((96 : Nat) * 100 > 95 * 199) := by
  decide

/-- Claim C20, amended: when `CheckQuickAbort2` reaches its percent test (a
cacheable request, a public key, `curLen ≤ expectLen`, at least the configured
minimum and at most the configured maximum left, `expectLen ≥ 100`), it answers
"do not abort" exactly when `curLen / (expectLen / 100) > pct` under truncating
division, which holds exactly when `curLen ≥ (pct + 1) * (expectLen / 100)`.
The cross-multiplied form is not equivalent: `curLen * 100 > pct * expectLen`
gives only `curLen / (expectLen / 100) ≥ pct`, and it follows from the test
when `expectLen` is a multiple of 100. -/
theorem C20_percent_test (entry : StoreEntry) (mem : MemObject) (mn : Int)
    (curLen expectLen mx pct : Nat) (hmem : entry.mem_obj = some mem)
    (hcach : mem.nonCachable = false) (hkey : entry.KEY_PRIVATE = false)
    (hc : mem.endOffset = (curLen : Int))
    (hx : entry.reply.content_length + entry.reply.hdr_sz = (expectLen : Int))
    (hxr : expectLen < 2 ^ 63) (hmx : mx < 2 ^ 53) (hpc : pct < 2 ^ 63)
    (h100 : 100 ≤ expectLen) (hle : curLen ≤ expectLen)
    (hmin : shl10SizeT (toSizeT mn) ≤ expectLen - curLen)
    (hmax : expectLen - curLen ≤ mx * 1024) :
    (CheckQuickAbort2 { min := mn, max := (mx : Int), pct := (pct : Int) } entry = some false ↔
        curLen / (expectLen / 100) > pct) ∧
      (curLen / (expectLen / 100) > pct ↔ curLen ≥ (pct + 1) * (expectLen / 100)) ∧
      (curLen * 100 > pct * expectLen → curLen / (expectLen / 100) ≥ pct) ∧
      (expectLen % 100 = 0 → curLen / (expectLen / 100) > pct →
        curLen * 100 > pct * expectLen) := by
  refine ⟨?_, percent_test_forms curLen expectLen pct h100⟩
  rw [CheckQuickAbort2_cascade entry mem mn expectLen curLen mx pct hmem hc hx (by omega) hxr
    hmx hpc, hcach, hkey]
  have h1 : ¬ (curLen > expectLen) := by omega
  have h3 : ¬ (expectLen - curLen > mx * 1024) := by omega
  by_cases ht : curLen / (expectLen / 100) > pct
  · simp [h1, hmin, h3, h100, ht]
  · simp [h1, hmin, h3, h100, ht]

/-- Claim C20 on a sample: 9800 of 10000 bytes are past the 95 percent mark, in
the two-step form (`9800 / 100 = 98 > 95`) and as a product (`9800 ≥ 96 * 100`). -/
theorem C20_percent_test_witness :
    (CheckQuickAbort2 { min := 0, max := 256, pct := 95 }
          (sampleEntry StoreStatus.STORE_PENDING true 9800 10000 0) = some false ↔
        9800 / (10000 / 100) > 95) ∧
      (9800 / (10000 / 100) > 95 ↔ 9800 ≥ (95 + 1) * (10000 / 100)) ∧
      (9800 * 100 > 95 * 10000 → 9800 / (10000 / 100) ≥ 95) ∧
      (10000 % 100 = 0 → 9800 / (10000 / 100) > 95 → 9800 * 100 > 95 * 10000) :=
  C20_percent_test (sampleEntry StoreStatus.STORE_PENDING true 9800 10000 0)
    (sampleMem true 9800 0) 0 9800 10000 256 95 rfl rfl rfl rfl (by decide) (by decide)
    (by decide) (by decide) (by decide) (by decide) (by decide) (by decide)

/-! ### The guards of the copy engine -/

/-- A return path of `doCopy` that ends by clearing `store_copying`. -/
theorem map_doneCopying_clears (r : Option Sys) (s1 : Sys)
    (h : r.map doneCopying = some s1) : s1.sc.store_copying = false := by
  cases r with
  | none => simp at h
  | some s2 =>
    simp only [Option.map_some', Option.some.injEq] at h
    subst h
    rfl

/-- On every return path of `doCopy` the flag `store_copying` is clear. -/
theorem doCopy_clears_store_copying (env : Env) (s s1 : Sys) (h : doCopy env s = some s1) :
    s1.sc.store_copying = false := by
  have hmem : ∀ S : Sys, doCopyMemOrDisk env S = some s1 → s1.sc.store_copying = false := by
    intro S hS
    unfold doCopyMemOrDisk at hS
    split at hS
    · simp at hS
    · split_ifs at hS
      · exact map_doneCopying_clears _ s1 hS
      · exact map_doneCopying_clears _ s1 hS
  have hopen : ∀ S : Sys, doCopyOpen env S = some s1 → s1.sc.store_copying = false := by
    intro S hS
    unfold doCopyOpen at hS
    dsimp only at hS
    split_ifs at hS
    · exact map_doneCopying_clears _ s1 hS
    · exact map_doneCopying_clears _ s1 hS
    · exact hmem _ hS
    · simp only [Option.some.injEq] at hS
      subst hS
      rfl
    · exact hmem _ hS
  unfold doCopy at h
  dsimp only at h
  split_ifs at h
  · exact map_doneCopying_clears _ s1 h
  · unfold doCopySelect at h
    split at h
    · simp at h
    · simp only [Option.some.injEq] at h
      subst h
      rfl
    · exact hopen _ h

/-- Claim C22: `storeClientCopy2` is guarded against re-entry.  With
`copy_event_pending` set, or `ENTRY_FWD_HDR_WAIT` set on the entry, it returns
the state as it is (no call leaves the file).  Otherwise, with `store_copying`
set, it sets `copy_event_pending`, calls `eventAdd` once for
`storeClientCopyEvent` with delay 0, and changes nothing else.  With all three
clear (and a pending callback, which it asserts) it is `doCopy`; and whenever
`doCopy` returns, `store_copying` is clear. -/
theorem C22_storeClientCopy2_guards (env : Env) (s : Sys) :
    ((s.sc.copy_event_pending = true ∨ s.e.ENTRY_FWD_HDR_WAIT = true) →
      storeClientCopy2 env s = some s) ∧
    (s.sc.copy_event_pending = false → s.e.ENTRY_FWD_HDR_WAIT = false →
      s.sc.store_copying = true →
      storeClientCopy2 env s =
        some { s with
          sc := { s.sc with copy_event_pending := true }
          trace := s.trace ++ [Effect.eventAdd] }) ∧
    (s.sc.copy_event_pending = false → s.e.ENTRY_FWD_HDR_WAIT = false →
      s.sc.store_copying = false → s.sc.callbackPending = true →
      storeClientCopy2 env s = doCopy env s) ∧
    (∀ s1, doCopy env s = some s1 → s1.sc.store_copying = false) := by
  refine ⟨?_, ?_, ?_, doCopy_clears_store_copying env s⟩
  · intro h
    unfold storeClientCopy2
    by_cases c1 : s.sc.copy_event_pending = true
    · rw [if_pos c1]
    · rw [if_neg c1, if_pos (h.resolve_left c1)]
  · intro c1 c2 c3
    unfold storeClientCopy2
    rw [if_neg (by simp [c1]), if_neg (by simp [c2]), if_pos c3]
  · intro c1 c2 c3 hp
    rw [storeClientCopy2_run env s c1 c2 c3 hp]
    cases hd : doCopy env s with
    | none => rfl
    | some s1 =>
      simp only
      rw [if_neg (by simp [doCopy_clears_store_copying env s s1 hd])]

/-- Claim C22 on samples: a client whose copy event is queued is left alone; a
client inside the copy engine gets its copy event queued; a waiting memory
client outside the engine is served by `doCopy`, which leaves `store_copying`
clear. -/
theorem C22_storeClientCopy2_guards_witness :
    storeClientCopy2 (sampleEnv sampleQuickAbort false)
        { e := sampleDoneEntry,
          sc := { samplePendingClient ClientType.STORE_MEM_CLIENT 0 500 with
            copy_event_pending := true },
          trace := [] } =
      some
        { e := sampleDoneEntry,
          sc := { samplePendingClient ClientType.STORE_MEM_CLIENT 0 500 with
            copy_event_pending := true },
          trace := [] } ∧
    storeClientCopy2 (sampleEnv sampleQuickAbort false)
        { e := sampleDoneEntry,
          sc := { samplePendingClient ClientType.STORE_MEM_CLIENT 0 500 with
            store_copying := true },
          trace := [] } =
      some
        { e := sampleDoneEntry,
          sc := { samplePendingClient ClientType.STORE_MEM_CLIENT 0 500 with
            store_copying := true, copy_event_pending := true },
          trace := [Effect.eventAdd] } ∧
    storeClientCopy2 (sampleEnv sampleQuickAbort false)
        { e := sampleDoneEntry, sc := samplePendingClient ClientType.STORE_MEM_CLIENT 0 500,
          trace := [] } =
      doCopy (sampleEnv sampleQuickAbort false)
        { e := sampleDoneEntry, sc := samplePendingClient ClientType.STORE_MEM_CLIENT 0 500,
          trace := [] } ∧
    (doCopy (sampleEnv sampleQuickAbort false)
        { e := sampleDoneEntry, sc := samplePendingClient ClientType.STORE_MEM_CLIENT 0 500,
          trace := [] } =
      some
        { e := sampleDoneEntry,
          sc := { sampleClient ClientType.STORE_MEM_CLIENT with
            cmp_offset := 500
            copyInto := { sampleRequest 0 500 with data := none } },
          trace := [Effect.handler 1 2 (sampleRequest 0 500)] } ∧
      ({ sampleClient ClientType.STORE_MEM_CLIENT with
          cmp_offset := 500
          copyInto := { sampleRequest 0 500 with data := none } } : store_client).store_copying
        = false) :=
  ⟨(C22_storeClientCopy2_guards (sampleEnv sampleQuickAbort false)
      { e := sampleDoneEntry,
        sc := { samplePendingClient ClientType.STORE_MEM_CLIENT 0 500 with
          copy_event_pending := true },
        trace := [] }).1 (Or.inl rfl),
    (C22_storeClientCopy2_guards (sampleEnv sampleQuickAbort false)
      { e := sampleDoneEntry,
        sc := { samplePendingClient ClientType.STORE_MEM_CLIENT 0 500 with
          store_copying := true },
        trace := [] }).2.1 rfl rfl rfl,
    (C22_storeClientCopy2_guards (sampleEnv sampleQuickAbort false)
      { e := sampleDoneEntry, sc := samplePendingClient ClientType.STORE_MEM_CLIENT 0 500,
        trace := [] }).2.2.1 rfl rfl rfl rfl,
    by decide,
    (C22_storeClientCopy2_guards (sampleEnv sampleQuickAbort false)
      { e := sampleDoneEntry, sc := samplePendingClient ClientType.STORE_MEM_CLIENT 0 500,
        trace := [] }).2.2.2
      { e := sampleDoneEntry,
        sc := { sampleClient ClientType.STORE_MEM_CLIENT with
          cmp_offset := 500
          copyInto := { sampleRequest 0 500 with data := none } },
        trace := [Effect.handler 1 2 (sampleRequest 0 500)] } (by decide)⟩

/-! ### The disk read -/

/-- Claim C21, the input on which the code departs from it: a disk client with
an open swap-in handle copies 100 bytes at offset 50 of an entry whose memory
window starts at 100 and whose `swap_hdr_sz` is still 0: `doCopy` takes the disk
path and `fileRead` issues the read with the header completion, but at disk
offset 50 (`copyInto.offset + mem->swap_hdr_sz`), not at disk offset 0 where
the swap header that the header completion unpacks is stored. -/
theorem C21_counterexample :
    doCopy (sampleEnv sampleQuickAbort false)
        { e := sampleWindowEntry,
          sc := { samplePendingClient ClientType.STORE_DISK_CLIENT 50 100 with
            swapin_sio := some 7 },
          trace := [] } =
      some
        { e := sampleWindowEntry,
          sc := { samplePendingClient ClientType.STORE_DISK_CLIENT 50 100 with
            swapin_sio := some 7, disk_io_pending := true },
          trace := [Effect.storeRead (some 7) (some 9) 100 50
            ReadCallback.storeClientReadHeader] } := by
  decide

/-- Claim C21 against the code: when its assertions hold (a pending callback,
no disk read in flight, and the swap-out position ahead of the request while
the entry is being swapped out with a known header), `fileRead` sets
`disk_io_pending` and issues exactly one `storeRead` of `copyInto.length` bytes
into `copyInto.data`.  With a non-zero `swap_hdr_sz` the read is at disk offset
`copyInto.offset + swap_hdr_sz` and completes to the body handler, as claimed.
With `swap_hdr_sz` zero it completes to the header handler, as claimed, but it
is at disk offset `copyInto.offset`: that is the claimed disk offset 0 exactly
when the request offset is 0, and the code departs from the claim for every
other request offset.  This is the read `doCopy` ends with when it takes the
disk path (a disk client that has or gets a swap-in handle, the request not at
end of object, not waiting for the producer and outside the memory window). -/
theorem C21_fileRead (env : Env) (s : Sys) (mem : MemObject)
    (hmem : s.e.mem_obj = some mem) (hp : s.sc.callbackPending = true)
    (hdio : s.sc.disk_io_pending = false)
    (hsw : mem.swap_hdr_sz ≠ 0 → s.e.swap_status = SwapStatus.SWAPOUT_WRITING →
      mem.swapout_sio_offset > s.sc.copyInto.offset + (mem.swap_hdr_sz : Int)) :
    ∃ offset callback,
      fileRead s =
        some { s with
          sc := { s.sc with disk_io_pending := true }
          trace := s.trace ++ [Effect.storeRead s.sc.swapin_sio s.sc.copyInto.data
            s.sc.copyInto.length offset callback] } ∧
      (mem.swap_hdr_sz ≠ 0 →
        offset = s.sc.copyInto.offset + (mem.swap_hdr_sz : Int) ∧
          callback = ReadCallback.storeClientReadBody) ∧
      (mem.swap_hdr_sz = 0 →
        offset = s.sc.copyInto.offset ∧ callback = ReadCallback.storeClientReadHeader ∧
          (offset = 0 ↔ s.sc.copyInto.offset = 0)) ∧
      (s.sc.type = ClientType.STORE_DISK_CLIENT →
        ¬ (s.e.store_status ≠ StoreStatus.STORE_PENDING ∧ 0 ≤ env.objectLen s.e ∧
          env.objectLen s.e ≤ s.sc.copyInto.offset) →
        (s.e.store_status = StoreStatus.STORE_PENDING →
          s.sc.copyInto.offset < mem.endOffset) →
        ¬ (mem.inmem_lo ≤ s.sc.copyInto.offset ∧ s.sc.copyInto.offset < mem.endOffset) →
        (s.sc.swapin_sio ≠ none ∨
          (env.storeTooManyDiskFilesOpen = false ∧
            ∀ c, env.storeSwapInStart s.e c ≠ none)) →
        ∃ s1 pre sio, doCopy env s = some s1 ∧ s1.e = s.e ∧ sio ≠ none ∧
          s1.trace = s.trace ++ pre ++
            [Effect.storeRead sio s.sc.copyInto.data s.sc.copyInto.length offset callback] ∧
          (pre = [] ∨ pre = [Effect.storeSwapInStart]) ∧
          s1.sc.disk_io_pending = true ∧ s1.sc.callbackPending = true) := by
  refine ⟨s.sc.copyInto.offset + (mem.swap_hdr_sz : Int),
    (if mem.swap_hdr_sz = 0 then ReadCallback.storeClientReadHeader
      else ReadCallback.storeClientReadBody),
    fileRead_spec s mem hmem hp hdio hsw, ?_, ?_, ?_⟩
  · intro h
    exact ⟨rfl, if_neg h⟩
  · intro h
    have ho : s.sc.copyInto.offset + (mem.swap_hdr_sz : Int) = s.sc.copyInto.offset := by
      rw [h]
      simp
    refine ⟨ho, if_pos h, ?_⟩
    rw [ho]
  · intro hty hneof hnwait hout hsio
    obtain ⟨s1, pre, sio, a1, a2, a3, a4, a5, a6, a7, -⟩ :=
      doCopy_disk_read env s mem hmem hp hneof hnwait hout hty hdio hsio hsw
    exact ⟨s1, pre, sio, a1, a2, a3, a4, a5, a6, a7⟩

/-- Claim C21 on samples: with the header size still unknown a request at offset
0 is read at disk offset 0 with the header completion; with a header of 120
bytes a request at offset 50 is read at disk offset 170 with the body
completion. -/
theorem C21_fileRead_witness :
    fileRead
        { e := sampleWindowEntry,
          sc := { samplePendingClient ClientType.STORE_DISK_CLIENT 0 100 with
            swapin_sio := some 7 },
          trace := [] } =
      some
        { e := sampleWindowEntry,
          sc := { samplePendingClient ClientType.STORE_DISK_CLIENT 0 100 with
            swapin_sio := some 7, disk_io_pending := true },
          trace := [Effect.storeRead (some 7) (some 9) 100 0
            ReadCallback.storeClientReadHeader] } ∧
    fileRead
        { e := { sampleWindowEntry with
            mem_obj := some { sampleMem true 1000 1 with
              object_sz := 1000, inmem_lo := 100, swap_hdr_sz := 120 } },
          sc := { samplePendingClient ClientType.STORE_DISK_CLIENT 50 100 with
            swapin_sio := some 7 },
          trace := [] } =
      some
        { e := { sampleWindowEntry with
            mem_obj := some { sampleMem true 1000 1 with
              object_sz := 1000, inmem_lo := 100, swap_hdr_sz := 120 } },
          sc := { samplePendingClient ClientType.STORE_DISK_CLIENT 50 100 with
            swapin_sio := some 7, disk_io_pending := true },
          trace := [Effect.storeRead (some 7) (some 9) 100 170
            ReadCallback.storeClientReadBody] } := by
  constructor
  · obtain ⟨offset, callback, h1, -, h3, -⟩ := C21_fileRead (sampleEnv sampleQuickAbort false)
      { e := sampleWindowEntry,
        sc := { samplePendingClient ClientType.STORE_DISK_CLIENT 0 100 with
          swapin_sio := some 7 },
        trace := [] }
      { sampleMem true 1000 1 with object_sz := 1000, inmem_lo := 100 } rfl rfl rfl
      (fun h => absurd rfl h)
    obtain ⟨-, h4, h5⟩ := h3 rfl
    rw [h1, h4, h5.2 rfl]
    rfl
  · obtain ⟨offset, callback, h1, h2, -, -⟩ := C21_fileRead (sampleEnv sampleQuickAbort false)
      { e := { sampleWindowEntry with
          mem_obj := some { sampleMem true 1000 1 with
            object_sz := 1000, inmem_lo := 100, swap_hdr_sz := 120 } },
        sc := { samplePendingClient ClientType.STORE_DISK_CLIENT 50 100 with
          swapin_sio := some 7 },
        trace := [] }
      { sampleMem true 1000 1 with object_sz := 1000, inmem_lo := 100, swap_hdr_sz := 120 }
      rfl rfl rfl (fun _ h => absurd h (by decide))
    obtain ⟨h4, h5⟩ := h2 (by decide)
    rw [h1, h4, h5]
    rfl

/-! ### The arithmetic of quick abort -/

end StoreClient
